import Mathlib

/-
Verification development for the STIG checklist / CCI catalog mapping engine
(`src/src-tauri/src/stig.rs`).

The Rust code consumes XML through the quick_xml pull reader: its parsing
loops literally match on `Event::Start / Event::Text / Event::End /
Event::Empty / Event::Eof / Err`.  We therefore embed the engine at exactly
that boundary: documents are lists of reader events (`XEvent`), and each
parser is the fold that the corresponding Rust loop performs over the event
stream.  The reader itself (tokenisation, entity unescaping, and the
`trim_text(true)` configuration that drops whitespace-only text events and
trims the edges of the others) is library code, not repository code.

Rust `String` operations used by the engine are modelled on `List Char`
(`strTrim`, `strToLower`, lexicographic order, ...) so that every definition
evaluates inside the kernel.  Rust's `str::trim` / `to_lowercase` operate on
full Unicode; the models use Lean's `Char.isWhitespace` / `Char.toLower`,
which agree on ASCII and on every character the checklist format uses.
`HashMap<String, String>` is modelled as an association list with
replace-on-insert (`insertA` / `getA`); the one place the Rust code iterates
over a map (collecting `CCI_REF` entries) is modelled as a lookup, which is
justified where it is used (a hash map holds at most one entry per key).
-/

/-- Models Rust `str::trim`: removes leading and trailing whitespace. -/
def strTrim (s : String) : String :=
  ⟨((s.data.dropWhile Char.isWhitespace).reverse.dropWhile Char.isWhitespace).reverse⟩

/-- Models Rust `str::to_lowercase` (ASCII-faithful). -/
def strToLower (s : String) : String :=
  ⟨s.data.map Char.toLower⟩

/-- Lexicographic (byte/codepoint) order on character lists, modelling Rust's
`Ord` for `String` (which compares the UTF-8 byte sequences; for valid
Unicode, byte order and codepoint order coincide). -/
def lexLe : List Char → List Char → Bool
  | [], _ => true
  | _ :: _, [] => false
  | c :: cs, d :: ds => if c < d then true else if c = d then lexLe cs ds else false

/-- Strict lexicographic order on character lists. -/
def lexLt : List Char → List Char → Bool
  | [], [] => false
  | [], _ :: _ => true
  | _ :: _, [] => false
  | c :: cs, d :: ds => if c < d then true else if c = d then lexLt cs ds else false

/-- Models `definition.split('.').next().unwrap_or(truncation)` from
`parse_cci_list` (stig.rs:208-210): `split('.')` always yields at least one
piece — the text before the first `'.'`, or the whole string when there is
none — so `next()` is always `some` and the `unwrap_or` truncation branch is
unreachable.  The first piece is exactly `takeWhile (· ≠ '.')`. -/
def firstSplitPiece (s : String) : String :=
  ⟨s.data.takeWhile (fun c => c ≠ '.')⟩

/-- Models Rust `str::contains(pattern)`: substring containment. -/
def containsSubstr (s pat : String) : Bool :=
  decide (pat.data <:+: s.data)

/-- Association list lookup (models `HashMap::get`). -/
def getA (m : List (String × String)) (k : String) : Option String :=
  (m.find? (fun p => p.1 = k)).map (fun p => p.2)

/-- Association list insert with replace-on-collision (models `HashMap::insert`). -/
def insertA (m : List (String × String)) (k v : String) : List (String × String) :=
  if m.any (fun p => p.1 = k) then
    m.map (fun p => if p.1 = k then (k, v) else p)
  else
    m ++ [(k, v)]

/-- First attribute with the given key, or the empty string (models the
attribute scans in `parse_cci_list`, stig.rs:156-163 and 177-187). -/
def attrGet (attrs : List (String × String)) (k : String) : String :=
  ((attrs.find? (fun p => p.1 = k)).map (fun p => p.2)).getD ""

/-! ## Data model (stig.rs:23-120) -/

/-- Models `CCIMapping` (stig.rs:24-32). -/
structure CCIMapping where
  id : String
  title : String
  definition : String
  nist_controls : List String
  cci_type : String
  status : String
  publish_date : String
deriving DecidableEq

/-- Models `STIGVulnerability` (stig.rs:35-52). -/
structure STIGVulnerability where
  vuln_num : String
  severity : String
  group_title : String
  rule_id : String
  rule_ver : String
  rule_title : String
  vuln_discuss : String
  check_content : String
  fix_text : String
  cci_refs : List String
  status : String
  finding_details : String
  comments : String
  severity_override : Option String
  severity_justification : Option String
  stig_id : String
deriving DecidableEq

/-- Models `AssetInfo` (stig.rs:55-69). -/
structure AssetInfo where
  role : String
  asset_type : String
  marking : String
  host_name : String
  host_ip : String
  host_mac : String
  host_fqdn : String
  target_comment : String
  tech_area : String
  target_key : String
  web_or_database : Bool
  web_db_site : String
  web_db_instance : String
deriving DecidableEq

/-- Models `STIGInfo` (stig.rs:72-84). -/
structure STIGInfo where
  version : String
  classification : String
  custom_name : String
  stig_id : String
  description : String
  file_name : String
  release_info : String
  title : String
  uuid : String
  notice : String
  source : String
deriving DecidableEq

/-- Models `STIGChecklist` (stig.rs:87-91). -/
structure STIGChecklist where
  asset : AssetInfo
  stig_info : STIGInfo
  vulnerabilities : List STIGVulnerability
deriving DecidableEq

/-- Models `MappedControl` (stig.rs:94-100). -/
structure MappedControl where
  nist_control : String
  ccis : List String
  stigs : List STIGVulnerability
  compliance_status : String
  risk_level : String
deriving DecidableEq

/-- Models `MappingSummary` (stig.rs:103-112). -/
structure MappingSummary where
  total_controls : Nat
  compliant_controls : Nat
  non_compliant_controls : Nat
  not_applicable_controls : Nat
  not_reviewed_controls : Nat
  high_risk_findings : Nat
  medium_risk_findings : Nat
  low_risk_findings : Nat
deriving DecidableEq

/-- Models `STIGMappingResult` (stig.rs:115-120). -/
structure STIGMappingResult where
  checklist : STIGChecklist
  cci_mappings : List CCIMapping
  mapped_controls : List MappedControl
  summary : MappingSummary
deriving DecidableEq

deriving instance DecidableEq for Except

/-! ## Reader events and errors -/

/-- Models the quick_xml reader events the engine matches on.  `text` carries
the already-unescaped content (the Rust code calls `e.unescape()` on every
text event; with `trim_text(true)` the reader never yields whitespace-only
text).  `err` models `Err(e)` from `read_event_into`, carrying the message the
engine would format into its error. -/
inductive XEvent where
  | startTag (name : String) (attrs : List (String × String))
  | endTag (name : String)
  | emptyTag (name : String) (attrs : List (String × String))
  | text (s : String)
  | comment
  | decl
  | eof
  | err (msg : String)
deriving DecidableEq

/-- Models `StigError` (stig.rs:8-21).  The `Io` and `Serialization` variants
never arise at the event-stream boundary; an unreadable or malformed file is
represented by a stream containing `XEvent.err`. -/
inductive StigError where
  | xmlParsing (msg : String)
  | invalidFormat (msg : String)
deriving DecidableEq

/-! ## Catalog parser: `parse_cci_list` (stig.rs:122-240) -/

/-- Mutable locals of the `parse_cci_list` loop (stig.rs:127-133).
`_in_cci_item` is never read by the Rust code and is omitted. -/
structure CciState where
  cci_mappings : List CCIMapping
  current_cci : Option CCIMapping
  current_element : String
  current_text : String
  in_references : Bool
deriving DecidableEq

def initCciState : CciState :=
  { cci_mappings := [], current_cci := none, current_element := "",
    current_text := "", in_references := false }

/-- The `Event::Empty` handling for one `reference` element (stig.rs:176-195):
push the trimmed index onto the record's control list when the cross-reference
title mentions "NIST SP 800-53", the index is non-empty, and the value is not
already present. -/
def refPush (cci : CCIMapping) (attrs : List (String × String)) : CCIMapping :=
  let title := attrGet attrs "title"
  let index := attrGet attrs "index"
  if containsSubstr title "NIST SP 800-53" ∧ index ≠ "" then
    let clean_index := strTrim index
    if clean_index ≠ "" ∧ ¬ cci.nist_controls.contains clean_index then
      { cci with nist_controls := cci.nist_controls ++ [clean_index] }
    else cci
  else cci

/-- Stage one of `Event::End` handling (stig.rs:204-217): text assignment
keyed on `current_element`, the most recently started element. -/
def cciEndAssign (st : CciState) : CciState :=
  match st.current_cci with
  | some cci =>
    if st.current_element = "definition" then
      let d := strTrim st.current_text
      { st with current_cci := some ({ cci with definition := d, title := firstSplitPiece d }) }
    else if st.current_element = "type" then
      { st with current_cci := some ({ cci with cci_type := strTrim st.current_text }) }
    else if st.current_element = "status" then
      { st with current_cci := some ({ cci with status := strTrim st.current_text }) }
    else if st.current_element = "publishdate" then
      { st with current_cci := some ({ cci with publish_date := strTrim st.current_text }) }
    else st
  | none => st

/-- Stage two of `Event::End` handling (stig.rs:219-228): block exits; a
completed item is kept only when its identifier is non-empty. -/
def cciEndExit (st : CciState) (name : String) : CciState :=
  if name = "cci_item" then
    match st.current_cci with
    | some cci =>
      { st with
        current_cci := none
        cci_mappings := if cci.id ≠ "" then st.cci_mappings ++ [cci] else st.cci_mappings }
    | none => { st with current_cci := none }
  else if name = "references" then { st with in_references := false }
  else st

/-- One iteration of the `parse_cci_list` loop on a non-terminating event
(stig.rs:138-236). -/
def cciStep (st : CciState) (e : XEvent) : CciState :=
  match e with
  | .startTag name attrs =>
    -- stig.rs:139-172
    let st := { st with current_element := name }
    let st :=
      if name = "cci_item" then
        let cci0 : CCIMapping :=
          { id := attrGet attrs "id", title := "", definition := "",
            nist_controls := [], cci_type := "", status := "", publish_date := "" }
        { st with current_cci := some cci0 }
      else if name = "references" then { st with in_references := true }
      else st
    { st with current_text := "" }
  | .emptyTag name attrs =>
    -- stig.rs:173-197 (note: no `current_text.clear()` and no
    -- `current_element` update on `Event::Empty`; when nothing is pushed the
    -- record, and hence the state, is returned unchanged)
    if name = "reference" ∧ st.in_references then
      match st.current_cci with
      | some cci => { st with current_cci := some (refPush cci attrs) }
      | none => st
    else st
  | .text s =>
    -- stig.rs:198-200
    { st with current_text := st.current_text ++ s }
  | .endTag name =>
    -- stig.rs:201-231
    { cciEndExit (cciEndAssign st) name with current_text := "" }
  | .comment => st
  | .decl => st
  | .eof => st
  | .err _ => st

/-- The `parse_cci_list` loop: runs `cciStep` until `Eof` (break) or a reader
error (early return, stig.rs:232-233). -/
def runCci : CciState → List XEvent → Except StigError CciState
  | st, [] => .ok st
  | st, .eof :: _ => .ok st
  | _, .err msg :: _ => .error (.xmlParsing msg)
  | st, e :: rest => runCci (cciStep st e) rest

/-- Models `parse_cci_list` (stig.rs:122-240) over the event stream of the
supplied document. -/
def parse_cci_list (doc : List XEvent) : Except StigError (List CCIMapping) :=
  (runCci initCciState doc).map (fun st => st.cci_mappings)

/-! ## Checklist parser: `parse_stig_checklist` (stig.rs:242-468) -/

/-- Mutable locals of the `parse_stig_checklist` loop (stig.rs:249-290).
`_current_element` is never read and is omitted. -/
structure ChkState where
  asset : AssetInfo
  stig_info : STIGInfo
  vulnerabilities : List STIGVulnerability
  current_text : String
  in_asset : Bool
  in_stig_info : Bool
  in_vuln : Bool
  current_vuln : Option STIGVulnerability
  stig_data_map : List (String × String)
  si_data_map : List (String × String)
  current_vuln_attribute : String
  current_sid_name : String
deriving DecidableEq

def emptyAsset : AssetInfo :=
  { role := "", asset_type := "", marking := "", host_name := "", host_ip := "",
    host_mac := "", host_fqdn := "", target_comment := "", tech_area := "",
    target_key := "", web_or_database := false, web_db_site := "", web_db_instance := "" }

def emptyStigInfo : STIGInfo :=
  { version := "", classification := "", custom_name := "", stig_id := "",
    description := "", file_name := "", release_info := "", title := "",
    uuid := "", notice := "", source := "" }

def emptyVuln : STIGVulnerability :=
  { vuln_num := "", severity := "", group_title := "", rule_id := "", rule_ver := "",
    rule_title := "", vuln_discuss := "", check_content := "", fix_text := "",
    cci_refs := [], status := "", finding_details := "", comments := "",
    severity_override := none, severity_justification := none, stig_id := "" }

def initChkState : ChkState :=
  { asset := emptyAsset, stig_info := emptyStigInfo, vulnerabilities := [],
    current_text := "", in_asset := false, in_stig_info := false, in_vuln := false,
    current_vuln := none, stig_data_map := [], si_data_map := [],
    current_vuln_attribute := "", current_sid_name := "" }

/-- Asset-field assignment keyed on the element name (stig.rs:337-349); for a
name that is not an asset field the record is unchanged. -/
def assetSet (a : AssetInfo) (name text : String) : AssetInfo :=
  if name = "ROLE" then { a with role := text }
  else if name = "ASSET_TYPE" then { a with asset_type := text }
  else if name = "MARKING" then { a with marking := text }
  else if name = "HOST_NAME" then { a with host_name := text }
  else if name = "HOST_IP" then { a with host_ip := text }
  else if name = "HOST_MAC" then { a with host_mac := text }
  else if name = "HOST_FQDN" then { a with host_fqdn := text }
  else if name = "TARGET_COMMENT" then { a with target_comment := text }
  else if name = "TECH_AREA" then { a with tech_area := text }
  else if name = "TARGET_KEY" then { a with target_key := text }
  else if name = "WEB_OR_DATABASE" then { a with web_or_database := text = "true" }
  else if name = "WEB_DB_SITE" then { a with web_db_site := text }
  else if name = "WEB_DB_INSTANCE" then { a with web_db_instance := text }
  else a

/-- Asset-section arms of the `Event::End` field match (stig.rs:337-349): each
arm is guarded by `in_asset` and assigns one asset field; hoisting the shared
guard and dispatching on the name inside the asset record is equivalent. -/
def chkAssetField (st : ChkState) (name text : String) : ChkState :=
  if st.in_asset then { st with asset := assetSet st.asset name text } else st

/-- Benchmark-metadata arms of the `Event::End` field match (stig.rs:352-355). -/
def chkInfoField (st : ChkState) (name text : String) : ChkState :=
  if st.in_stig_info then
    (if name = "SID_NAME" then { st with current_sid_name := text }
     else if name = "SID_DATA" then
       { st with si_data_map := insertA st.si_data_map st.current_sid_name text }
     else st)
  else st

/-- Direct finding-field assignment keyed on the element name
(stig.rs:368-392); for any other name the finding is unchanged. -/
def vulnSet (v : STIGVulnerability) (name text : String) : STIGVulnerability :=
  if name = "STATUS" then { v with status := text }
  else if name = "FINDING_DETAILS" then { v with finding_details := text }
  else if name = "COMMENTS" then { v with comments := text }
  else if name = "SEVERITY_OVERRIDE" then
    { v with severity_override := if text = "" then none else some text }
  else if name = "SEVERITY_JUSTIFICATION" then
    { v with severity_justification := if text = "" then none else some text }
  else v

/-- Finding-block arms of the `Event::End` field match (stig.rs:358-392):
all guarded by `in_vuln`; the last five also require a finding under
construction and assign into it. -/
def chkVulnField (st : ChkState) (name text : String) : ChkState :=
  if st.in_vuln then
    (if name = "VULN_ATTRIBUTE" then { st with current_vuln_attribute := text }
     else if name = "ATTRIBUTE_DATA" then
       { st with stig_data_map := insertA st.stig_data_map st.current_vuln_attribute text }
     else
       match st.current_vuln with
       | some v => { st with current_vuln := some (vulnSet v name text) }
       | none => st)
  else st

/-- Field assignments performed on an `Event::End` (stig.rs:335-394), keyed on
the ending element's name, guarded by the current context.  The match arms of
the source are pairwise disjoint in `name`; they are grouped here by section,
applied in sequence (at most one of the three ever changes the state). -/
def chkEndFields (st : ChkState) (name text : String) : ChkState :=
  chkVulnField (chkInfoField (chkAssetField st name text) name text) name text

/-- Projection of the accumulated `STIG_DATA` key/value table onto a finding,
performed when a `VULN` element ends (stig.rs:421-442).  The Rust code
collects `CCI_REF` values by iterating over the `HashMap`; since a hash map
holds at most one entry per key, that loop pushes the (single) value stored
under `"CCI_REF"`, if present and non-empty. -/
def finishVuln (v : STIGVulnerability) (m : List (String × String)) : STIGVulnerability :=
  { v with
    vuln_num := (getA m "Vuln_Num").getD ""
    severity := (getA m "Severity").getD ""
    group_title := (getA m "Group_Title").getD ""
    rule_id := (getA m "Rule_ID").getD ""
    rule_ver := (getA m "Rule_Ver").getD ""
    rule_title := (getA m "Rule_Title").getD ""
    vuln_discuss := (getA m "Vuln_Discuss").getD ""
    check_content := (getA m "Check_Content").getD ""
    fix_text := (getA m "Fix_Text").getD ""
    stig_id := (getA m "Rule_Ver").getD ""
    cci_refs := v.cci_refs ++
      (match getA m "CCI_REF" with
       | some val => if val = "" then [] else [val]
       | none => []) }

/-- Projection of the `SI_DATA` table onto the benchmark metadata, performed
when `STIG_INFO` ends (stig.rs:399-413). -/
def projectStigInfo (m : List (String × String)) : STIGInfo :=
  { version := (getA m "version").getD ""
    classification := (getA m "classification").getD ""
    custom_name := (getA m "customname").getD ""
    stig_id := (getA m "stigid").getD ""
    description := (getA m "description").getD ""
    file_name := (getA m "filename").getD ""
    release_info := (getA m "releaseinfo").getD ""
    title := (getA m "title").getD ""
    uuid := (getA m "uuid").getD ""
    notice := (getA m "notice").getD ""
    source := (getA m "source").getD "" }

/-- Block-exit handling on an `Event::End` (stig.rs:396-452). -/
def chkEndExits (st : ChkState) (name : String) : ChkState :=
  if name = "ASSET" then { st with in_asset := false }
  else if name = "STIG_INFO" then
    { st with in_stig_info := false, stig_info := projectStigInfo st.si_data_map }
  else if name = "VULN" then
    match st.current_vuln with
    | some v =>
      { st with
        current_vuln := none
        in_vuln := false
        vulnerabilities := st.vulnerabilities ++ [finishVuln v st.stig_data_map] }
    | none => { st with in_vuln := false }
  else st

/-- One iteration of the `parse_stig_checklist` loop on a non-terminating
event (stig.rs:292-460). -/
def chkStep (st : ChkState) (e : XEvent) : ChkState :=
  match e with
  | .startTag name _ =>
    -- stig.rs:294-327
    let st :=
      if name = "ASSET" then { st with in_asset := true }
      else if name = "STIG_INFO" then { st with in_stig_info := true }
      else if name = "VULN" then
        { st with in_vuln := true, current_vuln := some emptyVuln, stig_data_map := [] }
      else st
    { st with current_text := "" }
  | .text s =>
    -- stig.rs:328-330
    { st with current_text := st.current_text ++ s }
  | .endTag name =>
    -- stig.rs:331-455
    let st := chkEndExits (chkEndFields st name (strTrim st.current_text)) name
    { st with current_text := "" }
  | .emptyTag _ _ => st
  | .comment => st
  | .decl => st
  | .eof => st
  | .err _ => st

/-- The `parse_stig_checklist` loop: runs `chkStep` until `Eof` or a reader
error (stig.rs:456-457). -/
def runChk : ChkState → List XEvent → Except StigError ChkState
  | st, [] => .ok st
  | st, .eof :: _ => .ok st
  | _, .err msg :: _ => .error (.xmlParsing msg)
  | st, e :: rest => runChk (chkStep st e) rest

/-- Models `parse_stig_checklist` (stig.rs:242-468) over the event stream of
the supplied document. -/
def parse_stig_checklist (doc : List XEvent) : Except StigError STIGChecklist :=
  (runChk initChkState doc).map
    (fun st => { asset := st.asset, stig_info := st.stig_info, vulnerabilities := st.vulnerabilities })

/-! ## Checklist merger: `parse_and_merge_stig_checklists` (stig.rs:537-555) -/

/-- Remaining iterations of the merger loop after the first document: each
later document is parsed (with `?` propagating its error) and its findings
are appended to the accumulated checklist (stig.rs:544-552). -/
def mergeRest (acc : STIGChecklist) : List (List XEvent) → Except StigError STIGChecklist
  | [] => .ok acc
  | d :: ds =>
    match parse_stig_checklist d with
    | .error e => .error e
    | .ok c =>
      mergeRest { acc with vulnerabilities := acc.vulnerabilities ++ c.vulnerabilities } ds

/-- Models `parse_and_merge_stig_checklists` (stig.rs:537-555), with each path
replaced by the event stream of the document it denotes.  The `ok_or_else`
fallback at stig.rs:554 is unreachable for non-empty input (the first
iteration always sets the accumulator), so the function matches directly on
the first document. -/
def parse_and_merge_stig_checklists (docs : List (List XEvent)) : Except StigError STIGChecklist :=
  match docs with
  | [] => .error (.invalidFormat "No checklist files provided.")
  | first :: rest =>
    match parse_stig_checklist first with
    | .error e => .error e
    | .ok c0 => mergeRest c0 rest

/-! ## Aggregator: `map_stig_to_nist_controls` (stig.rs:470-535) -/

/-- CCI-to-NIST lookup map built at stig.rs:477-480: successive
`HashMap::insert` calls, so the entry for an id is the `nist_controls` of the
last catalog record carrying that id. -/
def cci_to_nist (ms : List CCIMapping) (cci : String) : Option (List String) :=
  ms.foldl (fun acc m => if m.id = cci then some m.nist_controls else acc) none

/-- Compliance-status update applied per (finding, CCI, control) triple
(stig.rs:507-517). -/
def updateCompliance (cur status : String) : String :=
  if status = "Open" then "non-compliant"
  else if status = "NotAFinding" then
    (if cur ≠ "non-compliant" then "compliant" else cur)
  else if status = "NotApplicable" then
    (if cur = "not-reviewed" then "not-applicable" else cur)
  else cur

/-- Risk-level update applied per (finding, CCI, control) triple
(stig.rs:519-526). -/
def updateRisk (cur severity : String) : String :=
  if strToLower severity = "high" then "high"
  else if strToLower severity = "medium" then
    (if cur ≠ "high" then "medium" else cur)
  else cur

/-- The control created by `or_insert_with` (stig.rs:487-495). -/
def emptyControl (k : String) : MappedControl :=
  { nist_control := k, ccis := [], stigs := [],
    compliance_status := "not-reviewed", risk_level := "low" }

/-- The in-place mutations applied to a control for one (finding, CCI,
control) triple (stig.rs:497-526). -/
def updateControl (c : MappedControl) (v : STIGVulnerability) (cci : String) : MappedControl :=
  { c with
    ccis := if c.ccis.contains cci then c.ccis else c.ccis ++ [cci]
    stigs := if c.stigs.any (fun s => s.vuln_num = v.vuln_num) then c.stigs else c.stigs ++ [v]
    compliance_status := updateCompliance c.compliance_status v.status
    risk_level := updateRisk c.risk_level v.severity }

/-- Get-or-create plus update for one triple.  The Rust `control_map` is a
`HashMap` keyed by control id; it is modelled as a list of controls with
pairwise-distinct keys (creation appends, updates act on the entry with the
matching key).  The list order is irrelevant to the function's output, which
is sorted by key (stig.rs:532-534). -/
def applyVuln (acc : List MappedControl) (v : STIGVulnerability) (cci k : String) :
    List MappedControl :=
  if acc.any (fun c => c.nist_control = k) then
    acc.map (fun c => if c.nist_control = k then updateControl c v cci else c)
  else
    acc ++ [updateControl (emptyControl k) v cci]

/-- The triple-processing loops of stig.rs:482-530. -/
def buildControls (cl : STIGChecklist) (ms : List CCIMapping) : List MappedControl :=
  cl.vulnerabilities.foldl
    (fun acc v =>
      v.cci_refs.foldl
        (fun acc cci =>
          match cci_to_nist ms cci with
          | some ks => ks.foldl (fun acc k => applyVuln acc v cci k) acc
          | none => acc)
        acc)
    []

/-- Sort key relation used at stig.rs:533 (`sort_by` on `nist_control`). -/
def controlLe (a b : MappedControl) : Prop :=
  lexLe a.nist_control.data b.nist_control.data = true

instance : DecidableRel controlLe := fun a b => by
  unfold controlLe; infer_instance

/-- Models `map_stig_to_nist_controls` (stig.rs:470-535).  `into_values`
yields the controls in unspecified hash order; the subsequent sort on the
pairwise-distinct keys makes the result independent of that order, so sorting
the insertion-ordered model list is faithful. -/
def map_stig_to_nist_controls (cl : STIGChecklist) (ms : List CCIMapping) :
    List MappedControl :=
  List.insertionSort controlLe (buildControls cl ms)

/-! ## Summary calculator: `create_mapping_result` (stig.rs:557-581) -/

/-- Models `create_mapping_result` (stig.rs:557-581). -/
def create_mapping_result (checklist : STIGChecklist) (cci_mappings : List CCIMapping) :
    STIGMappingResult :=
  let mapped_controls := map_stig_to_nist_controls checklist cci_mappings
  { checklist := checklist
    cci_mappings := cci_mappings
    mapped_controls := mapped_controls
    summary :=
      { total_controls := mapped_controls.length
        compliant_controls := (mapped_controls.filter (fun c => c.compliance_status = "compliant")).length
        non_compliant_controls := (mapped_controls.filter (fun c => c.compliance_status = "non-compliant")).length
        not_applicable_controls := (mapped_controls.filter (fun c => c.compliance_status = "not-applicable")).length
        not_reviewed_controls := (mapped_controls.filter (fun c => c.compliance_status = "not-reviewed")).length
        high_risk_findings := (checklist.vulnerabilities.filter
          (fun v => strToLower v.severity = "high" ∧ v.status = "Open")).length
        medium_risk_findings := (checklist.vulnerabilities.filter
          (fun v => strToLower v.severity = "medium" ∧ v.status = "Open")).length
        low_risk_findings := (checklist.vulnerabilities.filter
          (fun v => strToLower v.severity = "low" ∧ v.status = "Open")).length } }

/-! ## Serializer: `generate_ckl_xml` (stig.rs:583-724)

The serializer produces a string; the round-trip property feeds that string
back through the quick_xml reader.  We model the serializer's output directly
as the event stream the reader produces from it.  This is determined by the
generated text: `escape_xml` escapes every XML-special character, so between
a `<TAG>` and the matching `</TAG>` the reader sees one text event whose
unescaped content is the original field value; with `trim_text(true)` the
reader trims that event's edges and drops it when it is all whitespace (the
pure-indentation text between structural tags is dropped the same way).  The
XML declaration and the vendor comment (stig.rs:587-588) appear as `decl` and
`comment` events. -/

/-- Models `escape_xml` (stig.rs:726-732).  Recorded for reference: at the
event level escaping is inverted by the reader's unescaping, so the event
models below carry the raw field values. -/
def escape_xml (text : String) : String :=
  ((((text.replace "&" "&amp;").replace "<" "&lt;").replace ">" "&gt;").replace "\"" "&quot;").replace "\x27" "&apos;"

/-- Event stream the reader produces from the text content of one element:
nothing when the (escaped) content is all whitespace, otherwise one text
event with the trimmed content. -/
def textEvents (s : String) : List XEvent :=
  if strTrim s = "" then [] else [.text (strTrim s)]

/-- Events of `<TAG>escaped-content</TAG>`. -/
def elemEvents (tag s : String) : List XEvent :=
  .startTag tag [] :: (textEvents s ++ [.endTag tag])

/-- Events of one `<SI_DATA>` block (stig.rs:614-617 and the ten analogous
blocks). -/
def siDataEvents (key val : String) : List XEvent :=
  .startTag "SI_DATA" [] :: (elemEvents "SID_NAME" key ++ elemEvents "SID_DATA" val ++ [.endTag "SI_DATA"])

/-- Events of one `<STIG_DATA>` block emitted by `add_stig_data`
(stig.rs:734-739). -/
def stigDataEvents (attrName value : String) : List XEvent :=
  .startTag "STIG_DATA" [] ::
    (elemEvents "VULN_ATTRIBUTE" attrName ++ elemEvents "ATTRIBUTE_DATA" value ++ [.endTag "STIG_DATA"])

/-- Events of the `<ASSET>` block (stig.rs:592-606).  `WEB_OR_DATABASE` is
emitted via `format!("{}", bool)`, i.e. `"true"` / `"false"`. -/
def assetEvents (a : AssetInfo) : List XEvent :=
  .startTag "ASSET" [] ::
    (elemEvents "ROLE" a.role ++
     elemEvents "ASSET_TYPE" a.asset_type ++
     elemEvents "MARKING" a.marking ++
     elemEvents "HOST_NAME" a.host_name ++
     elemEvents "HOST_IP" a.host_ip ++
     elemEvents "HOST_MAC" a.host_mac ++
     elemEvents "HOST_FQDN" a.host_fqdn ++
     elemEvents "TARGET_COMMENT" a.target_comment ++
     elemEvents "TECH_AREA" a.tech_area ++
     elemEvents "TARGET_KEY" a.target_key ++
     elemEvents "WEB_OR_DATABASE" (if a.web_or_database then "true" else "false") ++
     elemEvents "WEB_DB_SITE" a.web_db_site ++
     elemEvents "WEB_DB_INSTANCE" a.web_db_instance ++
     [.endTag "ASSET"])

/-- Events of the `<STIG_INFO>` block (stig.rs:613-669). -/
def stigInfoEvents (i : STIGInfo) : List XEvent :=
  .startTag "STIG_INFO" [] ::
    (siDataEvents "version" i.version ++
     siDataEvents "classification" i.classification ++
     siDataEvents "customname" i.custom_name ++
     siDataEvents "stigid" i.stig_id ++
     siDataEvents "description" i.description ++
     siDataEvents "filename" i.file_name ++
     siDataEvents "releaseinfo" i.release_info ++
     siDataEvents "title" i.title ++
     siDataEvents "uuid" i.uuid ++
     siDataEvents "notice" i.notice ++
     siDataEvents "source" i.source ++
     [.endTag "STIG_INFO"])

/-- Events of one `<VULN>` block (stig.rs:672-716).  `stigRef` and
`targetKey` are the checklist-level values interpolated at stig.rs:698-699. -/
def vulnEvents (stigRef targetKey : String) (v : STIGVulnerability) : List XEvent :=
  .startTag "VULN" [] ::
    (stigDataEvents "Vuln_Num" v.vuln_num ++
     stigDataEvents "Severity" v.severity ++
     stigDataEvents "Group_Title" v.group_title ++
     stigDataEvents "Rule_ID" v.rule_id ++
     stigDataEvents "Rule_Ver" v.rule_ver ++
     stigDataEvents "Rule_Title" v.rule_title ++
     stigDataEvents "Vuln_Discuss" v.vuln_discuss ++
     stigDataEvents "IA_Controls" "" ++
     stigDataEvents "Check_Content" v.check_content ++
     stigDataEvents "Fix_Text" v.fix_text ++
     stigDataEvents "False_Positives" "" ++
     stigDataEvents "False_Negatives" "" ++
     stigDataEvents "Documentable" "false" ++
     stigDataEvents "Mitigations" "" ++
     stigDataEvents "Potential_Impact" "" ++
     stigDataEvents "Third_Party_Tools" "" ++
     stigDataEvents "Mitigation_Control" "" ++
     stigDataEvents "Responsibility" "" ++
     stigDataEvents "Security_Override_Guidance" "" ++
     stigDataEvents "Check_Content_Ref" "M" ++
     stigDataEvents "Weight" "10.0" ++
     stigDataEvents "Class" "Unclass" ++
     stigDataEvents "STIGRef" stigRef ++
     stigDataEvents "TargetKey" targetKey ++
     stigDataEvents "STIG_UUID" "" ++
     stigDataEvents "LEGACY_ID" "" ++
     (v.cci_refs.flatMap (fun cci => stigDataEvents "CCI_REF" cci)) ++
     elemEvents "STATUS" v.status ++
     elemEvents "FINDING_DETAILS" v.finding_details ++
     elemEvents "COMMENTS" v.comments ++
     elemEvents "SEVERITY_OVERRIDE" (v.severity_override.getD "") ++
     elemEvents "SEVERITY_JUSTIFICATION" (v.severity_justification.getD "") ++
     [.endTag "VULN"])

/-- Models the event stream the quick_xml reader produces from
`generate_ckl_xml checklist` (stig.rs:583-724). -/
def generate_ckl_events (c : STIGChecklist) : List XEvent :=
  .decl :: .comment :: .startTag "CHECKLIST" [] ::
    (assetEvents c.asset ++
     .startTag "STIGS" [] :: .startTag "iSTIG" [] ::
       (stigInfoEvents c.stig_info ++
        (c.vulnerabilities.flatMap
          (vulnEvents (c.stig_info.title ++ " :: " ++ c.stig_info.release_info) c.asset.target_key)) ++
        [.endTag "iSTIG", .endTag "STIGS", .endTag "CHECKLIST"]))

/-! ## Order lemmas for the sort key -/

theorem lexLe_refl (a : List Char) : lexLe a a = true := by
  induction a with
  | nil => rfl
  | cons c cs ih => simp [lexLe, ih]

theorem lexLe_total (a b : List Char) : lexLe a b = true ∨ lexLe b a = true := by
  induction a generalizing b with
  | nil => left; rfl
  | cons c cs ih =>
    cases b with
    | nil => right; rfl
    | cons d ds =>
      rcases lt_trichotomy c d with h | h | h
      · left; simp [lexLe, h]
      · subst h
        rcases ih ds with h2 | h2
        · left; simp [lexLe, h2]
        · right; simp [lexLe, h2]
      · right; simp [lexLe, h, lt_asymm h]

theorem lexLe_antisymm (a b : List Char) (h1 : lexLe a b = true) (h2 : lexLe b a = true) :
    a = b := by
  induction a generalizing b with
  | nil =>
    cases b with
    | nil => rfl
    | cons d ds => simp [lexLe] at h2
  | cons c cs ih =>
    cases b with
    | nil => simp [lexLe] at h1
    | cons d ds =>
      rcases lt_trichotomy c d with h | h | h
      · simp [lexLe, h, lt_asymm h, ne_of_gt h] at h2
      · subst h
        simp [lexLe] at h1 h2
        rw [ih ds h1 h2]
      · simp [lexLe, h, lt_asymm h, ne_of_gt h] at h1

theorem lexLe_trans (a b c : List Char) (h1 : lexLe a b = true) (h2 : lexLe b c = true) :
    lexLe a c = true := by
  induction a generalizing b c with
  | nil => rfl
  | cons x xs ih =>
    cases b with
    | nil => simp [lexLe] at h1
    | cons y ys =>
      cases c with
      | nil => simp [lexLe] at h2
      | cons z zs =>
        by_cases hxy : x < y
        · by_cases hyz : y < z
          · simp [lexLe, lt_trans hxy hyz]
          · by_cases hyz2 : y = z
            · simp [lexLe, hyz2 ▸ hxy]
            · simp [lexLe, hyz, hyz2] at h2
        · by_cases hxy2 : x = y
          · subst hxy2
            simp [lexLe, hxy] at h1
            by_cases hyz : x < z
            · simp [lexLe, hyz]
            · by_cases hyz2 : x = z
              · subst hyz2
                simp [lexLe, hxy] at h2 ⊢
                exact ih ys zs h1 h2
              · simp [lexLe, hyz, hyz2] at h2
          · simp [lexLe, hxy, hxy2] at h1

instance : IsTotal MappedControl controlLe :=
  ⟨fun a b => lexLe_total a.nist_control.data b.nist_control.data⟩

instance : IsTrans MappedControl controlLe :=
  ⟨fun _ _ _ h1 h2 => lexLe_trans _ _ _ h1 h2⟩

/-! ## Per-control characterization of the aggregator -/

/-- Boolean form of "finding `v` is correlated to NIST control `k` through the
catalog `ms`": some CCI reference of `v` has a catalog entry whose control
list contains `k`. -/
def correlatesB (ms : List CCIMapping) (v : STIGVulnerability) (k : String) : Bool :=
  v.cci_refs.any (fun cci =>
    match cci_to_nist ms cci with
    | some ks => ks.contains k
    | none => false)

/-- The findings of a checklist correlated to `k`. -/
def correlatedFindings (cl : STIGChecklist) (ms : List CCIMapping) (k : String) :
    List STIGVulnerability :=
  cl.vulnerabilities.filter (fun v => correlatesB ms v k)

/-- The (finding, CCI, control) triples the aggregator's three nested loops
enumerate, in encounter order. -/
def controlTriples (ms : List CCIMapping) (vulns : List STIGVulnerability) :
    List (STIGVulnerability × String × String) :=
  vulns.flatMap (fun v =>
    v.cci_refs.flatMap (fun cci =>
      match cci_to_nist ms cci with
      | some ks => ks.map (fun k => (v, cci, k))
      | none => []))

theorem foldl_flatMap {α β γ : Type} (g : α → List β) (f : γ → β → γ) (l : List α) (a : γ) :
    (l.flatMap g).foldl f a = l.foldl (fun acc x => (g x).foldl f acc) a := by
  induction l generalizing a with
  | nil => rfl
  | cons x xs ih => simp [List.foldl_append, ih]

/-- The aggregator's nested loops equal a single fold over the triples. -/
theorem buildControls_eq_foldl (cl : STIGChecklist) (ms : List CCIMapping) :
    buildControls cl ms =
      (controlTriples ms cl.vulnerabilities).foldl
        (fun acc t => applyVuln acc t.1 t.2.1 t.2.2) [] := by
  unfold buildControls controlTriples
  rw [foldl_flatMap]
  congr 1
  funext acc v
  rw [foldl_flatMap]
  congr 1
  funext acc2 cci
  cases h : cci_to_nist ms cci with
  | none => simp
  | some ks => simp [List.foldl_map]

/-- First control with key `k` in the model of the `control_map` (keys are
pairwise distinct, so this is the map entry for `k`). -/
def findControl (k : String) (acc : List MappedControl) : Option MappedControl :=
  acc.find? (fun c => c.nist_control = k)

theorem updateControl_nist_control (c : MappedControl) (v : STIGVulnerability) (cci : String) :
    (updateControl c v cci).nist_control = c.nist_control := rfl

theorem find?_map_update_eq (k : String) (v : STIGVulnerability) (cci : String)
    (acc : List MappedControl) :
    (acc.map (fun c => if c.nist_control = k then updateControl c v cci else c)).find?
        (fun c => c.nist_control = k) =
      (acc.find? (fun c => c.nist_control = k)).map (fun c => updateControl c v cci) := by
  induction acc with
  | nil => rfl
  | cons c cs ih =>
    simp only [List.map_cons]
    by_cases h : c.nist_control = k
    · rw [if_pos h]
      rw [List.find?_cons_of_pos _ (by simp [updateControl_nist_control, h]),
          List.find?_cons_of_pos _ (by simp [h])]
      rfl
    · rw [if_neg h]
      rw [List.find?_cons_of_neg _ (by simp [h]), List.find?_cons_of_neg _ (by simp [h]), ih]

theorem find?_map_update_ne (k k2 : String) (v : STIGVulnerability) (cci : String)
    (acc : List MappedControl) (hne : k2 ≠ k) :
    (acc.map (fun c => if c.nist_control = k2 then updateControl c v cci else c)).find?
        (fun c => c.nist_control = k) =
      acc.find? (fun c => c.nist_control = k) := by
  induction acc with
  | nil => rfl
  | cons c cs ih =>
    simp only [List.map_cons]
    by_cases h : c.nist_control = k2
    · rw [if_pos h]
      rw [List.find?_cons_of_neg _ (by simp [updateControl_nist_control, h, hne]),
          List.find?_cons_of_neg _ (by simp [h, hne]), ih]
    · rw [if_neg h]
      by_cases h2 : c.nist_control = k
      · rw [List.find?_cons_of_pos _ (by simp [h2]), List.find?_cons_of_pos _ (by simp [h2])]
      · rw [List.find?_cons_of_neg _ (by simp [h2]), List.find?_cons_of_neg _ (by simp [h2]), ih]

theorem findControl_applyVuln_eq (k : String) (v : STIGVulnerability) (cci : String)
    (acc : List MappedControl) :
    findControl k (applyVuln acc v cci k) =
      some (updateControl ((findControl k acc).getD (emptyControl k)) v cci) := by
  unfold findControl applyVuln
  by_cases hany : acc.any (fun c => c.nist_control = k)
  · rw [if_pos hany, find?_map_update_eq]
    cases hf : acc.find? (fun c => decide (c.nist_control = k)) with
    | none =>
      exfalso
      rcases List.any_eq_true.mp hany with ⟨x, hx, hpx⟩
      exact (List.find?_eq_none.mp hf x hx) hpx
    | some c => simp [hf]
  · rw [if_neg hany]
    have hnone : acc.find? (fun c => c.nist_control = k) = none := by
      rw [List.find?_eq_none]
      intro x hx
      by_contra hpx
      exact hany (List.any_eq_true.mpr ⟨x, hx, by simpa using hpx⟩)
    rw [List.find?_append, hnone]
    simp [List.find?_cons, updateControl_nist_control, emptyControl]

theorem findControl_applyVuln_ne (k k2 : String) (v : STIGVulnerability) (cci : String)
    (acc : List MappedControl) (hne : k2 ≠ k) :
    findControl k (applyVuln acc v cci k2) = findControl k acc := by
  unfold findControl applyVuln
  by_cases hany : acc.any (fun c => c.nist_control = k2)
  · rw [if_pos hany, find?_map_update_ne _ _ _ _ _ hne]
  · rw [if_neg hany, List.find?_append]
    rw [List.find?_cons_of_neg _ (by simp [updateControl_nist_control, emptyControl, hne])]
    cases acc.find? (fun c => decide (c.nist_control = k)) <;> rfl

/-- Per-key step: what one triple for key `k` does to that key's map entry. -/
def perStep (k : String) (st : Option MappedControl) (p : STIGVulnerability × String) :
    Option MappedControl :=
  some (updateControl (st.getD (emptyControl k)) p.1 p.2)

/-- The (finding, CCI) pairs among `ts` that target key `k`, in order. -/
def pairsFor (k : String) (ts : List (STIGVulnerability × String × String)) :
    List (STIGVulnerability × String) :=
  (ts.filter (fun t => t.2.2 = k)).map (fun t => (t.1, t.2.1))

theorem findControl_foldl (k : String) (ts : List (STIGVulnerability × String × String))
    (acc : List MappedControl) :
    findControl k (ts.foldl (fun a t => applyVuln a t.1 t.2.1 t.2.2) acc) =
      (pairsFor k ts).foldl (perStep k) (findControl k acc) := by
  induction ts generalizing acc with
  | nil => rfl
  | cons t ts ih =>
    by_cases h : t.2.2 = k
    · rw [List.foldl_cons, ih]
      have hp : pairsFor k (t :: ts) = (t.1, t.2.1) :: pairsFor k ts := by
        simp [pairsFor, List.filter_cons, h]
      rw [hp, List.foldl_cons]
      congr 1
      rw [h, findControl_applyVuln_eq]
      rfl
    · rw [List.foldl_cons, ih, findControl_applyVuln_ne k t.2.2 t.1 t.2.1 acc h]
      have hp : pairsFor k (t :: ts) = pairsFor k ts := by
        simp [pairsFor, List.filter_cons, h]
      rw [hp]

/-- Folding the per-triple mutations over the pairs for one key, starting from
the freshly created control. -/
def foldControl (k : String) (ps : List (STIGVulnerability × String)) : MappedControl :=
  ps.foldl (fun c p => updateControl c p.1 p.2) (emptyControl k)

theorem foldl_perStep_some (k : String) (ps : List (STIGVulnerability × String))
    (c : MappedControl) :
    ps.foldl (perStep k) (some c) = some (ps.foldl (fun c p => updateControl c p.1 p.2) c) := by
  induction ps generalizing c with
  | nil => rfl
  | cons p ps ih => simp [perStep, ih]

theorem foldl_perStep_none (k : String) (ps : List (STIGVulnerability × String))
    (h : ps ≠ []) :
    ps.foldl (perStep k) none = some (foldControl k ps) := by
  cases ps with
  | nil => exact absurd rfl h
  | cons p ps => simp [perStep, foldControl, foldl_perStep_some]

theorem foldl_perStep_none_nil (k : String) : ([] : List (STIGVulnerability × String)).foldl (perStep k) none = none := rfl

/-! ## Rank characterization of the verdict updates -/

/-- Priority of a finding status as seen by `updateCompliance`. -/
def statusRank (s : String) : Nat :=
  if s = "Open" then 3 else if s = "NotAFinding" then 2 else if s = "NotApplicable" then 1 else 0

/-- The compliance state of a given priority. -/
def statusOfRank (n : Nat) : String :=
  match n with
  | 0 => "not-reviewed"
  | 1 => "not-applicable"
  | 2 => "compliant"
  | _ + 3 => "non-compliant"

theorem statusOfRank_of_ge3 (n : Nat) (h : 3 ≤ n) : statusOfRank n = "non-compliant" := by
  rcases Nat.exists_eq_add_of_le h with ⟨m, rfl⟩
  rw [Nat.add_comm]
  rfl

theorem updateCompliance_rank (r : Nat) (t : String) :
    updateCompliance (statusOfRank r) t = statusOfRank (max r (statusRank t)) := by
  by_cases h1 : t = "Open"
  · have : updateCompliance (statusOfRank r) t = "non-compliant" := by
      unfold updateCompliance; rw [if_pos h1]
    rw [this, statusOfRank_of_ge3]
    have : statusRank t = 3 := by unfold statusRank; rw [if_pos h1]
    omega
  · by_cases h2 : t = "NotAFinding"
    · have hrk : statusRank t = 2 := by unfold statusRank; rw [if_neg h1, if_pos h2]
      rw [hrk]
      rcases r with _ | _ | _ | r
      · unfold updateCompliance; rw [if_neg h1, if_pos h2]; rfl
      · unfold updateCompliance; rw [if_neg h1, if_pos h2]; rfl
      · unfold updateCompliance; rw [if_neg h1, if_pos h2]; rfl
      · unfold updateCompliance; rw [if_neg h1, if_pos h2]
        have hmax : max (r + 3) 2 = r + 3 := by omega
        rw [hmax]; rfl
    · by_cases h3 : t = "NotApplicable"
      · have hrk : statusRank t = 1 := by unfold statusRank; rw [if_neg h1, if_neg h2, if_pos h3]
        rw [hrk]
        rcases r with _ | _ | _ | r
        · unfold updateCompliance; rw [if_neg h1, if_neg h2, if_pos h3]; rfl
        · unfold updateCompliance; rw [if_neg h1, if_neg h2, if_pos h3]; rfl
        · unfold updateCompliance; rw [if_neg h1, if_neg h2, if_pos h3]; rfl
        · unfold updateCompliance; rw [if_neg h1, if_neg h2, if_pos h3]
          have hmax : max (r + 3) 1 = r + 3 := by omega
          rw [hmax]; rfl
      · have hrk : statusRank t = 0 := by unfold statusRank; rw [if_neg h1, if_neg h2, if_neg h3]
        have : updateCompliance (statusOfRank r) t = statusOfRank r := by
          unfold updateCompliance; rw [if_neg h1, if_neg h2, if_neg h3]
        rw [this, hrk]
        have hmax : max r 0 = r := by omega
        rw [hmax]

/-- Severity rank as seen by `updateRisk` (case-insensitive). -/
def sevRank (s : String) : Nat :=
  if strToLower s = "high" then 2 else if strToLower s = "medium" then 1 else 0

/-- The risk state of a given priority. -/
def riskOfRank (n : Nat) : String :=
  match n with
  | 0 => "low"
  | 1 => "medium"
  | _ + 2 => "high"

theorem riskOfRank_of_ge2 (n : Nat) (h : 2 ≤ n) : riskOfRank n = "high" := by
  rcases Nat.exists_eq_add_of_le h with ⟨m, rfl⟩
  rw [Nat.add_comm]
  rfl

theorem updateRisk_rank (r : Nat) (t : String) :
    updateRisk (riskOfRank r) t = riskOfRank (max r (sevRank t)) := by
  by_cases h1 : strToLower t = "high"
  · have : updateRisk (riskOfRank r) t = "high" := by
      unfold updateRisk; rw [if_pos h1]
    rw [this, riskOfRank_of_ge2]
    have : sevRank t = 2 := by unfold sevRank; rw [if_pos h1]
    omega
  · by_cases h2 : strToLower t = "medium"
    · have hrk : sevRank t = 1 := by unfold sevRank; rw [if_neg h1, if_pos h2]
      rw [hrk]
      rcases r with _ | _ | r
      · unfold updateRisk; rw [if_neg h1, if_pos h2]; rfl
      · unfold updateRisk; rw [if_neg h1, if_pos h2]; rfl
      · unfold updateRisk; rw [if_neg h1, if_pos h2]
        have hmax : max (r + 2) 1 = r + 2 := by omega
        rw [hmax]; rfl
    · have hrk : sevRank t = 0 := by unfold sevRank; rw [if_neg h1, if_neg h2]
      have : updateRisk (riskOfRank r) t = riskOfRank r := by
        unfold updateRisk; rw [if_neg h1, if_neg h2]
      rw [this, hrk]
      have hmax : max r 0 = r := by omega
      rw [hmax]

/-- Historical maximum of status ranks over a list of statuses. -/
def aggRankS (l : List String) : Nat :=
  l.foldl (fun n t => max n (statusRank t)) 0

/-- Historical maximum of severity ranks over a list of severities. -/
def aggRankR (l : List String) : Nat :=
  l.foldl (fun n t => max n (sevRank t)) 0

theorem foldl_max_from {f : String → Nat} (l : List String) (r : Nat) :
    l.foldl (fun n t => max n (f t)) r = max r (l.foldl (fun n t => max n (f t)) 0) := by
  induction l generalizing r with
  | nil => simp
  | cons t l ih =>
    rw [List.foldl_cons, List.foldl_cons, ih, ih (max 0 (f t))]
    omega

theorem foldl_updateCompliance_rank (l : List String) (r : Nat) :
    l.foldl updateCompliance (statusOfRank r) =
      statusOfRank (l.foldl (fun n t => max n (statusRank t)) r) := by
  induction l generalizing r with
  | nil => rfl
  | cons t l ih => rw [List.foldl_cons, updateCompliance_rank, ih, List.foldl_cons]

theorem foldl_updateRisk_rank (l : List String) (r : Nat) :
    l.foldl updateRisk (riskOfRank r) =
      riskOfRank (l.foldl (fun n t => max n (sevRank t)) r) := by
  induction l generalizing r with
  | nil => rfl
  | cons t l ih => rw [List.foldl_cons, updateRisk_rank, ih, List.foldl_cons]

theorem aggRankS_cons (t : String) (l : List String) :
    aggRankS (t :: l) = max (statusRank t) (aggRankS l) := by
  unfold aggRankS
  rw [List.foldl_cons, foldl_max_from]
  omega

theorem aggRankR_cons (t : String) (l : List String) :
    aggRankR (t :: l) = max (sevRank t) (aggRankR l) := by
  unfold aggRankR
  rw [List.foldl_cons, foldl_max_from]
  omega

theorem le_aggRankS_iff (l : List String) (n : Nat) (hn : 1 ≤ n) :
    n ≤ aggRankS l ↔ ∃ s ∈ l, n ≤ statusRank s := by
  induction l with
  | nil =>
    simp only [aggRankS, List.foldl_nil, List.not_mem_nil]
    constructor
    · intro h; omega
    · rintro ⟨s, hs, _⟩; cases hs
  | cons t l ih =>
    rw [aggRankS_cons]
    constructor
    · intro h
      by_cases ht : n ≤ statusRank t
      · exact ⟨t, List.mem_cons_self t l, ht⟩
      · have : n ≤ aggRankS l := by omega
        rcases ih.mp this with ⟨s, hs, hr⟩
        exact ⟨s, List.mem_cons_of_mem t hs, hr⟩
    · rintro ⟨s, hs, hr⟩
      rcases List.mem_cons.mp hs with rfl | hs
      · omega
      · have := ih.mpr ⟨s, hs, hr⟩
        omega

theorem le_aggRankR_iff (l : List String) (n : Nat) (hn : 1 ≤ n) :
    n ≤ aggRankR l ↔ ∃ s ∈ l, n ≤ sevRank s := by
  induction l with
  | nil =>
    simp only [aggRankR, List.foldl_nil, List.not_mem_nil]
    constructor
    · intro h; omega
    · rintro ⟨s, hs, _⟩; cases hs
  | cons t l ih =>
    rw [aggRankR_cons]
    constructor
    · intro h
      by_cases ht : n ≤ sevRank t
      · exact ⟨t, List.mem_cons_self t l, ht⟩
      · have : n ≤ aggRankR l := by omega
        rcases ih.mp this with ⟨s, hs, hr⟩
        exact ⟨s, List.mem_cons_of_mem t hs, hr⟩
    · rintro ⟨s, hs, hr⟩
      rcases List.mem_cons.mp hs with rfl | hs
      · omega
      · have := ih.mpr ⟨s, hs, hr⟩
        omega

theorem aggRankS_le (l : List String) : aggRankS l ≤ 3 := by
  induction l with
  | nil => simp [aggRankS]
  | cons t l ih =>
    rw [aggRankS_cons]
    have : statusRank t ≤ 3 := by unfold statusRank; split_ifs <;> omega
    omega

theorem aggRankR_le (l : List String) : aggRankR l ≤ 2 := by
  induction l with
  | nil => simp [aggRankR]
  | cons t l ih =>
    rw [aggRankR_cons]
    have : sevRank t ≤ 2 := by unfold sevRank; split_ifs <;> omega
    omega

theorem statusRank_ge3_iff (s : String) : 3 ≤ statusRank s ↔ s = "Open" := by
  unfold statusRank
  split_ifs <;> simp_all

theorem statusRank_ge2_iff (s : String) : 2 ≤ statusRank s ↔ s = "Open" ∨ s = "NotAFinding" := by
  unfold statusRank
  split_ifs <;> simp_all

theorem statusRank_ge1_iff (s : String) :
    1 ≤ statusRank s ↔ s = "Open" ∨ s = "NotAFinding" ∨ s = "NotApplicable" := by
  unfold statusRank
  split_ifs <;> simp_all

theorem sevRank_ge2_iff (s : String) : 2 ≤ sevRank s ↔ strToLower s = "high" := by
  unfold sevRank
  split_ifs <;> simp_all

theorem sevRank_ge1_iff (s : String) :
    1 ≤ sevRank s ↔ strToLower s = "high" ∨ strToLower s = "medium" := by
  unfold sevRank
  split_ifs <;> simp_all

/-- Verdict determined by which status values occur, under the documented
priority.  This is the specification-side reduction. -/
def aggStatus (l : List String) : String :=
  if "Open" ∈ l then "non-compliant"
  else if "NotAFinding" ∈ l then "compliant"
  else if "NotApplicable" ∈ l then "not-applicable"
  else "not-reviewed"

/-- Risk verdict determined by the maximum severity present (case-insensitive,
default low).  This is the specification-side reduction. -/
def aggRisk (l : List String) : String :=
  if l.any (fun s => strToLower s = "high") then "high"
  else if l.any (fun s => strToLower s = "medium") then "medium"
  else "low"

theorem statusOfRank_aggRankS (l : List String) : statusOfRank (aggRankS l) = aggStatus l := by
  have h3 := le_aggRankS_iff l 3 (by omega)
  have h2 := le_aggRankS_iff l 2 (by omega)
  have h1 := le_aggRankS_iff l 1 (by omega)
  have hle := aggRankS_le l
  have e3 : (∃ s ∈ l, 3 ≤ statusRank s) ↔ "Open" ∈ l := by
    constructor
    · rintro ⟨s, hs, hr⟩; rwa [(statusRank_ge3_iff s).mp hr] at hs
    · intro h; exact ⟨"Open", h, by rw [statusRank_ge3_iff]⟩
  have e2 : (∃ s ∈ l, 2 ≤ statusRank s) ↔ "Open" ∈ l ∨ "NotAFinding" ∈ l := by
    constructor
    · rintro ⟨s, hs, hr⟩
      rcases (statusRank_ge2_iff s).mp hr with rfl | rfl
      · exact Or.inl hs
      · exact Or.inr hs
    · rintro (h | h)
      · exact ⟨"Open", h, by rw [statusRank_ge2_iff]; left; rfl⟩
      · exact ⟨"NotAFinding", h, by rw [statusRank_ge2_iff]; right; rfl⟩
  have e1 : (∃ s ∈ l, 1 ≤ statusRank s) ↔
      "Open" ∈ l ∨ "NotAFinding" ∈ l ∨ "NotApplicable" ∈ l := by
    constructor
    · rintro ⟨s, hs, hr⟩
      rcases (statusRank_ge1_iff s).mp hr with rfl | rfl | rfl
      · exact Or.inl hs
      · exact Or.inr (Or.inl hs)
      · exact Or.inr (Or.inr hs)
    · rintro (h | h | h)
      · exact ⟨"Open", h, by rw [statusRank_ge1_iff]; left; rfl⟩
      · exact ⟨"NotAFinding", h, by rw [statusRank_ge1_iff]; right; left; rfl⟩
      · exact ⟨"NotApplicable", h, by rw [statusRank_ge1_iff]; right; right; rfl⟩
  unfold aggStatus
  split_ifs with ha hb hc
  · have : aggRankS l = 3 := le_antisymm hle (h3.mpr (e3.mpr ha))
    rw [this]; rfl
  · have hge : 2 ≤ aggRankS l := h2.mpr (e2.mpr (Or.inr hb))
    have hlt : ¬ 3 ≤ aggRankS l := fun h => ha (e3.mp (h3.mp h))
    have : aggRankS l = 2 := by omega
    rw [this]; rfl
  · have hge : 1 ≤ aggRankS l := h1.mpr (e1.mpr (Or.inr (Or.inr hc)))
    have hlt : ¬ 2 ≤ aggRankS l := fun h => by
      rcases e2.mp (h2.mp h) with h' | h'
      · exact ha h'
      · exact hb h'
    have : aggRankS l = 1 := by omega
    rw [this]; rfl
  · have hlt : ¬ 1 ≤ aggRankS l := fun h => by
      rcases e1.mp (h1.mp h) with h' | h' | h'
      · exact ha h'
      · exact hb h'
      · exact hc h'
    have : aggRankS l = 0 := by omega
    rw [this]; rfl

theorem riskOfRank_aggRankR (l : List String) : riskOfRank (aggRankR l) = aggRisk l := by
  have h2 := le_aggRankR_iff l 2 (by omega)
  have h1 := le_aggRankR_iff l 1 (by omega)
  have hle := aggRankR_le l
  have e2 : (∃ s ∈ l, 2 ≤ sevRank s) ↔ l.any (fun s => strToLower s = "high") = true := by
    rw [List.any_eq_true]
    constructor
    · rintro ⟨s, hs, hr⟩; exact ⟨s, hs, by simpa using (sevRank_ge2_iff s).mp hr⟩
    · rintro ⟨s, hs, hr⟩; exact ⟨s, hs, (sevRank_ge2_iff s).mpr (by simpa using hr)⟩
  have e1 : (∃ s ∈ l, 1 ≤ sevRank s) ↔
      (l.any (fun s => strToLower s = "high") = true ∨
       l.any (fun s => strToLower s = "medium") = true) := by
    simp only [List.any_eq_true]
    constructor
    · rintro ⟨s, hs, hr⟩
      rcases (sevRank_ge1_iff s).mp hr with h | h
      · exact Or.inl ⟨s, hs, by simpa using h⟩
      · exact Or.inr ⟨s, hs, by simpa using h⟩
    · rintro (⟨s, hs, hr⟩ | ⟨s, hs, hr⟩)
      · exact ⟨s, hs, (sevRank_ge1_iff s).mpr (Or.inl (by simpa using hr))⟩
      · exact ⟨s, hs, (sevRank_ge1_iff s).mpr (Or.inr (by simpa using hr))⟩
  unfold aggRisk
  split_ifs with ha hb
  · have : aggRankR l = 2 := le_antisymm hle (h2.mpr (e2.mpr ha))
    rw [this]; rfl
  · have hge : 1 ≤ aggRankR l := h1.mpr (e1.mpr (Or.inr hb))
    have hlt : ¬ 2 ≤ aggRankR l := fun h => ha (e2.mp (h2.mp h))
    have : aggRankR l = 1 := by omega
    rw [this]; rfl
  · have hlt : ¬ 1 ≤ aggRankR l := fun h => by
      rcases e1.mp (h1.mp h) with h' | h'
      · exact ha h'
      · exact hb h'
    have : aggRankR l = 0 := by omega
    rw [this]; rfl

/-! ## Component characterizations of the per-key fold -/

theorem updateControl_compliance (c : MappedControl) (v : STIGVulnerability) (cci : String) :
    (updateControl c v cci).compliance_status = updateCompliance c.compliance_status v.status := rfl

theorem updateControl_risk (c : MappedControl) (v : STIGVulnerability) (cci : String) :
    (updateControl c v cci).risk_level = updateRisk c.risk_level v.severity := rfl

theorem foldl_updateControl_key (ps : List (STIGVulnerability × String)) (c : MappedControl) :
    (ps.foldl (fun c p => updateControl c p.1 p.2) c).nist_control = c.nist_control := by
  induction ps generalizing c with
  | nil => rfl
  | cons p ps ih => rw [List.foldl_cons, ih, updateControl_nist_control]

theorem foldControl_key (k : String) (ps : List (STIGVulnerability × String)) :
    (foldControl k ps).nist_control = k :=
  foldl_updateControl_key ps (emptyControl k)

theorem foldl_updateControl_compliance (ps : List (STIGVulnerability × String)) (c : MappedControl) :
    (ps.foldl (fun c p => updateControl c p.1 p.2) c).compliance_status =
      (ps.map (fun p => p.1.status)).foldl updateCompliance c.compliance_status := by
  induction ps generalizing c with
  | nil => rfl
  | cons p ps ih =>
    rw [List.foldl_cons, ih, List.map_cons, List.foldl_cons, updateControl_compliance]

theorem foldl_updateControl_risk (ps : List (STIGVulnerability × String)) (c : MappedControl) :
    (ps.foldl (fun c p => updateControl c p.1 p.2) c).risk_level =
      (ps.map (fun p => p.1.severity)).foldl updateRisk c.risk_level := by
  induction ps generalizing c with
  | nil => rfl
  | cons p ps ih =>
    rw [List.foldl_cons, ih, List.map_cons, List.foldl_cons, updateControl_risk]

theorem foldControl_compliance (k : String) (ps : List (STIGVulnerability × String)) :
    (foldControl k ps).compliance_status = aggStatus (ps.map (fun p => p.1.status)) := by
  unfold foldControl
  rw [foldl_updateControl_compliance]
  have h0 : (emptyControl k).compliance_status = statusOfRank 0 := rfl
  rw [h0, foldl_updateCompliance_rank]
  exact statusOfRank_aggRankS _

theorem foldControl_risk (k : String) (ps : List (STIGVulnerability × String)) :
    (foldControl k ps).risk_level = aggRisk (ps.map (fun p => p.1.severity)) := by
  unfold foldControl
  rw [foldl_updateControl_risk]
  have h0 : (emptyControl k).risk_level = riskOfRank 0 := rfl
  rw [h0, foldl_updateRisk_rank]
  exact riskOfRank_aggRankR _

theorem updateControl_ccis_mem (c : MappedControl) (v : STIGVulnerability) (cci x : String) :
    x ∈ (updateControl c v cci).ccis ↔ x ∈ c.ccis ∨ x = cci := by
  show x ∈ (if c.ccis.contains cci then c.ccis else c.ccis ++ [cci]) ↔ _
  by_cases h : c.ccis.contains cci
  · rw [if_pos h]
    have hm : cci ∈ c.ccis := by simpa using h
    constructor
    · exact Or.inl
    · rintro (hy | rfl)
      · exact hy
      · exact hm
  · rw [if_neg h]
    simp [List.mem_append]

theorem foldl_updateControl_ccis_mem (ps : List (STIGVulnerability × String)) (c : MappedControl)
    (x : String) :
    x ∈ (ps.foldl (fun c p => updateControl c p.1 p.2) c).ccis ↔
      x ∈ c.ccis ∨ x ∈ ps.map (fun p => p.2) := by
  induction ps generalizing c with
  | nil => simp
  | cons p ps ih =>
    rw [List.foldl_cons, ih, updateControl_ccis_mem]
    simp only [List.map_cons, List.mem_cons]
    tauto

theorem foldControl_ccis_mem (k : String) (ps : List (STIGVulnerability × String)) (x : String) :
    x ∈ (foldControl k ps).ccis ↔ x ∈ ps.map (fun p => p.2) := by
  unfold foldControl
  rw [foldl_updateControl_ccis_mem]
  simp [emptyControl]

theorem updateControl_stigs_cases (c : MappedControl) (v : STIGVulnerability) (cci : String) :
    (updateControl c v cci).stigs = c.stigs ∨ (updateControl c v cci).stigs = c.stigs ++ [v] := by
  by_cases h : c.stigs.any (fun s => s.vuln_num = v.vuln_num)
  · left; simp [updateControl, h]
  · right; simp [updateControl, h]

theorem foldl_updateControl_stigs_mono (ps : List (STIGVulnerability × String)) (c : MappedControl)
    (s : STIGVulnerability) (h : s ∈ c.stigs) :
    s ∈ (ps.foldl (fun c p => updateControl c p.1 p.2) c).stigs := by
  induction ps generalizing c with
  | nil => exact h
  | cons p ps ih =>
    rw [List.foldl_cons]
    apply ih
    rcases updateControl_stigs_cases c p.1 p.2 with hc | hc
    · rw [hc]; exact h
    · rw [hc]; exact List.mem_append_left _ h

theorem foldl_updateControl_stigs_sub (ps : List (STIGVulnerability × String)) (c : MappedControl)
    (s : STIGVulnerability)
    (h : s ∈ (ps.foldl (fun c p => updateControl c p.1 p.2) c).stigs) :
    s ∈ c.stigs ∨ ∃ p ∈ ps, p.1 = s := by
  induction ps generalizing c with
  | nil => exact Or.inl h
  | cons p ps ih =>
    rw [List.foldl_cons] at h
    rcases ih _ h with hc | ⟨q, hq, rfl⟩
    · rcases updateControl_stigs_cases c p.1 p.2 with he | he
      · rw [he] at hc; exact Or.inl hc
      · rw [he] at hc
        rcases List.mem_append.mp hc with hc | hc
        · exact Or.inl hc
        · right
          refine ⟨p, List.mem_cons_self p ps, ?_⟩
          exact (List.mem_singleton.mp hc).symm
    · exact Or.inr ⟨q, List.mem_cons_of_mem p hq, rfl⟩

theorem foldl_updateControl_stigs_num (ps : List (STIGVulnerability × String)) (c : MappedControl)
    (p : STIGVulnerability × String) (hp : p ∈ ps) :
    ∃ s ∈ (ps.foldl (fun c p => updateControl c p.1 p.2) c).stigs,
      s.vuln_num = p.1.vuln_num := by
  induction ps generalizing c with
  | nil => cases hp
  | cons q qs ih =>
    rw [List.foldl_cons]
    rcases List.mem_cons.mp hp with rfl | hp
    · by_cases h : c.stigs.any (fun s => s.vuln_num = p.1.vuln_num)
      · rcases List.any_eq_true.mp h with ⟨t, ht, hteq⟩
        exact ⟨t, foldl_updateControl_stigs_mono qs _ t
          (by rcases updateControl_stigs_cases c p.1 p.2 with he | he
              · rw [he]; exact ht
              · rw [he]; exact List.mem_append_left _ ht),
          by simpa using hteq⟩
      · refine ⟨p.1, foldl_updateControl_stigs_mono qs _ p.1 ?_, rfl⟩
        show p.1 ∈ (if c.stigs.any (fun s => s.vuln_num = p.1.vuln_num) then c.stigs else c.stigs ++ [p.1])
        rw [if_neg h]
        exact List.mem_append_right _ (List.mem_singleton.mpr rfl)
    · exact ih _ hp

/-! ## Keys of the control map -/

theorem keys_applyVuln (acc : List MappedControl) (v : STIGVulnerability) (cci k : String) :
    (applyVuln acc v cci k).map (fun c => c.nist_control) =
      if acc.any (fun c => c.nist_control = k) then acc.map (fun c => c.nist_control)
      else acc.map (fun c => c.nist_control) ++ [k] := by
  unfold applyVuln
  by_cases hany : acc.any (fun c => c.nist_control = k)
  · rw [if_pos hany, if_pos hany, List.map_map]
    apply List.map_congr_left
    intro c _
    by_cases h : c.nist_control = k
    · simp [h, updateControl_nist_control]
    · simp [h]
  · rw [if_neg hany, if_neg hany, List.map_append]
    simp [updateControl_nist_control, emptyControl]

theorem keysNodup_applyVuln (acc : List MappedControl) (v : STIGVulnerability) (cci k : String)
    (h : (acc.map (fun c => c.nist_control)).Nodup) :
    ((applyVuln acc v cci k).map (fun c => c.nist_control)).Nodup := by
  rw [keys_applyVuln]
  by_cases hany : acc.any (fun c => c.nist_control = k)
  · rwa [if_pos hany]
  · rw [if_neg hany]
    rw [List.nodup_append]
    refine ⟨h, List.nodup_singleton k, ?_⟩
    intro x hx hk
    rcases List.mem_map.mp hx with ⟨c, hc, rfl⟩
    rcases List.mem_singleton.mp hk with rfl
    exact hany (List.any_eq_true.mpr ⟨c, hc, by simp⟩)

theorem keysNodup_foldl (ts : List (STIGVulnerability × String × String))
    (acc : List MappedControl) (h : (acc.map (fun c => c.nist_control)).Nodup) :
    ((ts.foldl (fun a t => applyVuln a t.1 t.2.1 t.2.2) acc).map
      (fun c => c.nist_control)).Nodup := by
  induction ts generalizing acc with
  | nil => exact h
  | cons t ts ih => exact ih _ (keysNodup_applyVuln acc t.1 t.2.1 t.2.2 h)

theorem keysNodup_buildControls (cl : STIGChecklist) (ms : List CCIMapping) :
    ((buildControls cl ms).map (fun c => c.nist_control)).Nodup := by
  rw [buildControls_eq_foldl]
  exact keysNodup_foldl _ [] (by simp)

theorem findControl_of_mem (acc : List MappedControl)
    (h : (acc.map (fun c => c.nist_control)).Nodup) (mc : MappedControl) (hm : mc ∈ acc) :
    findControl mc.nist_control acc = some mc := by
  induction acc with
  | nil => cases hm
  | cons c cs ih =>
    rcases List.mem_cons.mp hm with rfl | hm
    · unfold findControl
      rw [List.find?_cons_of_pos _ (by simp)]
    · have hne : ¬ c.nist_control = mc.nist_control := by
        intro he
        have : c.nist_control ∈ cs.map (fun c => c.nist_control) :=
          he ▸ List.mem_map.mpr ⟨mc, hm, rfl⟩
        rw [List.map_cons, List.nodup_cons] at h
        exact h.1 this
      unfold findControl
      rw [List.find?_cons_of_neg _ (by simp [hne])]
      exact ih (by rw [List.map_cons, List.nodup_cons] at h; exact h.2) hm

theorem mem_of_findControl (k : String) (acc : List MappedControl) (mc : MappedControl)
    (h : findControl k acc = some mc) : mc ∈ acc ∧ mc.nist_control = k :=
  ⟨List.mem_of_find?_eq_some h, by simpa using List.find?_some h⟩

/-! ## Membership in the triple and pair lists -/

theorem mem_controlTriples (ms : List CCIMapping) (vulns : List STIGVulnerability)
    (t : STIGVulnerability × String × String) :
    t ∈ controlTriples ms vulns ↔
      t.1 ∈ vulns ∧ t.2.1 ∈ t.1.cci_refs ∧
        ∃ ks, cci_to_nist ms t.2.1 = some ks ∧ t.2.2 ∈ ks := by
  unfold controlTriples
  rw [List.mem_flatMap]
  constructor
  · rintro ⟨v, hv, hin⟩
    rcases List.mem_flatMap.mp hin with ⟨cci, hcci, hin2⟩
    cases hks : cci_to_nist ms cci with
    | none => rw [hks] at hin2; cases hin2
    | some ks =>
      rw [hks] at hin2
      rcases List.mem_map.mp hin2 with ⟨k, hk, ht⟩
      subst ht
      exact ⟨hv, hcci, ks, hks, hk⟩
  · rintro ⟨h1, h2, ks, h3, h4⟩
    refine ⟨t.1, h1, List.mem_flatMap.mpr ⟨t.2.1, h2, ?_⟩⟩
    rw [h3]
    exact List.mem_map.mpr ⟨t.2.2, h4, rfl⟩

theorem mem_pairsFor_triples (ms : List CCIMapping) (vulns : List STIGVulnerability)
    (k : String) (p : STIGVulnerability × String) :
    p ∈ pairsFor k (controlTriples ms vulns) ↔
      p.1 ∈ vulns ∧ p.2 ∈ p.1.cci_refs ∧
        ∃ ks, cci_to_nist ms p.2 = some ks ∧ k ∈ ks := by
  unfold pairsFor
  rw [List.mem_map]
  constructor
  · rintro ⟨t, ht, hp⟩
    rcases List.mem_filter.mp ht with ⟨htm, htk⟩
    rcases mem_controlTriples ms vulns t |>.mp htm with ⟨h1, h2, ks, h3, h4⟩
    have hk : t.2.2 = k := by simpa using htk
    subst hp
    exact ⟨h1, h2, ks, h3, hk ▸ h4⟩
  · rintro ⟨h1, h2, ks, h3, h4⟩
    refine ⟨(p.1, p.2, k), ?_, rfl⟩
    rw [List.mem_filter]
    exact ⟨(mem_controlTriples ms vulns (p.1, p.2, k)).mpr ⟨h1, h2, ks, h3, h4⟩, by simp⟩

theorem correlatesB_iff (ms : List CCIMapping) (v : STIGVulnerability) (k : String) :
    correlatesB ms v k = true ↔
      ∃ cci ∈ v.cci_refs, ∃ ks, cci_to_nist ms cci = some ks ∧ k ∈ ks := by
  unfold correlatesB
  rw [List.any_eq_true]
  constructor
  · rintro ⟨cci, hc, hb⟩
    cases hks : cci_to_nist ms cci with
    | none => rw [hks] at hb; cases hb
    | some ks =>
      rw [hks] at hb
      exact ⟨cci, hc, ks, hks, by simpa using hb⟩
  · rintro ⟨cci, hc, ks, hks, hk⟩
    exact ⟨cci, hc, by rw [hks]; simpa using hk⟩

theorem mem_statuses_pairsFor (ms : List CCIMapping) (vulns : List STIGVulnerability)
    (k x : String) :
    x ∈ (pairsFor k (controlTriples ms vulns)).map (fun p => p.1.status) ↔
      ∃ v ∈ vulns, correlatesB ms v k = true ∧ v.status = x := by
  rw [List.mem_map]
  constructor
  · rintro ⟨p, hp, hx⟩
    rcases (mem_pairsFor_triples ms vulns k p).mp hp with ⟨h1, h2, ks, h3, h4⟩
    exact ⟨p.1, h1, (correlatesB_iff ms p.1 k).mpr ⟨p.2, h2, ks, h3, h4⟩, hx⟩
  · rintro ⟨v, hv, hc, hx⟩
    rcases (correlatesB_iff ms v k).mp hc with ⟨cci, hcci, ks, hks, hk⟩
    exact ⟨(v, cci), (mem_pairsFor_triples ms vulns k (v, cci)).mpr ⟨hv, hcci, ks, hks, hk⟩, hx⟩

theorem mem_severities_pairsFor (ms : List CCIMapping) (vulns : List STIGVulnerability)
    (k x : String) :
    x ∈ (pairsFor k (controlTriples ms vulns)).map (fun p => p.1.severity) ↔
      ∃ v ∈ vulns, correlatesB ms v k = true ∧ v.severity = x := by
  rw [List.mem_map]
  constructor
  · rintro ⟨p, hp, hx⟩
    rcases (mem_pairsFor_triples ms vulns k p).mp hp with ⟨h1, h2, ks, h3, h4⟩
    exact ⟨p.1, h1, (correlatesB_iff ms p.1 k).mpr ⟨p.2, h2, ks, h3, h4⟩, hx⟩
  · rintro ⟨v, hv, hc, hx⟩
    rcases (correlatesB_iff ms v k).mp hc with ⟨cci, hcci, ks, hks, hk⟩
    exact ⟨(v, cci), (mem_pairsFor_triples ms vulns k (v, cci)).mpr ⟨hv, hcci, ks, hks, hk⟩, hx⟩

/-! ## Structure of the aggregator's output -/

theorem mem_map_stig_iff_mem_build (cl : STIGChecklist) (ms : List CCIMapping)
    (mc : MappedControl) :
    mc ∈ map_stig_to_nist_controls cl ms ↔ mc ∈ buildControls cl ms :=
  (List.perm_insertionSort controlLe (buildControls cl ms)).mem_iff

theorem mem_buildControls_foldControl (cl : STIGChecklist) (ms : List CCIMapping)
    (mc : MappedControl) (h : mc ∈ buildControls cl ms) :
    pairsFor mc.nist_control (controlTriples ms cl.vulnerabilities) ≠ [] ∧
      mc = foldControl mc.nist_control
        (pairsFor mc.nist_control (controlTriples ms cl.vulnerabilities)) := by
  have hf : findControl mc.nist_control (buildControls cl ms) = some mc :=
    findControl_of_mem _ (keysNodup_buildControls cl ms) mc h
  rw [buildControls_eq_foldl, findControl_foldl] at hf
  cases hps : pairsFor mc.nist_control (controlTriples ms cl.vulnerabilities) with
  | nil =>
    rw [hps] at hf
    cases hf
  | cons p ps =>
    rw [hps] at hf
    have hf2 : List.foldl (perStep mc.nist_control) none (p :: ps) = some mc := hf
    rw [foldl_perStep_none _ _ (by simp)] at hf2
    exact ⟨by simp, (Option.some.inj hf2).symm⟩

theorem findControl_buildControls (cl : STIGChecklist) (ms : List CCIMapping) (k : String) :
    findControl k (buildControls cl ms) =
      if h : pairsFor k (controlTriples ms cl.vulnerabilities) = [] then none
      else some (foldControl k (pairsFor k (controlTriples ms cl.vulnerabilities))) := by
  rw [buildControls_eq_foldl, findControl_foldl]
  split_ifs with h
  · rw [h]; rfl
  · exact foldl_perStep_none _ _ h

theorem exists_key_buildControls (cl : STIGChecklist) (ms : List CCIMapping) (k : String) :
    (∃ mc ∈ buildControls cl ms, mc.nist_control = k) ↔
      pairsFor k (controlTriples ms cl.vulnerabilities) ≠ [] := by
  constructor
  · rintro ⟨mc, hm, rfl⟩
    exact (mem_buildControls_foldControl cl ms mc hm).1
  · intro h
    have := findControl_buildControls cl ms k
    rw [dif_neg h] at this
    rcases mem_of_findControl _ _ _ this with ⟨hm, hk⟩
    exact ⟨_, hm, hk⟩

theorem pairsFor_ne_nil_iff (ms : List CCIMapping) (vulns : List STIGVulnerability) (k : String) :
    pairsFor k (controlTriples ms vulns) ≠ [] ↔
      ∃ v ∈ vulns, correlatesB ms v k = true := by
  constructor
  · intro h
    cases hps : pairsFor k (controlTriples ms vulns) with
    | nil => exact absurd hps h
    | cons p ps =>
      have hp : p ∈ pairsFor k (controlTriples ms vulns) := by
        rw [hps]; exact List.mem_cons_self p ps
      rcases (mem_pairsFor_triples ms vulns k p).mp hp with ⟨h1, h2, ks, h3, h4⟩
      exact ⟨p.1, h1, (correlatesB_iff ms p.1 k).mpr ⟨p.2, h2, ks, h3, h4⟩⟩
  · rintro ⟨v, hv, hc⟩
    rcases (correlatesB_iff ms v k).mp hc with ⟨cci, hcci, ks, hks, hk⟩
    have : (v, cci) ∈ pairsFor k (controlTriples ms vulns) :=
      (mem_pairsFor_triples ms vulns k (v, cci)).mpr ⟨hv, hcci, ks, hks, hk⟩
    exact List.ne_nil_of_mem this

theorem aggStatus_congr (l₁ l₂ : List String) (h : ∀ x, x ∈ l₁ ↔ x ∈ l₂) :
    aggStatus l₁ = aggStatus l₂ := by
  simp only [aggStatus, h "Open", h "NotAFinding", h "NotApplicable"]

theorem aggRisk_congr (l₁ l₂ : List String) (h : ∀ x, x ∈ l₁ ↔ x ∈ l₂) :
    aggRisk l₁ = aggRisk l₂ := by
  unfold aggRisk
  have e1 : l₁.any (fun s => strToLower s = "high") = l₂.any (fun s => strToLower s = "high") := by
    rcases Bool.eq_false_or_eq_true (l₁.any (fun s => strToLower s = "high")) with hb | hb
    · rw [hb]
      rcases List.any_eq_true.mp hb with ⟨s, hs, hp⟩
      exact (List.any_eq_true.mpr ⟨s, (h s).mp hs, hp⟩).symm
    · rw [hb]
      symm
      rw [Bool.eq_false_iff]
      intro hb2
      rcases List.any_eq_true.mp hb2 with ⟨s, hs, hp⟩
      rw [Bool.eq_false_iff] at hb
      exact hb (List.any_eq_true.mpr ⟨s, (h s).mpr hs, hp⟩)
  have e2 : l₁.any (fun s => strToLower s = "medium") = l₂.any (fun s => strToLower s = "medium") := by
    rcases Bool.eq_false_or_eq_true (l₁.any (fun s => strToLower s = "medium")) with hb | hb
    · rw [hb]
      rcases List.any_eq_true.mp hb with ⟨s, hs, hp⟩
      exact (List.any_eq_true.mpr ⟨s, (h s).mp hs, hp⟩).symm
    · rw [hb]
      symm
      rw [Bool.eq_false_iff]
      intro hb2
      rcases List.any_eq_true.mp hb2 with ⟨s, hs, hp⟩
      rw [Bool.eq_false_iff] at hb
      exact hb (List.any_eq_true.mpr ⟨s, (h s).mpr hs, hp⟩)
  rw [e1, e2]

theorem aggStatus_map_status (l : List STIGVulnerability) :
    aggStatus (l.map (fun v => v.status)) =
      (if ∃ v ∈ l, v.status = "Open" then "non-compliant"
       else if ∃ v ∈ l, v.status = "NotAFinding" then "compliant"
       else if ∃ v ∈ l, v.status = "NotApplicable" then "not-applicable"
       else "not-reviewed") := by
  simp only [aggStatus, List.mem_map]

theorem aggRisk_map_severity (l : List STIGVulnerability) :
    aggRisk (l.map (fun v => v.severity)) =
      (if ∃ v ∈ l, strToLower v.severity = "high" then "high"
       else if ∃ v ∈ l, strToLower v.severity = "medium" then "medium"
       else "low") := by
  unfold aggRisk
  have e1 : ((l.map (fun v => v.severity)).any (fun s => strToLower s = "high") = true) ↔
      (∃ v ∈ l, strToLower v.severity = "high") := by
    rw [List.any_eq_true]
    constructor
    · rintro ⟨x, hx, hp⟩
      rcases List.mem_map.mp hx with ⟨v, hv, rfl⟩
      exact ⟨v, hv, by simpa using hp⟩
    · rintro ⟨v, hv, hp⟩
      exact ⟨v.severity, List.mem_map.mpr ⟨v, hv, rfl⟩, by simpa using hp⟩
  have e2 : ((l.map (fun v => v.severity)).any (fun s => strToLower s = "medium") = true) ↔
      (∃ v ∈ l, strToLower v.severity = "medium") := by
    rw [List.any_eq_true]
    constructor
    · rintro ⟨x, hx, hp⟩
      rcases List.mem_map.mp hx with ⟨v, hv, rfl⟩
      exact ⟨v, hv, by simpa using hp⟩
    · rintro ⟨v, hv, hp⟩
      exact ⟨v.severity, List.mem_map.mpr ⟨v, hv, rfl⟩, by simpa using hp⟩
  simp only [e1, e2]

/-- C4: for every checklist and catalog, each mapped control's compliance
verdict is exactly the documented priority reduction — non-compliant when any
correlated finding is Open, else compliant when any is NotAFinding, else
not-applicable when any is NotApplicable, else not-reviewed — a function of
which status values occur among the control's correlated findings only
(membership conditions), hence independent of their order. -/
theorem stig_compliance_verdict (cl : STIGChecklist) (ms : List CCIMapping)
    (mc : MappedControl) (h : mc ∈ map_stig_to_nist_controls cl ms) :
    mc.compliance_status =
      (if ∃ v ∈ correlatedFindings cl ms mc.nist_control, v.status = "Open" then "non-compliant"
       else if ∃ v ∈ correlatedFindings cl ms mc.nist_control, v.status = "NotAFinding" then "compliant"
       else if ∃ v ∈ correlatedFindings cl ms mc.nist_control, v.status = "NotApplicable" then "not-applicable"
       else "not-reviewed") := by
  rw [mem_map_stig_iff_mem_build] at h
  rcases mem_buildControls_foldControl cl ms mc h with ⟨hne, heq⟩
  rw [← aggStatus_map_status]
  conv_lhs => rw [heq]
  rw [foldControl_compliance]
  apply aggStatus_congr
  intro x
  rw [mem_statuses_pairsFor]
  unfold correlatedFindings
  constructor
  · rintro ⟨v, hv, hc, hx⟩
    exact List.mem_map.mpr ⟨v, List.mem_filter.mpr ⟨hv, hc⟩, hx⟩
  · intro hx
    rcases List.mem_map.mp hx with ⟨v, hv, hx⟩
    rcases List.mem_filter.mp hv with ⟨hv2, hc⟩
    exact ⟨v, hv2, hc, hx⟩

/-- C5: each mapped control's risk verdict is the maximum severity (high >
medium > low, case-insensitive, defaulting to low) over all of its correlated
findings, with no condition whatsoever on the findings' status values. -/
theorem stig_risk_verdict (cl : STIGChecklist) (ms : List CCIMapping)
    (mc : MappedControl) (h : mc ∈ map_stig_to_nist_controls cl ms) :
    mc.risk_level =
      (if ∃ v ∈ correlatedFindings cl ms mc.nist_control, strToLower v.severity = "high" then "high"
       else if ∃ v ∈ correlatedFindings cl ms mc.nist_control, strToLower v.severity = "medium" then "medium"
       else "low") := by
  rw [mem_map_stig_iff_mem_build] at h
  rcases mem_buildControls_foldControl cl ms mc h with ⟨hne, heq⟩
  rw [← aggRisk_map_severity]
  conv_lhs => rw [heq]
  rw [foldControl_risk]
  apply aggRisk_congr
  intro x
  rw [mem_severities_pairsFor]
  unfold correlatedFindings
  constructor
  · rintro ⟨v, hv, hc, hx⟩
    exact List.mem_map.mpr ⟨v, List.mem_filter.mpr ⟨hv, hc⟩, hx⟩
  · intro hx
    rcases List.mem_map.mp hx with ⟨v, hv, hx⟩
    rcases List.mem_filter.mp hv with ⟨hv2, hc⟩
    exact ⟨v, hv2, hc, hx⟩

/-! ## The scenario of spec section 8, used as witness input -/

def specCatalogEntry : CCIMapping :=
  { id := "CCI-000001", title := "", definition := "", nist_controls := ["AC-2"],
    cci_type := "", status := "", publish_date := "" }

def specFindingOpen : STIGVulnerability :=
  { emptyVuln with
    vuln_num := "V-1"
    status := "Open"
    severity := "high"
    cci_refs := ["CCI-000001"] }

def specFindingNaf : STIGVulnerability :=
  { emptyVuln with
    vuln_num := "V-2"
    status := "NotAFinding"
    severity := "low"
    cci_refs := ["CCI-000001"] }

def specScenarioChecklist : STIGChecklist :=
  { asset := emptyAsset, stig_info := emptyStigInfo,
    vulnerabilities := [specFindingOpen, specFindingNaf] }

def specMappedAC2 : MappedControl :=
  { nist_control := "AC-2", ccis := ["CCI-000001"], stigs := [specFindingOpen, specFindingNaf],
    compliance_status := "non-compliant", risk_level := "high" }

/-- Witness for C4 at the concrete scenario of spec section 8. -/
theorem stig_compliance_verdict_witness :
    specMappedAC2 ∈ map_stig_to_nist_controls specScenarioChecklist [specCatalogEntry] ∧
    specMappedAC2.compliance_status =
      (if ∃ v ∈ correlatedFindings specScenarioChecklist [specCatalogEntry] specMappedAC2.nist_control,
          v.status = "Open" then "non-compliant"
       else if ∃ v ∈ correlatedFindings specScenarioChecklist [specCatalogEntry] specMappedAC2.nist_control,
          v.status = "NotAFinding" then "compliant"
       else if ∃ v ∈ correlatedFindings specScenarioChecklist [specCatalogEntry] specMappedAC2.nist_control,
          v.status = "NotApplicable" then "not-applicable"
       else "not-reviewed") :=
  ⟨by decide, stig_compliance_verdict specScenarioChecklist [specCatalogEntry] specMappedAC2 (by decide)⟩

/-- Witness for C5 at the concrete scenario of spec section 8: the control's
risk is high although the only Open finding's severity would already give it,
and the closed low-severity finding is also counted. -/
theorem stig_risk_verdict_witness :
    specMappedAC2 ∈ map_stig_to_nist_controls specScenarioChecklist [specCatalogEntry] ∧
    specMappedAC2.risk_level =
      (if ∃ v ∈ correlatedFindings specScenarioChecklist [specCatalogEntry] specMappedAC2.nist_control,
          strToLower v.severity = "high" then "high"
       else if ∃ v ∈ correlatedFindings specScenarioChecklist [specCatalogEntry] specMappedAC2.nist_control,
          strToLower v.severity = "medium" then "medium"
       else "low") :=
  ⟨by decide, stig_risk_verdict specScenarioChecklist [specCatalogEntry] specMappedAC2 (by decide)⟩

/-! ## Invariants of the aggregator output -/

theorem lexLt_iff (a b : List Char) : lexLt a b = true ↔ lexLe a b = true ∧ a ≠ b := by
  induction a generalizing b with
  | nil =>
    cases b with
    | nil => simp [lexLt, lexLe]
    | cons d ds => simp [lexLt, lexLe]
  | cons c cs ih =>
    cases b with
    | nil => simp [lexLt, lexLe]
    | cons d ds =>
      by_cases hcd : c < d
      · simp [lexLt, lexLe, hcd, ne_of_lt hcd]
      · by_cases hce : c = d
        · subst hce
          simp [lexLt, lexLe, hcd, ih ds]
        · simp [lexLt, lexLe, hcd, hce]

theorem statusOfRank_mem4 (n : Nat) :
    statusOfRank n = "not-reviewed" ∨ statusOfRank n = "compliant" ∨
    statusOfRank n = "non-compliant" ∨ statusOfRank n = "not-applicable" := by
  match n with
  | 0 => left; rfl
  | 1 => right; right; right; rfl
  | 2 => right; left; rfl
  | m + 3 => right; right; left; rfl

theorem aggStatus_mem4 (l : List String) :
    aggStatus l = "not-reviewed" ∨ aggStatus l = "compliant" ∨
    aggStatus l = "non-compliant" ∨ aggStatus l = "not-applicable" := by
  rw [← statusOfRank_aggRankS]
  exact statusOfRank_mem4 _

theorem aggRisk_mem3 (l : List String) :
    aggRisk l = "low" ∨ aggRisk l = "medium" ∨ aggRisk l = "high" := by
  unfold aggRisk
  split_ifs
  · right; right; rfl
  · right; left; rfl
  · left; rfl

theorem compliance_status_mem4 (cl : STIGChecklist) (ms : List CCIMapping)
    (mc : MappedControl) (h : mc ∈ map_stig_to_nist_controls cl ms) :
    mc.compliance_status = "not-reviewed" ∨ mc.compliance_status = "compliant" ∨
    mc.compliance_status = "non-compliant" ∨ mc.compliance_status = "not-applicable" := by
  rw [mem_map_stig_iff_mem_build] at h
  rcases mem_buildControls_foldControl cl ms mc h with ⟨hne, heq⟩
  rw [heq, foldControl_compliance]
  exact aggStatus_mem4 _

theorem risk_level_mem3 (cl : STIGChecklist) (ms : List CCIMapping)
    (mc : MappedControl) (h : mc ∈ map_stig_to_nist_controls cl ms) :
    mc.risk_level = "low" ∨ mc.risk_level = "medium" ∨ mc.risk_level = "high" := by
  rw [mem_map_stig_iff_mem_build] at h
  rcases mem_buildControls_foldControl cl ms mc h with ⟨hne, heq⟩
  rw [heq, foldControl_risk]
  exact aggRisk_mem3 _

theorem ccis_ne_nil (cl : STIGChecklist) (ms : List CCIMapping)
    (mc : MappedControl) (h : mc ∈ map_stig_to_nist_controls cl ms) :
    mc.ccis ≠ [] := by
  rw [mem_map_stig_iff_mem_build] at h
  rcases mem_buildControls_foldControl cl ms mc h with ⟨hne, heq⟩
  cases hps : pairsFor mc.nist_control (controlTriples ms cl.vulnerabilities) with
  | nil => exact absurd hps hne
  | cons p ps =>
    have : p.2 ∈ mc.ccis := by
      rw [heq, hps, foldControl_ccis_mem]
      simp
    exact List.ne_nil_of_mem this

theorem stigs_ne_nil (cl : STIGChecklist) (ms : List CCIMapping)
    (mc : MappedControl) (h : mc ∈ map_stig_to_nist_controls cl ms) :
    mc.stigs ≠ [] := by
  rw [mem_map_stig_iff_mem_build] at h
  rcases mem_buildControls_foldControl cl ms mc h with ⟨hne, heq⟩
  cases hps : pairsFor mc.nist_control (controlTriples ms cl.vulnerabilities) with
  | nil => exact absurd hps hne
  | cons p ps =>
    rcases foldl_updateControl_stigs_num (p :: ps) (emptyControl mc.nist_control) p
        (List.mem_cons_self p ps) with ⟨s, hs, _⟩
    have : s ∈ mc.stigs := by
      rw [heq, hps]
      exact hs
    exact List.ne_nil_of_mem this

/-- C9: every mapped control in the aggregator's output is well-formed — its
CCI and finding lists are non-empty, the compliance verdict is one of the four
canonical strings and the risk verdict one of the three — and the NIST control
keys of the output are strictly ascending in lexicographic order (hence
pairwise distinct). -/
theorem map_stig_output_well_formed (cl : STIGChecklist) (ms : List CCIMapping) :
    ((map_stig_to_nist_controls cl ms).map (fun c => c.nist_control)).Pairwise
      (fun a b => lexLt a.data b.data = true) ∧
    ∀ mc ∈ map_stig_to_nist_controls cl ms,
      mc.ccis ≠ [] ∧ mc.stigs ≠ [] ∧
      (mc.compliance_status = "not-reviewed" ∨ mc.compliance_status = "compliant" ∨
       mc.compliance_status = "non-compliant" ∨ mc.compliance_status = "not-applicable") ∧
      (mc.risk_level = "low" ∨ mc.risk_level = "medium" ∨ mc.risk_level = "high") := by
  constructor
  · have hs : List.Sorted controlLe (map_stig_to_nist_controls cl ms) :=
      List.sorted_insertionSort controlLe (buildControls cl ms)
    have hp1 : ((map_stig_to_nist_controls cl ms).map (fun c => c.nist_control)).Pairwise
        (fun a b => lexLe a.data b.data = true) :=
      List.pairwise_map.mpr hs
    have hn : ((map_stig_to_nist_controls cl ms).map (fun c => c.nist_control)).Nodup := by
      have hperm := (List.perm_insertionSort controlLe (buildControls cl ms)).map
        (fun c => c.nist_control)
      exact hperm.nodup_iff.mpr (keysNodup_buildControls cl ms)
    exact List.Pairwise.imp₂
      (fun a b h1 h2 => (lexLt_iff a.data b.data).mpr ⟨h1, fun hd => h2 (String.ext hd)⟩)
      hp1 hn
  · intro mc hm
    exact ⟨ccis_ne_nil cl ms mc hm, stigs_ne_nil cl ms mc hm,
      compliance_status_mem4 cl ms mc hm, risk_level_mem3 cl ms mc hm⟩

/-! ## Summary partition -/

theorem filter_partition (l : List MappedControl)
    (h : ∀ mc ∈ l, mc.compliance_status = "not-reviewed" ∨ mc.compliance_status = "compliant" ∨
      mc.compliance_status = "non-compliant" ∨ mc.compliance_status = "not-applicable") :
    (l.filter (fun c => c.compliance_status = "compliant")).length +
      (l.filter (fun c => c.compliance_status = "non-compliant")).length +
      (l.filter (fun c => c.compliance_status = "not-applicable")).length +
      (l.filter (fun c => c.compliance_status = "not-reviewed")).length = l.length := by
  induction l with
  | nil => rfl
  | cons c cs ih =>
    have hc := h c (List.mem_cons_self c cs)
    have ih2 := ih (fun mc hm => h mc (List.mem_cons_of_mem c hm))
    rcases hc with hc | hc | hc | hc <;>
      simp [List.filter_cons, hc] <;> omega

/-- C10: the per-verdict control counts of the summary partition the mapped
controls — they sum to `total_controls`, which is the length of the
`mapped_controls` list. -/
theorem create_mapping_result_partition (cl : STIGChecklist) (ms : List CCIMapping) :
    (create_mapping_result cl ms).summary.compliant_controls +
      (create_mapping_result cl ms).summary.non_compliant_controls +
      (create_mapping_result cl ms).summary.not_applicable_controls +
      (create_mapping_result cl ms).summary.not_reviewed_controls =
      (create_mapping_result cl ms).summary.total_controls ∧
    (create_mapping_result cl ms).summary.total_controls =
      (create_mapping_result cl ms).mapped_controls.length := by
  constructor
  · exact filter_partition (map_stig_to_nist_controls cl ms)
      (fun mc hm => compliance_status_mem4 cl ms mc hm)
  · rfl

/-! ## Permutation invariance of the aggregator (C6) -/

/-- Lexicographic order on strings, the relation `sort_by` sorts keys with. -/
def strLeRel (a b : String) : Prop := lexLe a.data b.data = true

instance : IsAntisymm String strLeRel :=
  ⟨fun a b h1 h2 => String.ext (lexLe_antisymm _ _ h1 h2)⟩

theorem mem_keys_iff (cl : STIGChecklist) (ms : List CCIMapping) (k : String) :
    k ∈ (map_stig_to_nist_controls cl ms).map (fun c => c.nist_control) ↔
      ∃ v ∈ cl.vulnerabilities, correlatesB ms v k = true := by
  rw [List.mem_map]
  constructor
  · rintro ⟨mc, hm, rfl⟩
    rw [mem_map_stig_iff_mem_build] at hm
    exact (pairsFor_ne_nil_iff ms cl.vulnerabilities mc.nist_control).mp
      (mem_buildControls_foldControl cl ms mc hm).1
  · intro hex
    have hne := (pairsFor_ne_nil_iff ms cl.vulnerabilities k).mpr hex
    rcases (exists_key_buildControls cl ms k).mpr hne with ⟨mc, hm, hk⟩
    exact ⟨mc, (mem_map_stig_iff_mem_build cl ms mc).mpr hm, hk⟩

theorem keys_sorted (cl : STIGChecklist) (ms : List CCIMapping) :
    List.Sorted strLeRel ((map_stig_to_nist_controls cl ms).map (fun c => c.nist_control)) :=
  List.pairwise_map.mpr (List.sorted_insertionSort controlLe (buildControls cl ms))

theorem keys_nodup (cl : STIGChecklist) (ms : List CCIMapping) :
    ((map_stig_to_nist_controls cl ms).map (fun c => c.nist_control)).Nodup :=
  (((List.perm_insertionSort controlLe (buildControls cl ms)).map
    (fun c => c.nist_control)).nodup_iff).mpr (keysNodup_buildControls cl ms)

theorem mem_ccis_pairsFor (ms : List CCIMapping) (vulns : List STIGVulnerability)
    (k x : String) :
    x ∈ (pairsFor k (controlTriples ms vulns)).map (fun p => p.2) ↔
      ∃ v ∈ vulns, x ∈ v.cci_refs ∧ ∃ ks, cci_to_nist ms x = some ks ∧ k ∈ ks := by
  rw [List.mem_map]
  constructor
  · rintro ⟨p, hp, rfl⟩
    rcases (mem_pairsFor_triples ms vulns k p).mp hp with ⟨h1, h2, ks, h3, h4⟩
    exact ⟨p.1, h1, h2, ks, h3, h4⟩
  · rintro ⟨v, hv, hx, ks, hks, hk⟩
    exact ⟨(v, x), (mem_pairsFor_triples ms vulns k (v, x)).mpr ⟨hv, hx, ks, hks, hk⟩, rfl⟩

theorem mem_fst_pairsFor (ms : List CCIMapping) (vulns : List STIGVulnerability)
    (k : String) (v : STIGVulnerability) :
    (∃ p ∈ pairsFor k (controlTriples ms vulns), p.1 = v) ↔
      v ∈ vulns ∧ correlatesB ms v k = true := by
  constructor
  · rintro ⟨p, hp, rfl⟩
    rcases (mem_pairsFor_triples ms vulns k p).mp hp with ⟨h1, h2, ks, h3, h4⟩
    exact ⟨h1, (correlatesB_iff ms p.1 k).mpr ⟨p.2, h2, ks, h3, h4⟩⟩
  · rintro ⟨hv, hc⟩
    rcases (correlatesB_iff ms v k).mp hc with ⟨cci, hcci, ks, hks, hk⟩
    exact ⟨(v, cci), (mem_pairsFor_triples ms vulns k (v, cci)).mpr ⟨hv, hcci, ks, hks, hk⟩, rfl⟩

theorem foldControl_stigs_mem_of_inj (k : String) (ps : List (STIGVulnerability × String))
    (hinj : ∀ p q, p ∈ ps → q ∈ ps → p.1.vuln_num = q.1.vuln_num → p.1 = q.1)
    (s : STIGVulnerability) :
    s ∈ (foldControl k ps).stigs ↔ ∃ p ∈ ps, p.1 = s := by
  constructor
  · intro h
    rcases foldl_updateControl_stigs_sub ps _ s h with hc | h2
    · simp [emptyControl] at hc
    · exact h2
  · rintro ⟨p, hp, rfl⟩
    rcases foldl_updateControl_stigs_num ps (emptyControl k) p hp with ⟨t, ht, hnum⟩
    rcases foldl_updateControl_stigs_sub ps _ t ht with hc | ⟨q, hq, rfl⟩
    · simp [emptyControl] at hc
    · have heq : q.1 = p.1 := hinj q p hq hp hnum
      exact heq ▸ ht

/-- C6 (amended): for checklists whose findings have pairwise-distinct finding
numbers, permuting the finding list leaves the aggregator's output the same up
to list order inside each control: the sorted NIST-control key lists are
equal, and controls with equal keys have equal verdicts, equal CCI membership
and equal finding membership. -/
theorem aggregator_permutation_invariant (cl cl2 : STIGChecklist) (ms : List CCIMapping)
    (hperm : cl.vulnerabilities.Perm cl2.vulnerabilities)
    (hnd : (cl.vulnerabilities.map (fun v => v.vuln_num)).Nodup) :
    ((map_stig_to_nist_controls cl ms).map (fun c => c.nist_control) =
      (map_stig_to_nist_controls cl2 ms).map (fun c => c.nist_control)) ∧
    ∀ mc ∈ map_stig_to_nist_controls cl ms, ∀ mc2 ∈ map_stig_to_nist_controls cl2 ms,
      mc.nist_control = mc2.nist_control →
      mc.compliance_status = mc2.compliance_status ∧
      mc.risk_level = mc2.risk_level ∧
      (∀ x, x ∈ mc.ccis ↔ x ∈ mc2.ccis) ∧
      (∀ v, v ∈ mc.stigs ↔ v ∈ mc2.stigs) := by
  have hnd2 : (cl2.vulnerabilities.map (fun v => v.vuln_num)).Nodup :=
    ((hperm.map (fun v => v.vuln_num)).nodup_iff).mp hnd
  constructor
  · apply List.eq_of_perm_of_sorted (r := strLeRel)
    · apply (List.perm_ext_iff_of_nodup (keys_nodup cl ms) (keys_nodup cl2 ms)).mpr
      intro k
      rw [mem_keys_iff, mem_keys_iff]
      constructor
      · rintro ⟨v, hv, hc⟩; exact ⟨v, hperm.mem_iff.mp hv, hc⟩
      · rintro ⟨v, hv, hc⟩; exact ⟨v, hperm.mem_iff.mpr hv, hc⟩
    · exact keys_sorted cl ms
    · exact keys_sorted cl2 ms
  · intro mc hm mc2 hm2 hk
    rw [mem_map_stig_iff_mem_build] at hm hm2
    rcases mem_buildControls_foldControl cl ms mc hm with ⟨hne1, he1⟩
    rcases mem_buildControls_foldControl cl2 ms mc2 hm2 with ⟨hne2, he2⟩
    rw [← hk] at he2
    have hinjv : ∀ a b : STIGVulnerability, a ∈ cl.vulnerabilities → b ∈ cl.vulnerabilities →
        a.vuln_num = b.vuln_num → a = b :=
      fun a b ha hb he => List.inj_on_of_nodup_map hnd ha hb he
    have hinjv2 : ∀ a b : STIGVulnerability, a ∈ cl2.vulnerabilities → b ∈ cl2.vulnerabilities →
        a.vuln_num = b.vuln_num → a = b :=
      fun a b ha hb he => List.inj_on_of_nodup_map hnd2 ha hb he
    have hinj1 : ∀ p q, p ∈ pairsFor mc.nist_control (controlTriples ms cl.vulnerabilities) →
        q ∈ pairsFor mc.nist_control (controlTriples ms cl.vulnerabilities) →
        p.1.vuln_num = q.1.vuln_num → p.1 = q.1 :=
      fun p q hp hq he =>
        hinjv _ _ ((mem_pairsFor_triples ms cl.vulnerabilities _ p).mp hp).1
          ((mem_pairsFor_triples ms cl.vulnerabilities _ q).mp hq).1 he
    have hinj2 : ∀ p q, p ∈ pairsFor mc.nist_control (controlTriples ms cl2.vulnerabilities) →
        q ∈ pairsFor mc.nist_control (controlTriples ms cl2.vulnerabilities) →
        p.1.vuln_num = q.1.vuln_num → p.1 = q.1 :=
      fun p q hp hq he =>
        hinjv2 _ _ ((mem_pairsFor_triples ms cl2.vulnerabilities _ p).mp hp).1
          ((mem_pairsFor_triples ms cl2.vulnerabilities _ q).mp hq).1 he
    refine ⟨?_, ?_, ?_, ?_⟩
    · rw [he1, he2, foldControl_compliance, foldControl_compliance]
      apply aggStatus_congr
      intro x
      rw [mem_statuses_pairsFor, mem_statuses_pairsFor]
      constructor
      · rintro ⟨v, hv, hc, hx⟩; exact ⟨v, hperm.mem_iff.mp hv, hc, hx⟩
      · rintro ⟨v, hv, hc, hx⟩; exact ⟨v, hperm.mem_iff.mpr hv, hc, hx⟩
    · rw [he1, he2, foldControl_risk, foldControl_risk]
      apply aggRisk_congr
      intro x
      rw [mem_severities_pairsFor, mem_severities_pairsFor]
      constructor
      · rintro ⟨v, hv, hc, hx⟩; exact ⟨v, hperm.mem_iff.mp hv, hc, hx⟩
      · rintro ⟨v, hv, hc, hx⟩; exact ⟨v, hperm.mem_iff.mpr hv, hc, hx⟩
    · intro x
      rw [he1, he2, foldControl_ccis_mem, foldControl_ccis_mem,
          mem_ccis_pairsFor, mem_ccis_pairsFor]
      constructor
      · rintro ⟨v, hv, hc⟩; exact ⟨v, hperm.mem_iff.mp hv, hc⟩
      · rintro ⟨v, hv, hc⟩; exact ⟨v, hperm.mem_iff.mpr hv, hc⟩
    · intro v
      rw [he1, he2, foldControl_stigs_mem_of_inj _ _ hinj1, foldControl_stigs_mem_of_inj _ _ hinj2,
          mem_fst_pairsFor, mem_fst_pairsFor]
      constructor
      · rintro ⟨hv, hc⟩; exact ⟨hperm.mem_iff.mp hv, hc⟩
      · rintro ⟨hv, hc⟩; exact ⟨hperm.mem_iff.mpr hv, hc⟩

/-- Two distinct findings sharing the finding number `V-1`. -/
def dupFindingA : STIGVulnerability :=
  { emptyVuln with
    vuln_num := "V-1"
    status := "Open"
    comments := "first copy"
    cci_refs := ["CCI-000001"] }

def dupFindingB : STIGVulnerability :=
  { emptyVuln with
    vuln_num := "V-1"
    status := "NotAFinding"
    comments := "second copy"
    cci_refs := ["CCI-000001"] }

def dupChecklistAB : STIGChecklist :=
  { asset := emptyAsset, stig_info := emptyStigInfo,
    vulnerabilities := [dupFindingA, dupFindingB] }

def dupChecklistBA : STIGChecklist :=
  { asset := emptyAsset, stig_info := emptyStigInfo,
    vulnerabilities := [dupFindingB, dupFindingA] }

/-- Counterexample to C6 as stated: two checklists whose finding lists are
permutations of each other (two distinct findings sharing finding number
`V-1`), for which the single output control stores `dupFindingA` in one order
and `dupFindingB` in the other — the finding membership of the control is not
preserved, beyond mere list reordering. -/
theorem aggregator_permutation_counterexample :
    dupChecklistAB.vulnerabilities.Perm dupChecklistBA.vulnerabilities ∧
    (map_stig_to_nist_controls dupChecklistAB [specCatalogEntry]).map (fun c => c.stigs) =
      [[dupFindingA]] ∧
    (map_stig_to_nist_controls dupChecklistBA [specCatalogEntry]).map (fun c => c.stigs) =
      [[dupFindingB]] ∧
    dupFindingA ≠ dupFindingB := by
  refine ⟨by decide, by decide, by decide, by decide⟩

/-- Witness for the amended C6 at the concrete scenario of spec section 8
(distinct finding numbers, swapped finding order). -/
theorem aggregator_permutation_invariant_witness :
    (specScenarioChecklist.vulnerabilities.Perm
      { asset := emptyAsset, stig_info := emptyStigInfo,
        vulnerabilities := [specFindingNaf, specFindingOpen] : STIGChecklist}.vulnerabilities ∧
     (specScenarioChecklist.vulnerabilities.map (fun v => v.vuln_num)).Nodup) ∧
    (((map_stig_to_nist_controls specScenarioChecklist [specCatalogEntry]).map
        (fun c => c.nist_control) =
      (map_stig_to_nist_controls
        { asset := emptyAsset, stig_info := emptyStigInfo,
          vulnerabilities := [specFindingNaf, specFindingOpen] } [specCatalogEntry]).map
        (fun c => c.nist_control)) ∧
     ∀ mc ∈ map_stig_to_nist_controls specScenarioChecklist [specCatalogEntry],
       ∀ mc2 ∈ map_stig_to_nist_controls
         { asset := emptyAsset, stig_info := emptyStigInfo,
           vulnerabilities := [specFindingNaf, specFindingOpen] } [specCatalogEntry],
       mc.nist_control = mc2.nist_control →
       mc.compliance_status = mc2.compliance_status ∧
       mc.risk_level = mc2.risk_level ∧
       (∀ x, x ∈ mc.ccis ↔ x ∈ mc2.ccis) ∧
       (∀ v, v ∈ mc.stigs ↔ v ∈ mc2.stigs)) :=
  ⟨⟨by decide, by decide⟩,
   aggregator_permutation_invariant specScenarioChecklist
     { asset := emptyAsset, stig_info := emptyStigInfo,
       vulnerabilities := [specFindingNaf, specFindingOpen] } [specCatalogEntry]
     (by decide) (by decide)⟩

/-! ## Merger error behaviour (C3) -/

def exceptIsOk {ε α : Type} : Except ε α → Bool
  | .ok _ => true
  | .error _ => false

/-- Counterexample to C3 as stated: a two-document input whose first document
parses successfully (the empty event stream yields the all-empty checklist)
and whose second fails; the Merger nevertheless returns an error, because the
parse of every document — not just the first — is propagated with `?`
(stig.rs:545). -/
theorem merger_counterexample :
    exceptIsOk (parse_stig_checklist ([] : List XEvent)) = true ∧
    exceptIsOk (parse_and_merge_stig_checklists [[], [XEvent.err "malformed"]]) = false := by
  exact ⟨rfl, rfl⟩

theorem mergeRest_ok_iff (acc : STIGChecklist) (ds : List (List XEvent)) :
    exceptIsOk (mergeRest acc ds) = true ↔
      ∀ d ∈ ds, exceptIsOk (parse_stig_checklist d) = true := by
  induction ds generalizing acc with
  | nil => simp [mergeRest, exceptIsOk]
  | cons d ds ih =>
    cases hd : parse_stig_checklist d with
    | error e =>
      have hstep : mergeRest acc (d :: ds) = .error e := by simp [mergeRest, hd]
      rw [hstep]
      simp [hd, exceptIsOk, List.forall_mem_cons]
    | ok c =>
      have hstep : mergeRest acc (d :: ds) =
          mergeRest { acc with vulnerabilities := acc.vulnerabilities ++ c.vulnerabilities } ds := by
        simp [mergeRest, hd]
      rw [hstep, ih]
      simp [hd, exceptIsOk, List.forall_mem_cons]

/-- C3 (amended): the Merger succeeds exactly when the input list is non-empty
and every document in it parses; equivalently, it errors when the list is
empty or any document — first or later — fails to parse. -/
theorem parse_and_merge_ok_iff (docs : List (List XEvent)) :
    exceptIsOk (parse_and_merge_stig_checklists docs) = true ↔
      docs ≠ [] ∧ ∀ d ∈ docs, exceptIsOk (parse_stig_checklist d) = true := by
  cases docs with
  | nil => simp [parse_and_merge_stig_checklists, exceptIsOk]
  | cons d ds =>
    cases hd : parse_stig_checklist d with
    | error e =>
      have hstep : parse_and_merge_stig_checklists (d :: ds) = .error e := by
        simp [parse_and_merge_stig_checklists, hd]
      rw [hstep]
      simp [hd, exceptIsOk, List.forall_mem_cons]
    | ok c =>
      have hstep : parse_and_merge_stig_checklists (d :: ds) = mergeRest c ds := by
        simp [parse_and_merge_stig_checklists, hd]
      rw [hstep, mergeRest_ok_iff]
      simp [hd, exceptIsOk, List.forall_mem_cons]

/-! ## CCI_REF collection (C2) -/

/-- A checklist document whose single finding block carries two
correlation-identifier pairs, `CCI-000001` then `CCI-000002`. -/
def cciRefDoubleDoc : List XEvent :=
  [.startTag "CHECKLIST" [], .startTag "VULN" [],
   .startTag "STIG_DATA" [],
     .startTag "VULN_ATTRIBUTE" [], .text "Vuln_Num", .endTag "VULN_ATTRIBUTE",
     .startTag "ATTRIBUTE_DATA" [], .text "V-1", .endTag "ATTRIBUTE_DATA",
   .endTag "STIG_DATA",
   .startTag "STIG_DATA" [],
     .startTag "VULN_ATTRIBUTE" [], .text "CCI_REF", .endTag "VULN_ATTRIBUTE",
     .startTag "ATTRIBUTE_DATA" [], .text "CCI-000001", .endTag "ATTRIBUTE_DATA",
   .endTag "STIG_DATA",
   .startTag "STIG_DATA" [],
     .startTag "VULN_ATTRIBUTE" [], .text "CCI_REF", .endTag "VULN_ATTRIBUTE",
     .startTag "ATTRIBUTE_DATA" [], .text "CCI-000002", .endTag "ATTRIBUTE_DATA",
   .endTag "STIG_DATA",
   .startTag "STATUS" [], .text "Open", .endTag "STATUS",
   .endTag "VULN", .endTag "CHECKLIST", .eof]

/-- C2 evaluated at the failing input: the finding block carries the two
references `CCI-000001` and `CCI-000002`, but the parser stores the pairs in
a per-finding `HashMap` keyed by the attribute name (stig.rs:364), so the
second `CCI_REF` overwrites the first and the parsed finding's reference list
is `["CCI-000002"]` — not the full in-order list the collection loop
(stig.rs:436-442, "Collect all CCI references") sets out to build. -/
theorem cci_ref_overwrite_eval :
    (parse_stig_checklist cciRefDoubleDoc).map
        (fun c => c.vulnerabilities.map (fun v => v.cci_refs)) =
      .ok [["CCI-000002"]] := by
  decide

/-! ## Derived title of catalog records (C7) -/

theorem takeWhile_all_eq_self {α : Type} (p : α → Bool) (l : List α) (h : l.all p = true) :
    l.takeWhile p = l := by
  induction l with
  | nil => rfl
  | cons a l ih =>
    simp only [List.all_cons, Bool.and_eq_true] at h
    simp [List.takeWhile_cons, h.1, ih h.2]

theorem firstSplitPiece_of_no_dot (s : String) (h : s.data.all (fun c => c ≠ '.') = true) :
    firstSplitPiece s = s := by
  unfold firstSplitPiece
  rw [takeWhile_all_eq_self _ _ h]

/-- Title/definition relation maintained by the catalog parser. -/
def TitleInv (r : CCIMapping) : Prop := r.title = firstSplitPiece r.definition

/-- The title/definition relation holds for every completed record and for the
record under construction. -/
def CciStInv (st : CciState) : Prop :=
  (∀ r ∈ st.cci_mappings, TitleInv r) ∧ (∀ r, st.current_cci = some r → TitleInv r)


theorem cciEndAssign_titleInv (st : CciState) (h : CciStInv st) : CciStInv (cciEndAssign st) := by
  obtain ⟨h1, h2⟩ := h
  unfold cciEndAssign
  cases hcc : st.current_cci with
  | none => exact ⟨h1, fun r hr => h2 r hr⟩
  | some cci =>
    have hci : TitleInv cci := h2 cci hcc
    split_ifs with ha hb hc hd
    · refine ⟨h1, ?_⟩
      intro r hr
      simp only [Option.some.injEq] at hr
      rw [← hr]
      unfold TitleInv
      rfl
    · exact ⟨h1, fun r hr => (Option.some.inj (by simpa using hr)) ▸ hci⟩
    · exact ⟨h1, fun r hr => (Option.some.inj (by simpa using hr)) ▸ hci⟩
    · exact ⟨h1, fun r hr => (Option.some.inj (by simpa using hr)) ▸ hci⟩
    · exact ⟨h1, fun r hr => (Option.some.inj (hcc.symm.trans hr)) ▸ hci⟩

theorem cciEndExit_titleInv (st : CciState) (name : String) (h : CciStInv st) :
    CciStInv (cciEndExit st name) := by
  obtain ⟨h1, h2⟩ := h
  unfold cciEndExit
  split_ifs with ha hb
  · cases hcc : st.current_cci with
    | none => exact ⟨fun r hr => h1 r hr, by simp⟩
    | some cci =>
      have hci : TitleInv cci := h2 cci hcc
      refine ⟨?_, by simp⟩
      intro r hr
      simp only at hr
      split_ifs at hr
      · rcases List.mem_append.mp hr with hm | hm
        · exact h1 r hm
        · exact (List.mem_singleton.mp hm) ▸ hci
      · exact h1 r hr
  · exact ⟨h1, h2⟩
  · exact ⟨h1, h2⟩

theorem cciStep_titleInv (st : CciState) (e : XEvent) (h : CciStInv st) :
    CciStInv (cciStep st e) := by
  obtain ⟨h1, h2⟩ := h
  cases e with
  | text s => exact ⟨h1, h2⟩
  | comment => exact ⟨h1, h2⟩
  | decl => exact ⟨h1, h2⟩
  | eof => exact ⟨h1, h2⟩
  | err m => exact ⟨h1, h2⟩
  | endTag name =>
    have := cciEndExit_titleInv (cciEndAssign st) name (cciEndAssign_titleInv st ⟨h1, h2⟩)
    exact this
  | startTag name attrs =>
    by_cases hn : name = "cci_item"
    · refine ⟨?_, ?_⟩
      · intro r hr
        apply h1
        simpa [cciStep, hn] using hr
      · intro r hr
        simp only [cciStep, hn, if_pos] at hr
        simp only [Option.some.injEq] at hr
        rw [← hr]
        unfold TitleInv
        dsimp only
        decide
    · refine ⟨?_, ?_⟩
      · intro r hr
        apply h1
        by_cases hn2 : name = "references" <;> simpa [cciStep, hn, hn2] using hr
      · intro r hr
        apply h2
        by_cases hn2 : name = "references" <;> simpa [cciStep, hn, hn2] using hr
  | emptyTag name attrs =>
    have hpush : ∀ cci : CCIMapping, TitleInv cci → TitleInv (refPush cci attrs) := by
      intro cci hci
      simp only [refPush]
      split_ifs <;> exact hci
    by_cases hn : name = "reference" ∧ st.in_references
    · cases hcc : st.current_cci with
      | none =>
        refine ⟨?_, ?_⟩
        · intro r hr
          apply h1
          simpa [cciStep, hn, hcc] using hr
        · intro r hr
          apply h2
          simpa [cciStep, hn, hcc] using hr
      | some cci =>
        have hci : TitleInv cci := h2 cci hcc
        refine ⟨?_, ?_⟩
        · intro r hr
          apply h1
          simpa [cciStep, hn, hcc] using hr
        · intro r hr
          simp only [cciStep, hn, hcc, and_self, if_true, Option.some.injEq] at hr
          rw [← hr]
          exact hpush cci hci
    · refine ⟨?_, ?_⟩
      · intro r hr
        apply h1
        simpa [cciStep, hn] using hr
      · intro r hr
        apply h2
        simpa [cciStep, hn] using hr

theorem runCci_titleInv (l : List XEvent) (st : CciState) (h : CciStInv st)
    (st2 : CciState) (hrun : runCci st l = .ok st2) : CciStInv st2 := by
  induction l generalizing st with
  | nil =>
    cases hrun
    exact h
  | cons e l ih =>
    cases e with
    | eof =>
      simp only [runCci] at hrun
      cases hrun
      exact h
    | err m =>
      simp only [runCci] at hrun
      cases hrun
    | startTag n a => exact ih _ (cciStep_titleInv st _ h) hrun
    | endTag n => exact ih _ (cciStep_titleInv st _ h) hrun
    | emptyTag n a => exact ih _ (cciStep_titleInv st _ h) hrun
    | text s => exact ih _ (cciStep_titleInv st _ h) hrun
    | comment => exact ih _ (cciStep_titleInv st _ h) hrun
    | decl => exact ih _ (cciStep_titleInv st _ h) hrun

theorem parse_cci_list_titleInv (doc : List XEvent) (recs : List CCIMapping)
    (h : parse_cci_list doc = .ok recs) (r : CCIMapping) (hr : r ∈ recs) :
    TitleInv r := by
  unfold parse_cci_list at h
  cases hrun : runCci initCciState doc with
  | error e => rw [hrun] at h; cases h
  | ok st =>
    rw [hrun] at h
    cases h
    refine (runCci_titleInv doc initCciState ?_ st hrun).1 r hr
    exact ⟨fun r hr => absurd hr (List.not_mem_nil r), fun r hr => by simp [initCciState] at hr⟩

/-- C7 (amended): every record the Catalog Parser produces has its title equal
to the text of its definition before the first '.' ; in particular, when the
definition contains no '.' the title is the entire definition — not a
100-character truncation, since the truncating `unwrap_or` branch at
stig.rs:209 is unreachable (`split('.').next()` is never `None`). -/
theorem cci_title_leading_piece (doc : List XEvent) (recs : List CCIMapping)
    (h : parse_cci_list doc = .ok recs) (r : CCIMapping) (hr : r ∈ recs) :
    r.title = firstSplitPiece r.definition ∧
    (r.definition.data.all (fun c => c ≠ '.') = true → r.title = r.definition) := by
  have ht : TitleInv r := parse_cci_list_titleInv doc recs h r hr
  exact ⟨ht, fun hnd => ht.trans (firstSplitPiece_of_no_dot _ hnd)⟩

/-- A catalog document with one item whose definition is 120 characters long
and contains no '.'. -/
def longDefDoc : List XEvent :=
  [.startTag "cci_list" [], .startTag "cci_item" [("id", "CCI-000001")],
   .startTag "definition" [], .text "aaaaaaaaaaaaaaaaaaaaaaaaaaaaaaaaaaaaaaaaaaaaaaaaaaaaaaaaaaaaaaaaaaaaaaaaaaaaaaaaaaaaaaaaaaaaaaaaaaaaaaaaaaaaaaaaaaaaaaaa", .endTag "definition",
   .startTag "references" [], .endTag "references",
   .endTag "cci_item", .endTag "cci_list", .eof]

/-- Counterexample to C7 as stated: for a definition of 120 characters with no
'.', the parsed record's title is the entire 120-character definition, not the
definition truncated to its first 100 characters. -/
theorem cci_title_truncation_counterexample :
    (parse_cci_list longDefDoc).map (fun l => l.map (fun r => (r.title, r.definition))) =
      .ok [("aaaaaaaaaaaaaaaaaaaaaaaaaaaaaaaaaaaaaaaaaaaaaaaaaaaaaaaaaaaaaaaaaaaaaaaaaaaaaaaaaaaaaaaaaaaaaaaaaaaaaaaaaaaaaaaaaaaaaaaa", "aaaaaaaaaaaaaaaaaaaaaaaaaaaaaaaaaaaaaaaaaaaaaaaaaaaaaaaaaaaaaaaaaaaaaaaaaaaaaaaaaaaaaaaaaaaaaaaaaaaaaaaaaaaaaaaaaaaaaaaa")] ∧
    ("aaaaaaaaaaaaaaaaaaaaaaaaaaaaaaaaaaaaaaaaaaaaaaaaaaaaaaaaaaaaaaaaaaaaaaaaaaaaaaaaaaaaaaaaaaaaaaaaaaaaaaaaaaaaaaaaaaaaaaaa" : String).data.all (fun c => c ≠ '.') = true ∧
    ("aaaaaaaaaaaaaaaaaaaaaaaaaaaaaaaaaaaaaaaaaaaaaaaaaaaaaaaaaaaaaaaaaaaaaaaaaaaaaaaaaaaaaaaaaaaaaaaaaaaaaaaaaaaaaaaaaaaaaaaa" : String) ≠ ⟨("aaaaaaaaaaaaaaaaaaaaaaaaaaaaaaaaaaaaaaaaaaaaaaaaaaaaaaaaaaaaaaaaaaaaaaaaaaaaaaaaaaaaaaaaaaaaaaaaaaaaaaaaaaaaaaaaaaaaaaaa" : String).data.take 100⟩ := by
  refine ⟨by decide, by decide, by decide⟩

def titleWitnessDoc : List XEvent :=
  [.startTag "cci_list" [], .startTag "cci_item" [("id", "CCI-000001")],
   .startTag "definition" [], .text "First sentence. Rest of text.", .endTag "definition",
   .startTag "references" [], .endTag "references",
   .endTag "cci_item", .endTag "cci_list", .eof]

def titleWitnessRec : CCIMapping :=
  { id := "CCI-000001", title := "First sentence", definition := "First sentence. Rest of text.",
    nist_controls := [], cci_type := "", status := "", publish_date := "" }

/-- Witness for the amended C7 at a concrete document. -/
theorem cci_title_leading_piece_witness :
    (parse_cci_list titleWitnessDoc = .ok [titleWitnessRec] ∧ titleWitnessRec ∈ [titleWitnessRec]) ∧
    (titleWitnessRec.title = firstSplitPiece titleWitnessRec.definition ∧
     (titleWitnessRec.definition.data.all (fun c => c ≠ '.') = true →
       titleWitnessRec.title = titleWitnessRec.definition)) :=
  ⟨⟨by decide, by decide⟩,
   cci_title_leading_piece titleWitnessDoc [titleWitnessRec] (by decide) titleWitnessRec (by decide)⟩

/-! ## Catalog leniency on identifier-less items (C8) -/

/-- Events at which the parsing loops stop: `Eof` (break) or a reader error. -/
def stopEvent : XEvent → Bool
  | .eof => true
  | .err _ => true
  | _ => false

theorem runCci_no_stop (l : List XEvent) (st : CciState)
    (h : ∀ e ∈ l, stopEvent e = false) :
    runCci st (l ++ [XEvent.eof]) = .ok (l.foldl cciStep st) := by
  induction l generalizing st with
  | nil => rfl
  | cons e l ih =>
    have he := h e (List.mem_cons_self e l)
    have hl : ∀ e2 ∈ l, stopEvent e2 = false := fun e2 he2 => h e2 (List.mem_cons_of_mem e he2)
    cases e with
    | eof => simp [stopEvent] at he
    | err m => simp [stopEvent] at he
    | startTag n a => exact ih (cciStep st (.startTag n a)) hl
    | endTag n => exact ih (cciStep st (.endTag n)) hl
    | emptyTag n a => exact ih (cciStep st (.emptyTag n a)) hl
    | text s => exact ih (cciStep st (.text s)) hl
    | comment => exact ih (cciStep st .comment) hl
    | decl => exact ih (cciStep st .decl) hl

/-- A schematic catalog item: its attribute list, the text content of its four
recognized child elements, and the attribute lists of its self-closing
cross-reference entries. -/
structure CatItem where
  attrs : List (String × String)
  definition : String
  cci_type : String
  status : String
  publish_date : String
  refs : List (List (String × String))
deriving DecidableEq

/-- The event stream of one `<cci_item>` element (children in the catalog
document order: definition, type, status, publishdate, references). -/
def catItemEvents (it : CatItem) : List XEvent :=
  ([.startTag "cci_item" it.attrs,
    .startTag "definition" [], .text it.definition, .endTag "definition",
    .startTag "type" [], .text it.cci_type, .endTag "type",
    .startTag "status" [], .text it.status, .endTag "status",
    .startTag "publishdate" [], .text it.publish_date, .endTag "publishdate",
    .startTag "references" []] ++
   it.refs.map (fun attrs => XEvent.emptyTag "reference" attrs)) ++
  [.endTag "references", .endTag "cci_item"]

/-- The event stream of a catalog document made of the given items. -/
def catalogDoc (items : List CatItem) : List XEvent :=
  (XEvent.startTag "cci_list" [] :: items.flatMap catItemEvents ++ [.endTag "cci_list"]) ++
    [.eof]

/-- The record the parser builds from one schematic item. -/
def catRecordOf (it : CatItem) : CCIMapping :=
  it.refs.foldl refPush
    { id := attrGet it.attrs "id"
      title := firstSplitPiece (strTrim it.definition)
      definition := strTrim it.definition
      nist_controls := []
      cci_type := strTrim it.cci_type
      status := strTrim it.status
      publish_date := strTrim it.publish_date }

theorem foldl_refs (refs : List (List (String × String))) (st : CciState) (cci : CCIMapping)
    (hcur : st.current_cci = some cci) (hin : st.in_references = true) :
    (refs.map (fun attrs => XEvent.emptyTag "reference" attrs)).foldl cciStep st =
      { st with current_cci := some (refs.foldl refPush cci) } := by
  induction refs generalizing st cci with
  | nil =>
    simp only [List.map_nil, List.foldl_nil]
    rw [← hcur]
  | cons a refs ih =>
    simp only [List.map_cons, List.foldl_cons]
    have hstep : cciStep st (.emptyTag "reference" a) =
        { st with current_cci := some (refPush cci a) } := by
      simp [cciStep, hin, hcur]
    rw [hstep, ih _ _ rfl (by simpa using hin)]

theorem foldl_catItemEvents (st : CciState) (it : CatItem) :
    (catItemEvents it).foldl cciStep st =
      { st with
        cci_mappings :=
          if (catRecordOf it).id = "" then st.cci_mappings
          else st.cci_mappings ++ [catRecordOf it]
        current_cci := none
        current_element := "references"
        current_text := ""
        in_references := false } := by
  unfold catItemEvents
  rw [List.foldl_append, List.foldl_append]
  have h1 : List.foldl cciStep st
      [.startTag "cci_item" it.attrs,
       .startTag "definition" [], .text it.definition, .endTag "definition",
       .startTag "type" [], .text it.cci_type, .endTag "type",
       .startTag "status" [], .text it.status, .endTag "status",
       .startTag "publishdate" [], .text it.publish_date, .endTag "publishdate",
       .startTag "references" []] =
      { st with
        cci_mappings := st.cci_mappings
        current_cci := some
          { id := attrGet it.attrs "id"
            title := firstSplitPiece (strTrim it.definition)
            definition := strTrim it.definition
            nist_controls := []
            cci_type := strTrim it.cci_type
            status := strTrim it.status
            publish_date := strTrim it.publish_date }
        current_element := "references"
        current_text := ""
        in_references := true } := by
    simp [cciStep, cciEndAssign, cciEndExit]
  rw [h1, foldl_refs _ _ _ rfl rfl]
  simp only [List.foldl_cons, List.foldl_nil]
  simp [cciStep, cciEndAssign, cciEndExit, catRecordOf]

theorem refPush_id (cci : CCIMapping) (attrs : List (String × String)) :
    (refPush cci attrs).id = cci.id := by
  simp only [refPush]
  split_ifs <;> rfl

theorem foldl_refPush_id (refs : List (List (String × String))) (cci : CCIMapping) :
    (refs.foldl refPush cci).id = cci.id := by
  induction refs generalizing cci with
  | nil => rfl
  | cons a refs ih => rw [List.foldl_cons, ih, refPush_id]

theorem catRecordOf_id (it : CatItem) : (catRecordOf it).id = attrGet it.attrs "id" := by
  unfold catRecordOf
  rw [foldl_refPush_id]

theorem catItemEvents_no_stop (it : CatItem) : ∀ e ∈ catItemEvents it, stopEvent e = false := by
  intro e he
  simp only [catItemEvents, List.mem_append, List.mem_cons, List.mem_map,
    List.mem_singleton, List.not_mem_nil, or_false] at he
  rcases he with (h | ⟨a, ha, h⟩) | (h | h)
  · rcases h with h | h | h | h | h | h | h | h | h | h | h | h | h | h <;> subst h <;> rfl
  · subst h; rfl
  · subst h; rfl
  · subst h; rfl

/-- C8: a catalog document with exactly one item whose identifier attribute is
missing or empty and exactly one item with a non-empty identifier parses
without error into exactly one record — the one with the valid identifier. -/
theorem catalog_two_item_leniency (i1 i2 : CatItem)
    (h1 : attrGet i1.attrs "id" = "") (h2 : attrGet i2.attrs "id" ≠ "") :
    parse_cci_list (catalogDoc [i1, i2]) = .ok [catRecordOf i2] ∧
    (catRecordOf i2).id = attrGet i2.attrs "id" := by
  refine ⟨?_, catRecordOf_id i2⟩
  unfold parse_cci_list catalogDoc
  rw [runCci_no_stop _ _ ?hstop]
  case hstop =>
    intro e he
    simp only [List.mem_cons, List.mem_append, List.mem_singleton] at he
    rcases he with (rfl | he) | (rfl | he)
    · rfl
    · rcases List.mem_flatMap.mp he with ⟨it, _, hit⟩
      exact catItemEvents_no_stop it e hit
    · rfl
    · cases he
  simp only [Except.map]
  congr 1
  have hflat : [i1, i2].flatMap catItemEvents = catItemEvents i1 ++ catItemEvents i2 := by
    simp
  rw [hflat]
  simp only [List.foldl_cons, List.foldl_append]
  rw [foldl_catItemEvents, foldl_catItemEvents]
  rw [catRecordOf_id i1, catRecordOf_id i2]
  simp [cciStep, cciEndAssign, cciEndExit, h1, h2, initCciState]

def lenItem1 : CatItem :=
  { attrs := [], definition := "No identifier here.", cci_type := "policy",
    status := "draft", publish_date := "2013-06-27", refs := [] }

def lenItem2 : CatItem :=
  { attrs := [("id", "CCI-000001")], definition := "The organization does X. More text.",
    cci_type := "policy", status := "published", publish_date := "2013-06-27",
    refs := [[("title", "NIST SP 800-53 Revision 4"), ("index", "AC-2")]] }

/-- Witness for C8 at concrete items: one item without an `id` attribute, one
with `CCI-000001`. -/
theorem catalog_two_item_leniency_witness :
    (attrGet lenItem1.attrs "id" = "" ∧ attrGet lenItem2.attrs "id" ≠ "") ∧
    (parse_cci_list (catalogDoc [lenItem1, lenItem2]) = .ok [catRecordOf lenItem2] ∧
     (catRecordOf lenItem2).id = attrGet lenItem2.attrs "id") :=
  ⟨⟨by decide, by decide⟩, catalog_two_item_leniency lenItem1 lenItem2 (by decide) (by decide)⟩

/-! ## Round trip (C1): trimmed strings -/

/-- A string unchanged by trimming. -/
def Trimmed (s : String) : Prop := strTrim s = s

def headNotWs : List Char → Prop
  | [] => True
  | c :: _ => Char.isWhitespace c = false

theorem headNotWs_dropWhile (l : List Char) :
    headNotWs (l.dropWhile Char.isWhitespace) := by
  induction l with
  | nil => trivial
  | cons a l ih =>
    by_cases ha : Char.isWhitespace a
    · rw [List.dropWhile_cons_of_pos ha]
      exact ih
    · rw [List.dropWhile_cons_of_neg ha]
      exact Bool.eq_false_iff.mpr ha

theorem dropWhile_eq_self_of_headNotWs (l : List Char) (h : headNotWs l) :
    l.dropWhile Char.isWhitespace = l := by
  cases l with
  | nil => rfl
  | cons a l =>
    have : ¬ Char.isWhitespace a = true := by simpa [headNotWs] using h
    rw [List.dropWhile_cons_of_neg this]

theorem headNotWs_of_prefix (l₁ l₂ : List Char) (h : l₁ <+: l₂) (h2 : headNotWs l₂) :
    headNotWs l₁ := by
  rcases h with ⟨t, rfl⟩
  cases l₁ with
  | nil => trivial
  | cons a l => exact h2

theorem strTrim_headNotWs (s : String) : headNotWs (strTrim s).data := by
  unfold strTrim
  apply headNotWs_of_prefix _ (s.data.dropWhile Char.isWhitespace)
  · have h := List.reverse_prefix.mpr
      (@List.dropWhile_suffix _ ((s.data.dropWhile Char.isWhitespace).reverse) Char.isWhitespace)
    rw [List.reverse_reverse] at h
    exact h
  · exact headNotWs_dropWhile _

theorem strTrim_revHeadNotWs (s : String) : headNotWs (strTrim s).data.reverse := by
  unfold strTrim
  rw [List.reverse_reverse]
  exact headNotWs_dropWhile _

theorem strTrim_eq_self (s : String) (h1 : headNotWs s.data)
    (h2 : headNotWs s.data.reverse) : strTrim s = s := by
  unfold strTrim
  rw [dropWhile_eq_self_of_headNotWs _ h1, dropWhile_eq_self_of_headNotWs _ h2,
    List.reverse_reverse]

theorem strTrim_trimmed (s : String) : Trimmed (strTrim s) :=
  strTrim_eq_self _ (strTrim_headNotWs s) (strTrim_revHeadNotWs s)

theorem trimmed_empty : Trimmed "" := by
  unfold Trimmed
  decide

/-! ## Round trip (C1): well-formed checklists -/

def OptWF : Option String → Prop
  | none => True
  | some s => s ≠ "" ∧ Trimmed s

/-- Constraints every finding emitted by the Checklist Parser satisfies, and
under which a finding survives serialization and re-parsing unchanged. -/
def WFVuln (v : STIGVulnerability) : Prop :=
  Trimmed v.vuln_num ∧ Trimmed v.severity ∧ Trimmed v.group_title ∧ Trimmed v.rule_id ∧
  Trimmed v.rule_ver ∧ Trimmed v.rule_title ∧ Trimmed v.vuln_discuss ∧
  Trimmed v.check_content ∧ Trimmed v.fix_text ∧ Trimmed v.status ∧
  Trimmed v.finding_details ∧ Trimmed v.comments ∧
  v.stig_id = v.rule_ver ∧
  (v.cci_refs = [] ∨ ∃ c, v.cci_refs = [c] ∧ c ≠ "" ∧ Trimmed c) ∧
  OptWF v.severity_override ∧ OptWF v.severity_justification

def WFAsset (a : AssetInfo) : Prop :=
  Trimmed a.role ∧ Trimmed a.asset_type ∧ Trimmed a.marking ∧ Trimmed a.host_name ∧
  Trimmed a.host_ip ∧ Trimmed a.host_mac ∧ Trimmed a.host_fqdn ∧
  Trimmed a.target_comment ∧ Trimmed a.tech_area ∧ Trimmed a.target_key ∧
  Trimmed a.web_db_site ∧ Trimmed a.web_db_instance

def WFInfo (i : STIGInfo) : Prop :=
  Trimmed i.version ∧ Trimmed i.classification ∧ Trimmed i.custom_name ∧
  Trimmed i.stig_id ∧ Trimmed i.description ∧ Trimmed i.file_name ∧
  Trimmed i.release_info ∧ Trimmed i.title ∧ Trimmed i.uuid ∧
  Trimmed i.notice ∧ Trimmed i.source

def WFChecklist (c : STIGChecklist) : Prop :=
  WFAsset c.asset ∧ WFInfo c.stig_info ∧ ∀ v ∈ c.vulnerabilities, WFVuln v

/-- Constraints on the finding under construction during a parse. -/
def CurVulnWF (v : STIGVulnerability) : Prop :=
  Trimmed v.status ∧ Trimmed v.finding_details ∧ Trimmed v.comments ∧
  OptWF v.severity_override ∧ OptWF v.severity_justification ∧ v.cci_refs = []

/-- Invariant of the checklist-parser state. -/
def ChkInv (st : ChkState) : Prop :=
  WFAsset st.asset ∧ WFInfo st.stig_info ∧ (∀ v ∈ st.vulnerabilities, WFVuln v) ∧
  (∀ p ∈ st.stig_data_map, Trimmed p.2) ∧ (∀ p ∈ st.si_data_map, Trimmed p.2) ∧
  (∀ v, st.current_vuln = some v → CurVulnWF v)

theorem mem_insertA (m : List (String × String)) (k v : String) (p : String × String)
    (hp : p ∈ insertA m k v) : p ∈ m ∨ p.2 = v := by
  unfold insertA at hp
  split_ifs at hp
  · rcases List.mem_map.mp hp with ⟨q, hq, he⟩
    by_cases hqk : q.1 = k
    · right
      rw [← he]
      simp [hqk]
    · left
      rw [← he]
      simpa [hqk] using hq
  · rcases List.mem_append.mp hp with hm | hm
    · exact Or.inl hm
    · right
      rcases List.mem_singleton.mp hm with rfl
      rfl

theorem getA_trimmed (m : List (String × String)) (h : ∀ p ∈ m, Trimmed p.2)
    (k : String) : Trimmed ((getA m k).getD "") := by
  unfold getA
  cases hf : m.find? (fun p => p.1 = k) with
  | none => exact trimmed_empty
  | some p => exact h p (List.mem_of_find?_eq_some hf)



theorem chkAssetField_parts (st : ChkState) (name text : String) :
    (chkAssetField st name text).stig_info = st.stig_info ∧
    (chkAssetField st name text).vulnerabilities = st.vulnerabilities ∧
    (chkAssetField st name text).stig_data_map = st.stig_data_map ∧
    (chkAssetField st name text).si_data_map = st.si_data_map ∧
    (chkAssetField st name text).current_vuln = st.current_vuln ∧
    (chkAssetField st name text).in_stig_info = st.in_stig_info ∧
    (chkAssetField st name text).in_vuln = st.in_vuln ∧
    (chkAssetField st name text).current_sid_name = st.current_sid_name ∧
    (chkAssetField st name text).current_vuln_attribute = st.current_vuln_attribute := by
  unfold chkAssetField
  split_ifs <;> exact ⟨rfl, rfl, rfl, rfl, rfl, rfl, rfl, rfl, rfl⟩

theorem assetSet_wf (a : AssetInfo) (name text : String)
    (ha : WFAsset a) (ht : Trimmed text) : WFAsset (assetSet a name text) := by
  obtain ⟨a1, a2, a3, a4, a5, a6, a7, a8, a9, a10, a11, a12⟩ := ha
  unfold assetSet
  by_cases h1 : name = "ROLE"
  · rw [if_pos h1]
    exact ⟨ht, a2, a3, a4, a5, a6, a7, a8, a9, a10, a11, a12⟩
  by_cases h2 : name = "ASSET_TYPE"
  · rw [if_neg h1, if_pos h2]
    exact ⟨a1, ht, a3, a4, a5, a6, a7, a8, a9, a10, a11, a12⟩
  by_cases h3 : name = "MARKING"
  · rw [if_neg h1, if_neg h2, if_pos h3]
    exact ⟨a1, a2, ht, a4, a5, a6, a7, a8, a9, a10, a11, a12⟩
  by_cases h4 : name = "HOST_NAME"
  · rw [if_neg h1, if_neg h2, if_neg h3, if_pos h4]
    exact ⟨a1, a2, a3, ht, a5, a6, a7, a8, a9, a10, a11, a12⟩
  by_cases h5 : name = "HOST_IP"
  · rw [if_neg h1, if_neg h2, if_neg h3, if_neg h4, if_pos h5]
    exact ⟨a1, a2, a3, a4, ht, a6, a7, a8, a9, a10, a11, a12⟩
  by_cases h6 : name = "HOST_MAC"
  · rw [if_neg h1, if_neg h2, if_neg h3, if_neg h4, if_neg h5, if_pos h6]
    exact ⟨a1, a2, a3, a4, a5, ht, a7, a8, a9, a10, a11, a12⟩
  by_cases h7 : name = "HOST_FQDN"
  · rw [if_neg h1, if_neg h2, if_neg h3, if_neg h4, if_neg h5, if_neg h6, if_pos h7]
    exact ⟨a1, a2, a3, a4, a5, a6, ht, a8, a9, a10, a11, a12⟩
  by_cases h8 : name = "TARGET_COMMENT"
  · rw [if_neg h1, if_neg h2, if_neg h3, if_neg h4, if_neg h5, if_neg h6, if_neg h7, if_pos h8]
    exact ⟨a1, a2, a3, a4, a5, a6, a7, ht, a9, a10, a11, a12⟩
  by_cases h9 : name = "TECH_AREA"
  · rw [if_neg h1, if_neg h2, if_neg h3, if_neg h4, if_neg h5, if_neg h6, if_neg h7, if_neg h8, if_pos h9]
    exact ⟨a1, a2, a3, a4, a5, a6, a7, a8, ht, a10, a11, a12⟩
  by_cases h10 : name = "TARGET_KEY"
  · rw [if_neg h1, if_neg h2, if_neg h3, if_neg h4, if_neg h5, if_neg h6, if_neg h7, if_neg h8, if_neg h9, if_pos h10]
    exact ⟨a1, a2, a3, a4, a5, a6, a7, a8, a9, ht, a11, a12⟩
  by_cases h11 : name = "WEB_OR_DATABASE"
  · rw [if_neg h1, if_neg h2, if_neg h3, if_neg h4, if_neg h5, if_neg h6, if_neg h7, if_neg h8, if_neg h9, if_neg h10, if_pos h11]
    exact ⟨a1, a2, a3, a4, a5, a6, a7, a8, a9, a10, a11, a12⟩
  by_cases h12 : name = "WEB_DB_SITE"
  · rw [if_neg h1, if_neg h2, if_neg h3, if_neg h4, if_neg h5, if_neg h6, if_neg h7, if_neg h8, if_neg h9, if_neg h10, if_neg h11, if_pos h12]
    exact ⟨a1, a2, a3, a4, a5, a6, a7, a8, a9, a10, ht, a12⟩
  by_cases h13 : name = "WEB_DB_INSTANCE"
  · rw [if_neg h1, if_neg h2, if_neg h3, if_neg h4, if_neg h5, if_neg h6, if_neg h7, if_neg h8, if_neg h9, if_neg h10, if_neg h11, if_neg h12, if_pos h13]
    exact ⟨a1, a2, a3, a4, a5, a6, a7, a8, a9, a10, a11, ht⟩
  rw [if_neg h1, if_neg h2, if_neg h3, if_neg h4, if_neg h5, if_neg h6, if_neg h7, if_neg h8, if_neg h9, if_neg h10, if_neg h11, if_neg h12, if_neg h13]
  exact ⟨a1, a2, a3, a4, a5, a6, a7, a8, a9, a10, a11, a12⟩

theorem chkAssetField_asset_wf (st : ChkState) (name text : String)
    (ha : WFAsset st.asset) (ht : Trimmed text) :
    WFAsset (chkAssetField st name text).asset := by
  unfold chkAssetField
  split_ifs
  · exact assetSet_wf st.asset name text ha ht
  · exact ha

theorem chkInfoField_parts (st : ChkState) (name text : String) :
    (chkInfoField st name text).asset = st.asset ∧
    (chkInfoField st name text).stig_info = st.stig_info ∧
    (chkInfoField st name text).vulnerabilities = st.vulnerabilities ∧
    (chkInfoField st name text).stig_data_map = st.stig_data_map ∧
    (chkInfoField st name text).current_vuln = st.current_vuln ∧
    (chkInfoField st name text).in_vuln = st.in_vuln ∧
    (chkInfoField st name text).current_vuln_attribute = st.current_vuln_attribute := by
  unfold chkInfoField
  split_ifs <;> exact ⟨rfl, rfl, rfl, rfl, rfl, rfl, rfl⟩

theorem chkInfoField_si_data (st : ChkState) (name text : String)
    (hm : ∀ p ∈ st.si_data_map, Trimmed p.2) (ht : Trimmed text) :
    ∀ p ∈ (chkInfoField st name text).si_data_map, Trimmed p.2 := by
  unfold chkInfoField
  split_ifs <;> try exact hm
  intro p hp
  rcases mem_insertA _ _ _ p hp with h | h
  · exact hm p h
  · rw [h]; exact ht

theorem chkVulnField_parts (st : ChkState) (name text : String) :
    (chkVulnField st name text).asset = st.asset ∧
    (chkVulnField st name text).stig_info = st.stig_info ∧
    (chkVulnField st name text).vulnerabilities = st.vulnerabilities ∧
    (chkVulnField st name text).si_data_map = st.si_data_map ∧
    (chkVulnField st name text).in_stig_info = st.in_stig_info ∧
    (chkVulnField st name text).current_sid_name = st.current_sid_name := by
  unfold chkVulnField
  split_ifs <;>
    first
      | exact ⟨rfl, rfl, rfl, rfl, rfl, rfl⟩
      | (cases st.current_vuln <;> exact ⟨rfl, rfl, rfl, rfl, rfl, rfl⟩)

theorem chkVulnField_stig_data (st : ChkState) (name text : String)
    (hm : ∀ p ∈ st.stig_data_map, Trimmed p.2) (ht : Trimmed text) :
    ∀ p ∈ (chkVulnField st name text).stig_data_map, Trimmed p.2 := by
  unfold chkVulnField
  split_ifs <;>
    first
      | exact hm
      | (cases st.current_vuln <;> exact hm)
      | (intro p hp
         rcases mem_insertA _ _ _ p hp with h | h
         · exact hm p h
         · rw [h]; exact ht)

theorem optWF_of_blank (text : String) (ht : Trimmed text) :
    OptWF (if text = "" then none else some text) := by
  split_ifs with h
  · trivial
  · exact ⟨h, ht⟩

theorem vulnSet_wf (v : STIGVulnerability) (name text : String)
    (hv : CurVulnWF v) (ht : Trimmed text) : CurVulnWF (vulnSet v name text) := by
  obtain ⟨c1, c2, c3, c4, c5, c6⟩ := hv
  unfold vulnSet
  by_cases h1 : name = "STATUS"
  · rw [if_pos h1]
    exact ⟨ht, c2, c3, c4, c5, c6⟩
  by_cases h2 : name = "FINDING_DETAILS"
  · rw [if_neg h1, if_pos h2]
    exact ⟨c1, ht, c3, c4, c5, c6⟩
  by_cases h3 : name = "COMMENTS"
  · rw [if_neg h1, if_neg h2, if_pos h3]
    exact ⟨c1, c2, ht, c4, c5, c6⟩
  by_cases h4 : name = "SEVERITY_OVERRIDE"
  · rw [if_neg h1, if_neg h2, if_neg h3, if_pos h4]
    exact ⟨c1, c2, c3, optWF_of_blank text ht, c5, c6⟩
  by_cases h5 : name = "SEVERITY_JUSTIFICATION"
  · rw [if_neg h1, if_neg h2, if_neg h3, if_neg h4, if_pos h5]
    exact ⟨c1, c2, c3, c4, optWF_of_blank text ht, c6⟩
  rw [if_neg h1, if_neg h2, if_neg h3, if_neg h4, if_neg h5]
  exact ⟨c1, c2, c3, c4, c5, c6⟩

theorem chkVulnField_cur_vuln (st : ChkState) (name text : String)
    (hc : ∀ v, st.current_vuln = some v → CurVulnWF v) (ht : Trimmed text) :
    ∀ v, (chkVulnField st name text).current_vuln = some v → CurVulnWF v := by
  unfold chkVulnField
  split_ifs <;> try exact hc
  cases hcv : st.current_vuln with
  | none => exact hc
  | some w =>
    intro v hv
    simp only [Option.some.injEq] at hv
    rw [← hv]
    exact vulnSet_wf w name text (hc w hcv) ht

theorem chkEndFields_inv (st : ChkState) (name text : String) (h : ChkInv st)
    (ht : Trimmed text) : ChkInv (chkEndFields st name text) := by
  obtain ⟨ha, hi, hv, hm, hsi, hcv⟩ := h
  unfold chkEndFields
  obtain ⟨p1, p2, p3, p4, p5, p6, p7, p8, p9⟩ := chkAssetField_parts st name text
  obtain ⟨q1, q2, q3, q4, q5, q6, q7⟩ := chkInfoField_parts (chkAssetField st name text) name text
  obtain ⟨r1, r2, r3, r4, r5, r6⟩ :=
    chkVulnField_parts (chkInfoField (chkAssetField st name text) name text) name text
  refine ⟨?_, ?_, ?_, ?_, ?_, ?_⟩
  · rw [r1, q1]
    exact chkAssetField_asset_wf st name text ha ht
  · rw [r2, q2, p1]
    exact hi
  · rw [r3, q3, p2]
    exact hv
  · apply chkVulnField_stig_data
    · rw [q4, p3]
      exact hm
    · exact ht
  · rw [r4]
    apply chkInfoField_si_data
    · rw [p4]
      exact hsi
    · exact ht
  · apply chkVulnField_cur_vuln
    · rw [q5, p5]
      exact hcv
    · exact ht

theorem getA_some_trimmed (m : List (String × String)) (h : ∀ p ∈ m, Trimmed p.2)
    (k val : String) (hg : getA m k = some val) : Trimmed val := by
  unfold getA at hg
  rcases Option.map_eq_some'.mp hg with ⟨p, hp, hv⟩
  rw [← hv]
  exact h p (List.mem_of_find?_eq_some hp)

theorem finishVuln_wf (v : STIGVulnerability) (m : List (String × String))
    (hcv : CurVulnWF v) (hm : ∀ p ∈ m, Trimmed p.2) : WFVuln (finishVuln v m) := by
  obtain ⟨c1, c2, c3, c4, c5, c6⟩ := hcv
  refine ⟨getA_trimmed m hm _, getA_trimmed m hm _, getA_trimmed m hm _,
    getA_trimmed m hm _, getA_trimmed m hm _, getA_trimmed m hm _,
    getA_trimmed m hm _, getA_trimmed m hm _, getA_trimmed m hm _,
    c1, c2, c3, rfl, ?_, c4, c5⟩
  have hc : (finishVuln v m).cci_refs =
      (match getA m "CCI_REF" with
       | some val => if val = "" then [] else [val]
       | none => []) := by
    show v.cci_refs ++ _ = _
    rw [c6, List.nil_append]
  rw [hc]
  cases hg : getA m "CCI_REF" with
  | none => exact Or.inl rfl
  | some val =>
    by_cases he : val = ""
    · left
      simp [he]
    · right
      exact ⟨val, by simp [if_neg he], he, getA_some_trimmed m hm _ _ hg⟩

theorem projectStigInfo_wf (m : List (String × String))
    (hm : ∀ p ∈ m, Trimmed p.2) : WFInfo (projectStigInfo m) :=
  ⟨getA_trimmed m hm _, getA_trimmed m hm _, getA_trimmed m hm _,
   getA_trimmed m hm _, getA_trimmed m hm _, getA_trimmed m hm _,
   getA_trimmed m hm _, getA_trimmed m hm _, getA_trimmed m hm _,
   getA_trimmed m hm _, getA_trimmed m hm _⟩

theorem chkEndExits_inv (st : ChkState) (name : String) (h : ChkInv st) :
    ChkInv (chkEndExits st name) := by
  obtain ⟨ha, hi, hv, hm, hsi, hcv⟩ := h
  unfold chkEndExits
  by_cases h1 : name = "ASSET"
  · rw [if_pos h1]
    exact ⟨ha, hi, hv, hm, hsi, hcv⟩
  rw [if_neg h1]
  by_cases h2 : name = "STIG_INFO"
  · rw [if_pos h2]
    exact ⟨ha, projectStigInfo_wf st.si_data_map hsi, hv, hm, hsi, hcv⟩
  rw [if_neg h2]
  by_cases h3 : name = "VULN"
  · rw [if_pos h3]
    cases hc : st.current_vuln with
    | none =>
      refine ⟨ha, hi, hv, hm, hsi, ?_⟩
      intro v hv'
      simp at hv'
    | some v =>
      refine ⟨ha, hi, ?_, hm, hsi, ?_⟩
      · intro v' hv'
        rcases List.mem_append.mp hv' with hmem | hmem
        · exact hv v' hmem
        · rcases List.mem_singleton.mp hmem with rfl
          exact finishVuln_wf v st.stig_data_map (hcv v hc) hm
      · intro v' hv'
        simp at hv'
  rw [if_neg h3]
  exact ⟨ha, hi, hv, hm, hsi, hcv⟩

theorem curVulnWF_empty : CurVulnWF emptyVuln :=
  ⟨trimmed_empty, trimmed_empty, trimmed_empty, trivial, trivial, rfl⟩

theorem chkStep_inv (st : ChkState) (e : XEvent) (h : ChkInv st) :
    ChkInv (chkStep st e) := by
  obtain ⟨ha, hi, hv, hm, hsi, hcv⟩ := h
  cases e with
  | startTag name attrs =>
    show ChkInv { (if name = "ASSET" then _ else if name = "STIG_INFO" then _
      else if name = "VULN" then _ else st : ChkState) with current_text := "" }
    by_cases h1 : name = "ASSET"
    · rw [if_pos h1]
      exact ⟨ha, hi, hv, hm, hsi, hcv⟩
    rw [if_neg h1]
    by_cases h2 : name = "STIG_INFO"
    · rw [if_pos h2]
      exact ⟨ha, hi, hv, hm, hsi, hcv⟩
    rw [if_neg h2]
    by_cases h3 : name = "VULN"
    · rw [if_pos h3]
      refine ⟨ha, hi, hv, ?_, hsi, ?_⟩
      · intro p hp
        simp at hp
      · intro v hv'
        rcases Option.some.inj hv' with rfl
        exact curVulnWF_empty
    rw [if_neg h3]
    exact ⟨ha, hi, hv, hm, hsi, hcv⟩
  | text s => exact ⟨ha, hi, hv, hm, hsi, hcv⟩
  | endTag name =>
    have h1 := chkEndFields_inv st name (strTrim st.current_text)
      ⟨ha, hi, hv, hm, hsi, hcv⟩ (strTrim_trimmed st.current_text)
    have h2 := chkEndExits_inv _ name h1
    exact h2
  | emptyTag name attrs => exact ⟨ha, hi, hv, hm, hsi, hcv⟩
  | comment => exact ⟨ha, hi, hv, hm, hsi, hcv⟩
  | decl => exact ⟨ha, hi, hv, hm, hsi, hcv⟩
  | eof => exact ⟨ha, hi, hv, hm, hsi, hcv⟩
  | err msg => exact ⟨ha, hi, hv, hm, hsi, hcv⟩

theorem runChk_inv (l : List XEvent) (st st' : ChkState) (h : ChkInv st)
    (hr : runChk st l = .ok st') : ChkInv st' := by
  induction l generalizing st with
  | nil =>
    rcases Except.ok.inj hr with rfl
    exact h
  | cons e l ih =>
    cases e with
    | eof =>
      rcases Except.ok.inj hr with rfl
      exact h
    | err msg => exact absurd hr (by simp [runChk])
    | startTag n a => exact ih (chkStep st (.startTag n a)) (chkStep_inv st _ h) hr
    | endTag n => exact ih (chkStep st (.endTag n)) (chkStep_inv st _ h) hr
    | emptyTag n a => exact ih (chkStep st (.emptyTag n a)) (chkStep_inv st _ h) hr
    | text s => exact ih (chkStep st (.text s)) (chkStep_inv st _ h) hr
    | comment => exact ih (chkStep st .comment) (chkStep_inv st _ h) hr
    | decl => exact ih (chkStep st .decl) (chkStep_inv st _ h) hr

theorem initChkState_inv : ChkInv initChkState := by
  refine ⟨⟨trimmed_empty, trimmed_empty, trimmed_empty, trimmed_empty, trimmed_empty,
      trimmed_empty, trimmed_empty, trimmed_empty, trimmed_empty, trimmed_empty,
      trimmed_empty, trimmed_empty⟩,
    ⟨trimmed_empty, trimmed_empty, trimmed_empty, trimmed_empty, trimmed_empty,
      trimmed_empty, trimmed_empty, trimmed_empty, trimmed_empty, trimmed_empty,
      trimmed_empty⟩, ?_, ?_, ?_, ?_⟩
  · intro v hv
    simp [initChkState] at hv
  · intro p hp
    simp [initChkState] at hp
  · intro p hp
    simp [initChkState] at hp
  · intro v hv
    simp [initChkState] at hv

theorem parse_stig_checklist_wf (doc : List XEvent) (c : STIGChecklist)
    (h : parse_stig_checklist doc = .ok c) : WFChecklist c := by
  unfold parse_stig_checklist at h
  cases hr : runChk initChkState doc with
  | error e =>
    rw [hr] at h
    exact absurd h (by simp [Except.map])
  | ok st =>
    rw [hr] at h
    simp only [Except.map, Except.ok.injEq] at h
    obtain ⟨ha, hi, hv, _, _, _⟩ := runChk_inv doc initChkState st initChkState_inv hr
    rw [← h]
    exact ⟨ha, hi, hv⟩

/-! ## Round trip (C1): re-parsing the serialized stream -/

theorem runChk_no_stop (l : List XEvent) (st : ChkState)
    (h : ∀ e ∈ l, stopEvent e = false) :
    runChk st l = .ok (l.foldl chkStep st) := by
  induction l generalizing st with
  | nil => rfl
  | cons e l ih =>
    have he := h e (List.mem_cons_self e l)
    have hl : ∀ e2 ∈ l, stopEvent e2 = false := fun e2 he2 => h e2 (List.mem_cons_of_mem e he2)
    cases e with
    | eof => simp [stopEvent] at he
    | err m => simp [stopEvent] at he
    | startTag n a => exact ih (chkStep st (.startTag n a)) hl
    | endTag n => exact ih (chkStep st (.endTag n)) hl
    | emptyTag n a => exact ih (chkStep st (.emptyTag n a)) hl
    | text s => exact ih (chkStep st (.text s)) hl
    | comment => exact ih (chkStep st .comment) hl
    | decl => exact ih (chkStep st .decl) hl

theorem strTrim_empty : strTrim "" = "" := by decide

theorem chkAssetField_ct (st : ChkState) (c name text : String) :
    chkAssetField { st with current_text := c } name text =
    { chkAssetField st name text with current_text := c } := by
  cases st
  unfold chkAssetField
  split_ifs <;> rfl

theorem chkInfoField_ct (st : ChkState) (c name text : String) :
    chkInfoField { st with current_text := c } name text =
    { chkInfoField st name text with current_text := c } := by
  cases st
  unfold chkInfoField
  split_ifs <;> rfl

theorem chkVulnField_ct (st : ChkState) (c name text : String) :
    chkVulnField { st with current_text := c } name text =
    { chkVulnField st name text with current_text := c } := by
  cases st with
  | mk a si vs ct ia isi iv cv sdm sim cva csn =>
    unfold chkVulnField
    split_ifs <;> (try rfl) <;> (cases cv <;> rfl)

theorem chkEndFields_ct (st : ChkState) (c name text : String) :
    chkEndFields { st with current_text := c } name text =
    { chkEndFields st name text with current_text := c } := by
  unfold chkEndFields
  rw [chkAssetField_ct, chkInfoField_ct, chkVulnField_ct]

theorem chkEndExits_ct (st : ChkState) (c name : String) :
    chkEndExits { st with current_text := c } name =
    { chkEndExits st name with current_text := c } := by
  cases st with
  | mk a si vs ct ia isi iv cv sdm sim cva csn =>
    unfold chkEndExits
    split_ifs <;> (try rfl) <;> (cases cv <;> rfl)

theorem ct_override (st : ChkState) (c d : String) :
    ({ { st with current_text := c } with current_text := d } : ChkState) =
    { st with current_text := d } := by
  cases st
  rfl

theorem chkEndExits_noop (st : ChkState) (name : String)
    (h1 : name ≠ "ASSET") (h2 : name ≠ "STIG_INFO") (h3 : name ≠ "VULN") :
    chkEndExits st name = st := by
  unfold chkEndExits
  rw [if_neg h1, if_neg h2, if_neg h3]

theorem chkStep_start_plain (st : ChkState) (name : String) (attrs : List (String × String))
    (h1 : name ≠ "ASSET") (h2 : name ≠ "STIG_INFO") (h3 : name ≠ "VULN") :
    chkStep st (.startTag name attrs) = { st with current_text := "" } := by
  simp only [chkStep]
  rw [if_neg h1, if_neg h2, if_neg h3]

theorem strTrim_idem (s : String) : strTrim (strTrim s) = strTrim s :=
  strTrim_trimmed s

theorem str_empty_append (s : String) : "" ++ s = s := rfl

theorem foldl_elem (st : ChkState) (tag s : String)
    (h1 : tag ≠ "ASSET") (h2 : tag ≠ "STIG_INFO") (h3 : tag ≠ "VULN") :
    List.foldl chkStep st (elemEvents tag s) =
      { chkEndFields st tag (strTrim s) with current_text := "" } := by
  unfold elemEvents textEvents
  by_cases hs : strTrim s = ""
  · rw [hs, if_pos rfl, List.nil_append]
    simp only [List.foldl_cons, List.foldl_nil]
    rw [chkStep_start_plain st tag [] h1 h2 h3]
    simp only [chkStep]
    simp [hs, strTrim_empty, strTrim_idem, str_empty_append, chkEndFields_ct,
      chkEndExits_ct, chkEndExits_noop, h1, h2, h3]
  · rw [if_neg hs]
    simp only [List.cons_append, List.nil_append, List.foldl_cons, List.foldl_nil]
    rw [chkStep_start_plain st tag [] h1 h2 h3]
    simp only [chkStep]
    simp [strTrim_idem, str_empty_append, chkEndFields_ct,
      chkEndExits_ct, chkEndExits_noop, h1, h2, h3]

theorem foldl_elem_append (st : ChkState) (tag s : String) (rest : List XEvent)
    (h1 : tag ≠ "ASSET") (h2 : tag ≠ "STIG_INFO") (h3 : tag ≠ "VULN") :
    List.foldl chkStep st (elemEvents tag s ++ rest) =
      List.foldl chkStep ({ chkEndFields st tag (strTrim s) with current_text := "" }) rest := by
  rw [List.foldl_append, foldl_elem st tag s h1 h2 h3]

theorem chkAssetField_noop (st : ChkState) (name text : String)
    (ha : st.in_asset = false) : chkAssetField st name text = st := by
  simp [chkAssetField, ha]

theorem chkInfoField_noop (st : ChkState) (name text : String)
    (hi : st.in_stig_info = false) : chkInfoField st name text = st := by
  simp [chkInfoField, hi]

theorem chkVulnField_noop (st : ChkState) (name text : String)
    (h4 : name ≠ "VULN_ATTRIBUTE") (h5 : name ≠ "ATTRIBUTE_DATA")
    (hcv : st.current_vuln = none) : chkVulnField st name text = st := by
  simp [chkVulnField, h4, h5, hcv]

theorem chkStep_end_noop (st : ChkState) (name : String)
    (h1 : name ≠ "ASSET") (h2 : name ≠ "STIG_INFO") (h3 : name ≠ "VULN")
    (h4 : name ≠ "VULN_ATTRIBUTE") (h5 : name ≠ "ATTRIBUTE_DATA")
    (ha : st.in_asset = false) (hi : st.in_stig_info = false)
    (hcv : st.current_vuln = none) :
    chkStep st (.endTag name) = { st with current_text := "" } := by
  simp only [chkStep]
  rw [show chkEndFields st name (strTrim st.current_text) = st by
    unfold chkEndFields
    rw [chkAssetField_noop st _ _ ha, chkInfoField_noop st _ _ hi,
      chkVulnField_noop st _ _ h4 h5 hcv]]
  rw [chkEndExits_noop st name h1 h2 h3]

theorem chkStep_start_asset (st : ChkState) :
    chkStep st (.startTag "ASSET" []) =
      { st with in_asset := true, current_text := "" } := by
  simp [chkStep]

theorem chkStep_start_stiginfo (st : ChkState) :
    chkStep st (.startTag "STIG_INFO" []) =
      { st with in_stig_info := true, current_text := "" } := by
  simp [chkStep]

theorem chkStep_start_vuln (st : ChkState) :
    chkStep st (.startTag "VULN" []) =
      { st with in_vuln := true, current_vuln := some emptyVuln,
                stig_data_map := [], current_text := "" } := by
  simp [chkStep]

theorem foldl_assetEvents (st : ChkState) (a : AssetInfo) (ha : WFAsset a)
    (hsi : st.in_stig_info = false) (hv : st.in_vuln = false) :
    List.foldl chkStep st (assetEvents a) =
      { st with asset := a, in_asset := false, current_text := "" } := by
  obtain ⟨a1, a2, a3, a4, a5, a6, a7, a8, a9, a10, a11, a12⟩ := ha
  have a1' : strTrim a.role = a.role := a1
  have a2' : strTrim a.asset_type = a.asset_type := a2
  have a3' : strTrim a.marking = a.marking := a3
  have a4' : strTrim a.host_name = a.host_name := a4
  have a5' : strTrim a.host_ip = a.host_ip := a5
  have a6' : strTrim a.host_mac = a.host_mac := a6
  have a7' : strTrim a.host_fqdn = a.host_fqdn := a7
  have a8' : strTrim a.target_comment = a.target_comment := a8
  have a9' : strTrim a.tech_area = a.tech_area := a9
  have a10' : strTrim a.target_key = a.target_key := a10
  have a11' : strTrim a.web_db_site = a.web_db_site := a11
  have a12' : strTrim a.web_db_instance = a.web_db_instance := a12
  have hw : strTrim (if a.web_or_database then "true" else "false") =
      (if a.web_or_database then "true" else "false") := by
    cases hb : a.web_or_database <;> simp [hb] <;> decide
  have hw2 : (decide ((if a.web_or_database then "true" else "false") = "true")) =
      a.web_or_database := by
    cases hb : a.web_or_database <;> simp [hb]
  unfold assetEvents
  simp only [List.append_assoc]
  rw [List.foldl_cons, chkStep_start_asset st]
  rw [foldl_elem_append _ "ROLE" _ _ (by decide) (by decide) (by decide),
    foldl_elem_append _ "ASSET_TYPE" _ _ (by decide) (by decide) (by decide),
    foldl_elem_append _ "MARKING" _ _ (by decide) (by decide) (by decide),
    foldl_elem_append _ "HOST_NAME" _ _ (by decide) (by decide) (by decide),
    foldl_elem_append _ "HOST_IP" _ _ (by decide) (by decide) (by decide),
    foldl_elem_append _ "HOST_MAC" _ _ (by decide) (by decide) (by decide),
    foldl_elem_append _ "HOST_FQDN" _ _ (by decide) (by decide) (by decide),
    foldl_elem_append _ "TARGET_COMMENT" _ _ (by decide) (by decide) (by decide),
    foldl_elem_append _ "TECH_AREA" _ _ (by decide) (by decide) (by decide),
    foldl_elem_append _ "TARGET_KEY" _ _ (by decide) (by decide) (by decide),
    foldl_elem_append _ "WEB_OR_DATABASE" _ _ (by decide) (by decide) (by decide),
    foldl_elem_append _ "WEB_DB_SITE" _ _ (by decide) (by decide) (by decide),
    foldl_elem_append _ "WEB_DB_INSTANCE" _ _ (by decide) (by decide) (by decide)]
  simp [a1', a2', a3', a4', a5', a6', a7', a8', a9', a10', a11', a12', hw, hw2,
    chkEndFields, chkAssetField, chkInfoField, chkVulnField, assetSet,
    chkStep, chkEndExits, hsi, hv, strTrim_empty, List.foldl_cons, List.foldl_nil]

theorem foldl_siDataEvents (st : ChkState) (key val : String) (hk : Trimmed key)
    (ha : st.in_asset = false) (hi : st.in_stig_info = true) (hv : st.in_vuln = false) :
    List.foldl chkStep st (siDataEvents key val) =
      { st with current_sid_name := key,
                si_data_map := insertA st.si_data_map key (strTrim val),
                current_text := "" } := by
  have hk' : strTrim key = key := hk
  unfold siDataEvents
  simp only [List.append_assoc]
  rw [List.foldl_cons, chkStep_start_plain st "SI_DATA" [] (by decide) (by decide) (by decide),
    foldl_elem_append _ "SID_NAME" _ _ (by decide) (by decide) (by decide),
    foldl_elem_append _ "SID_DATA" _ _ (by decide) (by decide) (by decide)]
  simp [hk', chkEndFields, chkAssetField, chkInfoField, chkVulnField,
    chkStep, chkEndExits, ha, hi, hv, strTrim_empty, List.foldl_cons, List.foldl_nil]

theorem foldl_siData_append (st : ChkState) (key val : String) (rest : List XEvent)
    (hk : Trimmed key) (ha : st.in_asset = false) (hi : st.in_stig_info = true)
    (hv : st.in_vuln = false) :
    List.foldl chkStep st (siDataEvents key val ++ rest) =
      List.foldl chkStep
        ({ st with current_sid_name := key,
                   si_data_map := insertA st.si_data_map key (strTrim val),
                   current_text := "" }) rest := by
  rw [List.foldl_append, foldl_siDataEvents st key val hk ha hi hv]

theorem foldl_stigInfoEvents (st : ChkState) (i : STIGInfo) (hwf : WFInfo i)
    (ha : st.in_asset = false) (hv : st.in_vuln = false) (hm : st.si_data_map = []) :
    List.foldl chkStep st (stigInfoEvents i) =
      { st with stig_info := i, in_stig_info := false,
                si_data_map := [("version", i.version), ("classification", i.classification),
                  ("customname", i.custom_name), ("stigid", i.stig_id),
                  ("description", i.description), ("filename", i.file_name),
                  ("releaseinfo", i.release_info), ("title", i.title),
                  ("uuid", i.uuid), ("notice", i.notice), ("source", i.source)],
                current_sid_name := "source", current_text := "" } := by
  obtain ⟨i1, i2, i3, i4, i5, i6, i7, i8, i9, i10, i11⟩ := hwf
  have i1' : strTrim i.version = i.version := i1
  have i2' : strTrim i.classification = i.classification := i2
  have i3' : strTrim i.custom_name = i.custom_name := i3
  have i4' : strTrim i.stig_id = i.stig_id := i4
  have i5' : strTrim i.description = i.description := i5
  have i6' : strTrim i.file_name = i.file_name := i6
  have i7' : strTrim i.release_info = i.release_info := i7
  have i8' : strTrim i.title = i.title := i8
  have i9' : strTrim i.uuid = i.uuid := i9
  have i10' : strTrim i.notice = i.notice := i10
  have i11' : strTrim i.source = i.source := i11
  unfold stigInfoEvents
  simp only [List.append_assoc]
  rw [List.foldl_cons, chkStep_start_stiginfo st,
    foldl_siData_append _ "version" _ _ (by unfold Trimmed; decide) (by exact ha) (by rfl) (by exact hv),
    foldl_siData_append _ "classification" _ _ (by unfold Trimmed; decide) (by exact ha) (by rfl) (by exact hv),
    foldl_siData_append _ "customname" _ _ (by unfold Trimmed; decide) (by exact ha) (by rfl) (by exact hv),
    foldl_siData_append _ "stigid" _ _ (by unfold Trimmed; decide) (by exact ha) (by rfl) (by exact hv),
    foldl_siData_append _ "description" _ _ (by unfold Trimmed; decide) (by exact ha) (by rfl) (by exact hv),
    foldl_siData_append _ "filename" _ _ (by unfold Trimmed; decide) (by exact ha) (by rfl) (by exact hv),
    foldl_siData_append _ "releaseinfo" _ _ (by unfold Trimmed; decide) (by exact ha) (by rfl) (by exact hv),
    foldl_siData_append _ "title" _ _ (by unfold Trimmed; decide) (by exact ha) (by rfl) (by exact hv),
    foldl_siData_append _ "uuid" _ _ (by unfold Trimmed; decide) (by exact ha) (by rfl) (by exact hv),
    foldl_siData_append _ "notice" _ _ (by unfold Trimmed; decide) (by exact ha) (by rfl) (by exact hv),
    foldl_siData_append _ "source" _ _ (by unfold Trimmed; decide) (by exact ha) (by rfl) (by exact hv)]
  simp [i1', i2', i3', i4', i5', i6', i7', i8', i9', i10', i11', hm,
    insertA, getA, projectStigInfo, chkEndFields, chkAssetField, chkInfoField,
    chkVulnField, chkStep, chkEndExits, ha, hv, strTrim_empty,
    List.foldl_cons, List.foldl_nil]

theorem foldl_stigDataEvents (st : ChkState) (attr val : String) (hA : Trimmed attr)
    (ha : st.in_asset = false) (hi : st.in_stig_info = false) (hv : st.in_vuln = true) :
    List.foldl chkStep st (stigDataEvents attr val) =
      { st with current_vuln_attribute := attr,
                stig_data_map := insertA st.stig_data_map attr (strTrim val),
                current_text := "" } := by
  have hA' : strTrim attr = attr := hA
  unfold stigDataEvents
  simp only [List.append_assoc]
  rw [List.foldl_cons, chkStep_start_plain st "STIG_DATA" [] (by decide) (by decide) (by decide),
    foldl_elem_append _ "VULN_ATTRIBUTE" _ _ (by decide) (by decide) (by decide),
    foldl_elem_append _ "ATTRIBUTE_DATA" _ _ (by decide) (by decide) (by decide)]
  cases hcv : st.current_vuln with
  | none =>
    simp [hA', hcv, chkEndFields, chkAssetField, chkInfoField, chkVulnField,
      chkStep, chkEndExits, ha, hi, hv, strTrim_empty, List.foldl_cons, List.foldl_nil]
  | some w =>
    simp [hA', hcv, vulnSet, chkEndFields, chkAssetField, chkInfoField, chkVulnField,
      chkStep, chkEndExits, ha, hi, hv, strTrim_empty, List.foldl_cons, List.foldl_nil]

theorem foldl_stigData_append (st : ChkState) (attr val : String) (rest : List XEvent)
    (hA : Trimmed attr) (ha : st.in_asset = false) (hi : st.in_stig_info = false)
    (hv : st.in_vuln = true) :
    List.foldl chkStep st (stigDataEvents attr val ++ rest) =
      List.foldl chkStep
        ({ st with current_vuln_attribute := attr,
                   stig_data_map := insertA st.stig_data_map attr (strTrim val),
                   current_text := "" }) rest := by
  rw [List.foldl_append, foldl_stigDataEvents st attr val hA ha hi hv]

/-- The `VULN_ATTRIBUTE`/`ATTRIBUTE_DATA` pairs written for one finding
(stig.rs:674-700), in emission order; used to state the fold over the
serialized attribute section as one list traversal. -/
def vulnAttrPairs (sr tk : String) (v : STIGVulnerability) : List (String × String) :=
  [("Vuln_Num", v.vuln_num), ("Severity", v.severity), ("Group_Title", v.group_title),
   ("Rule_ID", v.rule_id), ("Rule_Ver", v.rule_ver), ("Rule_Title", v.rule_title),
   ("Vuln_Discuss", v.vuln_discuss), ("IA_Controls", ""), ("Check_Content", v.check_content),
   ("Fix_Text", v.fix_text), ("False_Positives", ""), ("False_Negatives", ""),
   ("Documentable", "false"), ("Mitigations", ""), ("Potential_Impact", ""),
   ("Third_Party_Tools", ""), ("Mitigation_Control", ""), ("Responsibility", ""),
   ("Security_Override_Guidance", ""), ("Check_Content_Ref", "M"), ("Weight", "10.0"),
   ("Class", "Unclass"), ("STIGRef", sr), ("TargetKey", tk), ("STIG_UUID", ""),
   ("LEGACY_ID", "")]

theorem vulnEvents_eq (sr tk : String) (v : STIGVulnerability) :
    vulnEvents sr tk v = .startTag "VULN" [] ::
      ((vulnAttrPairs sr tk v).flatMap (fun p => stigDataEvents p.1 p.2) ++
       (v.cci_refs.flatMap (fun cci => stigDataEvents "CCI_REF" cci) ++
        (elemEvents "STATUS" v.status ++
         (elemEvents "FINDING_DETAILS" v.finding_details ++
          (elemEvents "COMMENTS" v.comments ++
           (elemEvents "SEVERITY_OVERRIDE" (v.severity_override.getD "") ++
            (elemEvents "SEVERITY_JUSTIFICATION" (v.severity_justification.getD "") ++
             [.endTag "VULN"]))))))) := by
  simp [vulnEvents, vulnAttrPairs, List.append_assoc]

theorem foldl_stigDataList (st : ChkState) (ps : List (String × String))
    (h : ∀ k ∈ ps.map Prod.fst, strTrim k = k) (ha : st.in_asset = false)
    (hi : st.in_stig_info = false) (hv : st.in_vuln = true) :
    ∃ cva c, List.foldl chkStep st (ps.flatMap (fun p => stigDataEvents p.1 p.2)) =
      { st with
          stig_data_map := ps.foldl (fun m p => insertA m p.1 (strTrim p.2)) st.stig_data_map,
          current_vuln_attribute := cva, current_text := c } := by
  induction ps generalizing st with
  | nil => exact ⟨st.current_vuln_attribute, st.current_text, by simp⟩
  | cons p ps ih =>
    simp only [List.flatMap_cons, List.append_assoc]
    rw [List.foldl_append,
      foldl_stigDataEvents st p.1 p.2
        (h p.1 (List.mem_map_of_mem Prod.fst (List.mem_cons_self p ps))) ha hi hv]
    rcases ih
      ({ st with
          current_vuln_attribute := p.1
          stig_data_map := insertA st.stig_data_map p.1 (strTrim p.2)
          current_text := "" })
      (fun k hk => h k (List.mem_cons_of_mem p.1 hk))
      (by exact ha) (by exact hi) (by exact hv) with ⟨cva2, c2, he⟩
    rw [he, List.foldl_cons]
    exact ⟨cva2, c2, by cases st; rfl⟩

set_option maxHeartbeats 800000 in
theorem foldl_vulnEvents (st : ChkState) (sr tk : String) (v : STIGVulnerability)
    (hwf : WFVuln v) (ha : st.in_asset = false) (hi : st.in_stig_info = false) :
    ∃ m cva, List.foldl chkStep st (vulnEvents sr tk v) =
      { st with vulnerabilities := st.vulnerabilities ++ [v],
                in_vuln := false, current_vuln := none,
                stig_data_map := m, current_vuln_attribute := cva,
                current_text := "" } := by
  obtain ⟨f1, f2, f3, f4, f5, f6, f7, f8, f9, f10, f11, f12, f13, f14, f15, f16⟩ := v
  obtain ⟨w1, w2, w3, w4, w5, w6, w7, w8, w9, w10, w11, w12, w13, w14, w15, w16⟩ := hwf
  dsimp only at w1 w2 w3 w4 w5 w6 w7 w8 w9 w10 w11 w12 w13 w14 w15 w16
  subst w13
  refine ⟨(List.foldl chkStep st
      (vulnEvents sr tk ⟨f1, f2, f3, f4, f16, f6, f7, f8, f9, f10, f11, f12, f13, f14, f15, f16⟩)).stig_data_map,
    (List.foldl chkStep st
      (vulnEvents sr tk ⟨f1, f2, f3, f4, f16, f6, f7, f8, f9, f10, f11, f12, f13, f14, f15, f16⟩)).current_vuln_attribute, ?_⟩
  have w1' : strTrim f1 = f1 := w1
  have w2' : strTrim f2 = f2 := w2
  have w3' : strTrim f3 = f3 := w3
  have w4' : strTrim f4 = f4 := w4
  have w5' : strTrim f16 = f16 := w5
  have w6' : strTrim f6 = f6 := w6
  have w7' : strTrim f7 = f7 := w7
  have w8' : strTrim f8 = f8 := w8
  have w9' : strTrim f9 = f9 := w9
  have w10' : strTrim f11 = f11 := w10
  have w11' : strTrim f12 = f12 := w11
  have w12' : strTrim f13 = f13 := w12
  have hgo : strTrim (f14.getD "") = f14.getD "" := by
    cases hso : f14 with
    | none => exact strTrim_empty
    | some s =>
      rw [hso] at w15
      exact w15.2
  have hgo2 : (if f14.getD "" = "" then (none : Option String)
      else some (f14.getD "")) = f14 := by
    cases hso : f14 with
    | none => simp
    | some s =>
      rw [hso] at w15
      simp [w15.1]
  have hgj : strTrim (f15.getD "") = f15.getD "" := by
    cases hsj : f15 with
    | none => exact strTrim_empty
    | some s =>
      rw [hsj] at w16
      exact w16.2
  have hgj2 : (if f15.getD "" = "" then (none : Option String)
      else some (f15.getD "")) = f15 := by
    cases hsj : f15 with
    | none => simp
    | some s =>
      rw [hsj] at w16
      simp [w16.1]
  rw [vulnEvents_eq]
  rw [List.foldl_cons, chkStep_start_vuln st, List.foldl_append]
  rcases foldl_stigDataList
      { st with in_vuln := true, current_vuln := some emptyVuln,
                stig_data_map := [], current_text := "" }
      (vulnAttrPairs sr tk ⟨f1, f2, f3, f4, f16, f6, f7, f8, f9, f10, f11, f12, f13, f14, f15, f16⟩)
      (by
        intro k hk
        simp only [vulnAttrPairs, List.map_cons, List.map_nil, List.mem_cons,
          List.not_mem_nil, or_false] at hk
        rcases hk with rfl|rfl|rfl|rfl|rfl|rfl|rfl|rfl|rfl|rfl|rfl|rfl|rfl|rfl|rfl|rfl|rfl|rfl|rfl|rfl|rfl|rfl|rfl|rfl|rfl|rfl <;> decide)
      (by exact ha) (by exact hi) (by rfl) with ⟨cva1, c1, he1⟩
  rw [he1, List.foldl_append]
  rcases w14 with hcc | ⟨cval, hcc, hcne, hctr⟩
  · rw [show f10 = ([] : List String) from hcc]
    simp only [List.flatMap_nil, List.foldl_nil]
    rw [foldl_elem_append _ "STATUS" _ _ (by decide) (by decide) (by decide),
      foldl_elem_append _ "FINDING_DETAILS" _ _ (by decide) (by decide) (by decide),
      foldl_elem_append _ "COMMENTS" _ _ (by decide) (by decide) (by decide),
      foldl_elem_append _ "SEVERITY_OVERRIDE" _ _ (by decide) (by decide) (by decide),
      foldl_elem_append _ "SEVERITY_JUSTIFICATION" _ _ (by decide) (by decide) (by decide)]
    simp [w1', w2', w3', w4', w5', w6', w7', w8', w9', w10', w11', w12', hcc,
      hgo, hgo2, hgj, hgj2, ha, hi, vulnAttrPairs, chkEndFields, chkAssetField,
      chkInfoField, chkVulnField, vulnSet, chkStep, chkEndExits, finishVuln,
      insertA, getA, emptyVuln, strTrim_empty, List.foldl_cons, List.foldl_nil]
  · have hctr' : strTrim cval = cval := hctr
    rw [show f10 = [cval] from hcc]
    simp only [List.flatMap_cons, List.flatMap_nil, List.append_nil]
    rw [foldl_stigDataEvents _ "CCI_REF" cval (by unfold Trimmed; decide)
      (by exact ha) (by exact hi) (by rfl)]
    rw [foldl_elem_append _ "STATUS" _ _ (by decide) (by decide) (by decide),
      foldl_elem_append _ "FINDING_DETAILS" _ _ (by decide) (by decide) (by decide),
      foldl_elem_append _ "COMMENTS" _ _ (by decide) (by decide) (by decide),
      foldl_elem_append _ "SEVERITY_OVERRIDE" _ _ (by decide) (by decide) (by decide),
      foldl_elem_append _ "SEVERITY_JUSTIFICATION" _ _ (by decide) (by decide) (by decide)]
    simp [w1', w2', w3', w4', w5', w6', w7', w8', w9', w10', w11', w12', hcc,
      hctr', hcne, hgo, hgo2, hgj, hgj2, ha, hi, vulnAttrPairs, chkEndFields,
      chkAssetField, chkInfoField, chkVulnField, vulnSet, chkStep, chkEndExits,
      finishVuln, insertA, getA, emptyVuln, strTrim_empty, List.foldl_cons,
      List.foldl_nil]

theorem foldl_vulnList (sr tk : String) (vs : List STIGVulnerability) (st : ChkState)
    (h : ∀ w ∈ vs, WFVuln w) (ha : st.in_asset = false) (hi : st.in_stig_info = false)
    (hv : st.in_vuln = false) (hcv : st.current_vuln = none) :
    ∃ m cva c, List.foldl chkStep st (vs.flatMap (vulnEvents sr tk)) =
      { st with vulnerabilities := st.vulnerabilities ++ vs,
                in_vuln := false, current_vuln := none,
                stig_data_map := m, current_vuln_attribute := cva,
                current_text := c } := by
  induction vs generalizing st with
  | nil =>
    refine ⟨st.stig_data_map, st.current_vuln_attribute, st.current_text, ?_⟩
    simp only [List.flatMap_nil, List.foldl_nil, List.append_nil]
    rw [← hv, ← hcv]
  | cons w vs ih =>
    simp only [List.flatMap_cons, List.append_assoc]
    rw [List.foldl_append]
    rcases foldl_vulnEvents st sr tk w (h w (List.mem_cons_self w vs)) ha hi with ⟨m1, c1, he⟩
    rw [he]
    rcases ih
      ({ st with
          vulnerabilities := st.vulnerabilities ++ [w]
          in_vuln := false
          current_vuln := none
          stig_data_map := m1
          current_vuln_attribute := c1
          current_text := "" })
      (fun w2 hw2 => h w2 (List.mem_cons_of_mem w hw2))
      (by exact ha) (by exact hi) (by rfl) (by rfl) with ⟨m2, c2, cc2, he2⟩
    rw [he2]
    exact ⟨m2, c2, cc2, by simp⟩

theorem no_stop_textEvents (s : String) : ∀ e ∈ textEvents s, stopEvent e = false := by
  intro e he
  unfold textEvents at he
  split_ifs at he
  · simp at he
  · rcases List.mem_singleton.mp he with rfl
    rfl

theorem no_stop_elemEvents (tag s : String) : ∀ e ∈ elemEvents tag s, stopEvent e = false := by
  intro e he
  unfold elemEvents at he
  rcases List.mem_cons.mp he with rfl | he
  · rfl
  rcases List.mem_append.mp he with he | he
  · exact no_stop_textEvents s e he
  · rcases List.mem_singleton.mp he with rfl
    rfl

theorem no_stop_siDataEvents (k v : String) : ∀ e ∈ siDataEvents k v, stopEvent e = false := by
  intro e he
  unfold siDataEvents at he
  rcases List.mem_cons.mp he with rfl | he
  · rfl
  simp only [List.append_assoc, List.mem_append, List.mem_singleton] at he
  rcases he with h | h | rfl
  · exact no_stop_elemEvents _ _ e h
  · exact no_stop_elemEvents _ _ e h
  · rfl

theorem no_stop_stigDataEvents (k v : String) : ∀ e ∈ stigDataEvents k v, stopEvent e = false := by
  intro e he
  unfold stigDataEvents at he
  rcases List.mem_cons.mp he with rfl | he
  · rfl
  simp only [List.append_assoc, List.mem_append, List.mem_singleton] at he
  rcases he with h | h | rfl
  · exact no_stop_elemEvents _ _ e h
  · exact no_stop_elemEvents _ _ e h
  · rfl

theorem no_stop_assetEvents (a : AssetInfo) : ∀ e ∈ assetEvents a, stopEvent e = false := by
  intro e he
  unfold assetEvents at he
  rcases List.mem_cons.mp he with rfl | he
  · rfl
  simp only [List.append_assoc, List.mem_append, List.mem_singleton] at he
  rcases he with h|h|h|h|h|h|h|h|h|h|h|h|h|rfl <;>
    first
      | rfl
      | exact no_stop_elemEvents _ _ e h

theorem no_stop_stigInfoEvents (i : STIGInfo) : ∀ e ∈ stigInfoEvents i, stopEvent e = false := by
  intro e he
  unfold stigInfoEvents at he
  rcases List.mem_cons.mp he with rfl | he
  · rfl
  simp only [List.append_assoc, List.mem_append, List.mem_singleton] at he
  rcases he with h|h|h|h|h|h|h|h|h|h|h|rfl <;>
    first
      | rfl
      | exact no_stop_siDataEvents _ _ e h

theorem no_stop_vulnEvents (sr tk : String) (v : STIGVulnerability) :
    ∀ e ∈ vulnEvents sr tk v, stopEvent e = false := by
  intro e he
  unfold vulnEvents at he
  rcases List.mem_cons.mp he with rfl | he
  · rfl
  simp only [List.append_assoc, List.mem_append, List.mem_singleton, List.mem_flatMap] at he
  rcases he with h|h|h|h|h|h|h|h|h|h|h|h|h|h|h|h|h|h|h|h|h|h|h|h|h|h|⟨cci, _, h⟩|h|h|h|h|h|rfl <;>
    first
      | rfl
      | exact no_stop_stigDataEvents _ _ e h
      | exact no_stop_elemEvents _ _ e h

theorem no_stop_generate (c : STIGChecklist) :
    ∀ e ∈ generate_ckl_events c, stopEvent e = false := by
  intro e he
  unfold generate_ckl_events at he
  rcases List.mem_cons.mp he with rfl | he
  · rfl
  rcases List.mem_cons.mp he with rfl | he
  · rfl
  rcases List.mem_cons.mp he with rfl | he
  · rfl
  simp only [List.append_assoc, List.mem_append, List.mem_cons, List.mem_singleton,
    List.mem_flatMap, List.not_mem_nil, or_false] at he
  rcases he with h|rfl|rfl|h|⟨vv, _, h⟩|rfl|rfl|rfl <;>
    first
      | rfl
      | exact no_stop_assetEvents _ e h
      | exact no_stop_stigInfoEvents _ e h
      | exact no_stop_vulnEvents _ _ _ e h

theorem reparse_ok (c : STIGChecklist) (h : WFChecklist c) :
    parse_stig_checklist (generate_ckl_events c) = .ok c := by
  cases c with
  | mk a i vs =>
    obtain ⟨ha, hi, hv⟩ := h
    unfold parse_stig_checklist
    rw [runChk_no_stop _ _ (no_stop_generate ⟨a, i, vs⟩)]
    unfold generate_ckl_events
    simp only [List.append_assoc]
    rw [List.foldl_cons, show chkStep initChkState .decl = initChkState from rfl,
      List.foldl_cons, show chkStep initChkState .comment = initChkState from rfl,
      List.foldl_cons,
      chkStep_start_plain initChkState "CHECKLIST" [] (by decide) (by decide) (by decide),
      List.foldl_append]
    rw [foldl_assetEvents _ _ ha (by rfl) (by rfl)]
    rw [List.foldl_cons, chkStep_start_plain _ "STIGS" [] (by decide) (by decide) (by decide),
      List.foldl_cons, chkStep_start_plain _ "iSTIG" [] (by decide) (by decide) (by decide),
      List.foldl_append]
    rw [foldl_stigInfoEvents _ _ hi (by rfl) (by rfl) (by rfl)]
    show Except.map _ (Except.ok (List.foldl chkStep
      ({ asset := a, stig_info := i, vulnerabilities := [], current_text := "",
         in_asset := false, in_stig_info := false, in_vuln := false,
         current_vuln := none, stig_data_map := [],
         si_data_map := [("version", i.version), ("classification", i.classification),
           ("customname", i.custom_name), ("stigid", i.stig_id),
           ("description", i.description), ("filename", i.file_name),
           ("releaseinfo", i.release_info), ("title", i.title),
           ("uuid", i.uuid), ("notice", i.notice), ("source", i.source)],
         current_vuln_attribute := "", current_sid_name := "source" } : ChkState)
      (vs.flatMap (vulnEvents (i.title ++ " :: " ++ i.release_info) a.target_key) ++
       [XEvent.endTag "iSTIG", XEvent.endTag "STIGS", XEvent.endTag "CHECKLIST"]))) = _
    rw [List.foldl_append]
    rcases foldl_vulnList (i.title ++ " :: " ++ i.release_info) a.target_key vs
      ({ asset := a, stig_info := i, vulnerabilities := [], current_text := "",
         in_asset := false, in_stig_info := false, in_vuln := false,
         current_vuln := none, stig_data_map := [],
         si_data_map := [("version", i.version), ("classification", i.classification),
           ("customname", i.custom_name), ("stigid", i.stig_id),
           ("description", i.description), ("filename", i.file_name),
           ("releaseinfo", i.release_info), ("title", i.title),
           ("uuid", i.uuid), ("notice", i.notice), ("source", i.source)],
         current_vuln_attribute := "", current_sid_name := "source" } : ChkState)
      hv rfl rfl rfl rfl with ⟨m, cva, ct2, he⟩
    rw [he]
    rw [List.foldl_cons,
      chkStep_end_noop _ "iSTIG" (by decide) (by decide) (by decide) (by decide) (by decide)
        (by rfl) (by rfl) (by rfl)]
    rw [List.foldl_cons,
      chkStep_end_noop _ "STIGS" (by decide) (by decide) (by decide) (by decide) (by decide)
        (by rfl) (by rfl) (by rfl)]
    rw [List.foldl_cons,
      chkStep_end_noop _ "CHECKLIST" (by decide) (by decide) (by decide) (by decide) (by decide)
        (by rfl) (by rfl) (by rfl)]
    rw [List.foldl_nil]
    simp [Except.map, initChkState]

/-- **C1.** For every checklist value `C` that is the output of the Checklist
Parser on some document, re-parsing the Serializer's output for `C`
(`parse_stig_checklist` applied to the event stream of `generate_ckl_xml C`)
yields a checklist equal to `C` in every field — in particular each finding's
ordered `CCI_REF` reference list survives the round trip. -/
theorem checklist_round_trip (doc : List XEvent) (c : STIGChecklist)
    (h : parse_stig_checklist doc = .ok c) :
    parse_stig_checklist (generate_ckl_events c) = .ok c :=
  reparse_ok c (parse_stig_checklist_wf doc c h)

/-- A concrete checklist document: one asset field, one benchmark datum, one
finding with a `Vuln_Num`, one `CCI_REF` and a status. -/
def rtDoc : List XEvent :=
  [.startTag "CHECKLIST" [],
   .startTag "ASSET" [],
   .startTag "HOST_NAME" [], .text "server01", .endTag "HOST_NAME",
   .endTag "ASSET",
   .startTag "STIGS" [], .startTag "iSTIG" [],
   .startTag "STIG_INFO" [],
   .startTag "SI_DATA" [],
   .startTag "SID_NAME" [], .text "title", .endTag "SID_NAME",
   .startTag "SID_DATA" [], .text "Demo STIG", .endTag "SID_DATA",
   .endTag "SI_DATA",
   .endTag "STIG_INFO",
   .startTag "VULN" [],
   .startTag "STIG_DATA" [],
   .startTag "VULN_ATTRIBUTE" [], .text "Vuln_Num", .endTag "VULN_ATTRIBUTE",
   .startTag "ATTRIBUTE_DATA" [], .text "V-1001", .endTag "ATTRIBUTE_DATA",
   .endTag "STIG_DATA",
   .startTag "STIG_DATA" [],
   .startTag "VULN_ATTRIBUTE" [], .text "CCI_REF", .endTag "VULN_ATTRIBUTE",
   .startTag "ATTRIBUTE_DATA" [], .text "CCI-000366", .endTag "ATTRIBUTE_DATA",
   .endTag "STIG_DATA",
   .startTag "STATUS" [], .text "Open", .endTag "STATUS",
   .endTag "VULN",
   .endTag "iSTIG", .endTag "STIGS", .endTag "CHECKLIST", .eof]

/-- The checklist the parser produces from `rtDoc`. -/
def rtChecklist : STIGChecklist :=
  { asset := { emptyAsset with host_name := "server01" }
    stig_info := { emptyStigInfo with title := "Demo STIG" }
    vulnerabilities :=
      [{ emptyVuln with
          vuln_num := "V-1001"
          cci_refs := ["CCI-000366"]
          status := "Open" }] }

set_option maxRecDepth 100000 in
/-- Witness for C1: the concrete document `rtDoc` parses to `rtChecklist`, and
re-parsing the serializer's output returns `rtChecklist` again. -/
theorem checklist_round_trip_witness :
    parse_stig_checklist rtDoc = .ok rtChecklist ∧
    parse_stig_checklist (generate_ckl_events rtChecklist) = .ok rtChecklist :=
  ⟨by decide, checklist_round_trip rtDoc rtChecklist (by decide)⟩
